import Mathlib

/-!
Shallow embedding of the "guess-what" multiplayer guessing-game coordinator
(`routes/index.js` socket handlers together with the `GameSession` mongoose
model).  Each socket handler is translated into a pure Lean function over an
explicit world state; the session store is modelled as a list of session
documents keyed by `sessionId`, `save` as a whole-document replace (the spec's
"dumb key-value layer"), and the `activeTimers` map as the list of session ids
with a pending timer.  Handlers are atomic, matching the per-session
serialization discipline the spec mandates.  Timestamps are naturals.
-/

namespace GuessWhat

/-- JavaScript whitespace characters relevant to `String.prototype.trim`. -/
def isWsChar (c : Char) : Bool :=
  c = ' ' || c = '\t' || c = '\n' || c = '\r' || c = '\x0b' || c = '\x0c'

/-- `String.prototype.trim`: drop leading and trailing whitespace. -/
def jsTrim (s : String) : String :=
  ⟨((s.data.dropWhile isWsChar).reverse.dropWhile isWsChar).reverse⟩

/-- `String.prototype.toLowerCase` restricted to the ASCII mapping. -/
def jsToLower (s : String) : String :=
  ⟨s.data.map Char.toLower⟩

/-- Session lifecycle status (`status` enum of the mongoose schema). -/
inductive Status where
  | waiting
  | in_progress
  | ended
deriving Repr, DecidableEq

/-- One player subdocument of a session. -/
structure Player where
  socketId : String
  username : String
  score : Nat
  attempts : Nat
  isConnected : Bool
  lastGameMasterTime : Option Nat
  lastActivity : Nat
deriving Repr, DecidableEq

/-- A session document, mirroring the `GameSession` schema field for field. -/
structure GameSession where
  sessionId : String
  requiresGameMaster : Bool
  players : List Player
  gameMasterId : Option String
  currentQuestion : Option String
  currentAnswer : Option String
  status : Status
  winner : Option String
  gameStartTime : Option Nat
  createdAt : Nat
  updatedAt : Nat
deriving Repr, DecidableEq

/-- Round-end reasons carried by the `game_ended` payload. -/
inductive Reason where
  | winner
  | timeout
  | all_attempts_used
deriving Repr, DecidableEq

/-- Outbound socket notifications (payloads restricted to the fields the
verified properties talk about). -/
inductive Emit where
  | errorMsg (dest : String) (msg : String)
  | sessionCreatedE (dest : String)
  | sessionJoinedE (dest : String) (reconnected : Bool)
  | playersUpdate (sid : String) (gmId : Option String)
  | questionSetE (dest : String)
  | gameStarted (sid : String) (question : Option String) (timeLimit : Nat)
  | guessResult (dest : String) (correct : Bool) (attemptsLeft : Nat)
  | gameEnded (sid : String) (reason : Reason) (winner : Option String) (answer : Option String)
  | newGameMaster (sid : String) (gmId : String)
  | chatMessage (sid : String)
  | gmNotify (dest : String) (kind : String)
  | playerNotify (sid : String) (kind : String)
  | nextRoundStarting (sid : String) (gmName : Option String)
deriving Repr, DecidableEq

/-- `findBySessionId` static: look up by the lowercased, trimmed key. -/
def findBySessionId (store : List GameSession) (key : String) : Option GameSession :=
  store.find? (fun s => s.sessionId = jsTrim (jsToLower key))

/-- `session.save()`: whole-document replace keyed by `sessionId` (append on
first save), with the pre-save hook advancing `updatedAt`. -/
def saveSession (now : Nat) (store : List GameSession) (s : GameSession) : List GameSession :=
  let s' := { s with updatedAt := now }
  if store.any (fun t => t.sessionId = s.sessionId) then
    store.map (fun t => if t.sessionId = s.sessionId then s' else t)
  else
    store ++ [s']

/-- `clearGameTimer`: delete the map entry for this session id (idempotent). -/
def clearGameTimer (timers : List String) (sid : String) : List String :=
  timers.filter (fun t => t ≠ sid)

/-- `activeTimers.set`: record a (single) pending timer for this session id. -/
def armTimer (timers : List String) (sid : String) : List String :=
  sid :: clearGameTimer timers sid

/-- Update the first element satisfying `p` (JS `Array.prototype.find` returns
a mutable reference to the first match). -/
def updateFirst (p : α → Bool) (f : α → α) : List α → List α
  | [] => []
  | x :: l => if p x then f x :: l else x :: updateFirst p f l

/-- `allPlayersExhausted`: every connected non-game-master player has used all
three attempts (and at least one such player exists). -/
def allPlayersExhausted (s : GameSession) : Bool :=
  let activePlayers := s.players.filter
    (fun p => p.isConnected && s.gameMasterId ≠ some p.socketId)
  (!activePlayers.isEmpty) && activePlayers.all (fun p => p.attempts ≥ 3)

/-- The sort comparator used on connected players: `lastGameMasterTime`
ascending, null first. -/
def cmpLGM (a b : Player) : Int :=
  match a.lastGameMasterTime with
  | none => -1
  | some ta =>
    match b.lastGameMasterTime with
    | none => 1
    | some tb => (ta : Int) - (tb : Int)

/-- Insert a player into a list already sorted by `cmpLGM`. -/
def insertByLGM (x : Player) : List Player → List Player
  | [] => [x]
  | y :: l => if cmpLGM x y < 0 then x :: y :: l else y :: insertByLGM x l

/-- The `Array.prototype.sort` call on connected players, realised as a
stable insertion sort over the comparator. -/
def sortPlayers : List Player → List Player
  | [] => []
  | x :: l => insertByLGM x (sortPlayers l)

/-- JS truthiness test for a nullable string: null and `""` are falsy. -/
def strOptFalsy (o : Option String) : Bool :=
  o.getD "" = ""

/-- `assignGameMaster`: if the current game master is missing or disconnected,
pick the first connected player in `lastGameMasterTime` order.  Note the
source never touches `lastGameMasterTime` here. -/
def assignGameMaster (s : GameSession) (notify : Bool) : GameSession × List Emit :=
  let connectedPlayers := s.players.filter (fun p => p.isConnected)
  if connectedPlayers.isEmpty then
    ({ s with requiresGameMaster := true }, [])
  else
    let currentGameMaster := s.players.find? (fun p => some p.socketId = s.gameMasterId)
    let isGameMasterValid := (currentGameMaster.map (fun p => p.isConnected)).getD false
    if isGameMasterValid then (s, [])
    else
      match sortPlayers connectedPlayers with
      | [] => (s, [])
      | g :: _ =>
        let s' := { s with gameMasterId := some g.socketId, requiresGameMaster := false }
        (s', if notify then
              [Emit.newGameMaster s.sessionId g.socketId,
               Emit.playersUpdate s.sessionId (some g.socketId)]
             else [])

/-- `rotateGameMaster`: reload the session from the store, pick the first
connected player in `lastGameMasterTime` order — excluding the current game
master when they are still connected — stamp the choice's
`lastGameMasterTime`, force status to `ended` and save. -/
def rotateGameMaster (now : Nat) (sid : String) (store : List GameSession) :
    List GameSession × List Emit :=
  match findBySessionId store sid with
  | none => (store, [])
  | some s =>
    let connectedPlayers := s.players.filter (fun p => p.isConnected)
    if connectedPlayers.isEmpty then
      (saveSession now store { s with requiresGameMaster := true }, [])
    else
      let currentGameMaster := s.players.find? (fun p => some p.socketId = s.gameMasterId)
      match sortPlayers connectedPlayers with
      | [] => (store, [])
      | first :: _ =>
        let gmStillConnected := (currentGameMaster.map (fun p => p.isConnected)).getD false
        let nextGameMaster :=
          if gmStillConnected then
            match (sortPlayers connectedPlayers).filter
                (fun p => s.gameMasterId ≠ some p.socketId) with
            | [] => first
            | o :: _ => o
          else first
        let s' := { s with
          gameMasterId := some nextGameMaster.socketId,
          status := Status.ended,
          requiresGameMaster := false,
          players := s.players.map (fun p =>
            if p.socketId = nextGameMaster.socketId
            then { p with lastGameMasterTime := some now } else p) }
        (saveSession now store s',
         [Emit.newGameMaster s.sessionId nextGameMaster.socketId,
          Emit.playersUpdate s.sessionId (some nextGameMaster.socketId),
          Emit.chatMessage s.sessionId,
          Emit.gmNotify nextGameMaster.socketId "new_game_master"])

/-- `handleCreateSession`. -/
def handleCreateSession (now : Nat) (callerId username sessionId : String)
    (store : List GameSession) : List GameSession × List Emit :=
  if jsTrim username = "" || jsTrim sessionId = "" then
    (store, [Emit.errorMsg callerId "Username and session ID are required"])
  else
    let trimmedSessionId := jsToLower (jsTrim sessionId)
    let trimmedUsername := jsTrim username
    match findBySessionId store trimmedSessionId with
    | some _ => (store, [Emit.errorMsg callerId "Session ID already exists"])
    | none =>
      let s : GameSession := {
        sessionId := trimmedSessionId
        requiresGameMaster := false
        players := [{ socketId := callerId, username := trimmedUsername, score := 0,
                      attempts := 0, isConnected := true,
                      lastGameMasterTime := some now, lastActivity := now }]
        gameMasterId := some callerId
        currentQuestion := none
        currentAnswer := none
        status := Status.waiting
        winner := none
        gameStartTime := none
        createdAt := now
        updatedAt := now }
      (saveSession now store s,
       [Emit.sessionCreatedE callerId,
        Emit.playersUpdate trimmedSessionId (some callerId)])

/-- `handleJoinSession`: reconnection when the username already exists,
otherwise append a new player (rejected mid-round). -/
def handleJoinSession (now : Nat) (callerId username sessionId : String)
    (store : List GameSession) : List GameSession × List Emit :=
  if jsTrim username = "" || jsTrim sessionId = "" then
    (store, [Emit.errorMsg callerId "Username and session ID are required"])
  else
    let trimmedUsername := jsTrim username
    match findBySessionId store (jsToLower (jsTrim sessionId)) with
    | none => (store, [Emit.errorMsg callerId "Session not found"])
    | some s =>
      match s.players.find? (fun p => p.username = trimmedUsername) with
      | some _ =>
        let s1 := { s with players :=
          (updateFirst (fun p => p.username = trimmedUsername)
            (fun p => { p with socketId := callerId, isConnected := true, lastActivity := now })
            s.players) }
        let a := assignGameMaster s1 true
        let store' := saveSession now store a.1
        (store',
         a.2 ++
         [Emit.sessionJoinedE callerId true,
          Emit.playersUpdate a.1.sessionId a.1.gameMasterId,
          Emit.chatMessage a.1.sessionId] ++
         (if (a.1.gameMasterId.isSome) ∧ a.1.status = Status.waiting then
            [Emit.gmNotify (a.1.gameMasterId.getD "") "player_joined"]
          else []))
      | none =>
        if s.status = Status.in_progress then
          (store, [Emit.errorMsg callerId "Game is in progress"])
        else
          let s1 := { s with players := s.players ++
            [{ socketId := callerId, username := trimmedUsername, score := 0,
               attempts := 0, isConnected := true,
               lastGameMasterTime := none, lastActivity := now }] }
          let a := assignGameMaster s1 true
          let store' := saveSession now store a.1
          (store',
           a.2 ++
           [Emit.sessionJoinedE callerId false,
            Emit.playersUpdate a.1.sessionId a.1.gameMasterId,
            Emit.chatMessage a.1.sessionId] ++
           (if (a.1.gameMasterId.isSome) ∧ a.1.status = Status.waiting then
              [Emit.gmNotify (a.1.gameMasterId.getD "") "player_joined"]
            else []))

/-- `handleSetQuestion`. -/
def handleSetQuestion (now : Nat) (callerId sessionId question answer : String)
    (store : List GameSession) : List GameSession × List Emit :=
  if jsTrim question = "" || jsTrim answer = "" then
    (store, [Emit.errorMsg callerId "Question and answer are required"])
  else
    match findBySessionId store sessionId with
    | none => (store, [Emit.errorMsg callerId "Session not found"])
    | some s =>
      if s.gameMasterId ≠ some callerId then
        (store, [Emit.errorMsg callerId "Only game master can set questions"])
      else if s.status ≠ Status.waiting then
        (store, [Emit.errorMsg callerId "Cannot set question while game is in progress"])
      else
        let s' := { s with
          currentQuestion := some (jsTrim question)
          currentAnswer := some (jsToLower (jsTrim answer)) }
        (saveSession now store s',
         [Emit.questionSetE callerId,
          Emit.playerNotify s'.sessionId "question_ready",
          Emit.gmNotify callerId "question_set"])

/-- `handleStartGame`: note the status guard only rejects `in_progress`. -/
def handleStartGame (now : Nat) (callerId sessionId : String)
    (store : List GameSession) (timers : List String) :
    List GameSession × List String × List Emit :=
  match findBySessionId store sessionId with
  | none => (store, timers, [Emit.errorMsg callerId "Session not found"])
  | some s =>
    if s.gameMasterId ≠ some callerId then
      (store, timers, [Emit.errorMsg callerId "Only game master can start the game"])
    else if (s.players.filter (fun p => p.isConnected)).length < 2 then
      (store, timers, [Emit.errorMsg callerId "Need at least 2 connected players to start the game"])
    else if strOptFalsy s.currentQuestion || strOptFalsy s.currentAnswer then
      (store, timers, [Emit.errorMsg callerId "Please set a question and answer first"])
    else if s.status = Status.in_progress then
      (store, timers, [Emit.errorMsg callerId "Game is already in progress"])
    else
      let s' := { s with
        players := s.players.map (fun p => { p with attempts := 0 })
        status := Status.in_progress
        gameStartTime := some now
        winner := none }
      let store' := saveSession now store s'
      let timers' := armTimer (clearGameTimer timers sessionId) sessionId
      (store', timers',
       [Emit.gameStarted sessionId s'.currentQuestion 60,
        Emit.gmNotify callerId "game_started"])

/-- The 60-second `setTimeout` callback armed by `handleStartGame`: reload the
session and act only when it is still `in_progress`. -/
def gameTimerCallback (now : Nat) (sessionId : String)
    (store : List GameSession) (timers : List String) :
    List GameSession × List String × List Emit :=
  match findBySessionId store sessionId with
  | none => (store, timers, [])
  | some s =>
    if s.status = Status.in_progress then
      let s' := { s with status := Status.ended }
      let store1 := saveSession now store s'
      let r := rotateGameMaster now sessionId store1
      (r.1, clearGameTimer timers sessionId,
       [Emit.gameEnded s.sessionId Reason.timeout none s.currentAnswer] ++
       r.2 ++ [Emit.chatMessage s.sessionId])
    else (store, timers, [])

/-- `handleSubmitGuess`. -/
def handleSubmitGuess (now : Nat) (callerId sessionId guess : String)
    (store : List GameSession) (timers : List String) :
    List GameSession × List String × List Emit :=
  if jsTrim guess = "" then
    (store, timers, [Emit.errorMsg callerId "Please enter a guess"])
  else
    match findBySessionId store sessionId with
    | none => (store, timers, [Emit.errorMsg callerId "Session not found"])
    | some s =>
      if s.status ≠ Status.in_progress then
        (store, timers, [Emit.errorMsg callerId "Game is not in progress"])
      else
        match s.players.find? (fun p => p.socketId = callerId) with
        | none => (store, timers, [Emit.errorMsg callerId "Player not found"])
        | some player =>
          if s.gameMasterId = some callerId then
            (store, timers, [Emit.errorMsg callerId "Game master cannot submit guesses"])
          else if player.attempts ≥ 3 then
            (store, timers, [Emit.errorMsg callerId "You have used all your attempts"])
          else
            let normalizedGuess := jsToLower (jsTrim guess)
            if some normalizedGuess = s.currentAnswer then
              let s' := { s with
                players := updateFirst (fun p => p.socketId = callerId)
                  (fun p => { p with attempts := p.attempts + 1, score := p.score + 10 })
                  s.players
                status := Status.ended
                winner := some player.username }
              let timers' := clearGameTimer timers sessionId
              let store1 := saveSession now store s'
              let r := rotateGameMaster now sessionId store1
              (r.1, timers',
               [Emit.gameEnded s.sessionId Reason.winner (some player.username) s.currentAnswer] ++
               r.2 ++ [Emit.chatMessage s.sessionId])
            else
              let s1 := { s with
                players := updateFirst (fun p => p.socketId = callerId)
                  (fun p => { p with attempts := p.attempts + 1 }) s.players }
              let store1 := saveSession now store s1
              let emBase :=
                [Emit.guessResult callerId false (3 - (player.attempts + 1)),
                 Emit.chatMessage s.sessionId] ++
                (match s.gameMasterId with
                 | some g => [Emit.gmNotify g "player_guessed"]
                 | none => [])
              if allPlayersExhausted s1 then
                let s2 := { s1 with status := Status.ended }
                let store2 := saveSession now store1 s2
                let timers' := clearGameTimer timers sessionId
                let r := rotateGameMaster now sessionId store2
                (r.1, timers',
                 emBase ++
                 [Emit.gameEnded s.sessionId Reason.all_attempts_used none s.currentAnswer] ++
                 r.2 ++ [Emit.chatMessage s.sessionId])
              else (store1, timers, emBase)

/-- `handleStartNextRound`: note there is no status guard at all — only the
game-master check. -/
def handleStartNextRound (now : Nat) (callerId sessionId : String)
    (store : List GameSession) : List GameSession × List Emit :=
  match findBySessionId store sessionId with
  | none => (store, [Emit.errorMsg callerId "Session not found"])
  | some s =>
    if s.gameMasterId ≠ some callerId then
      (store, [Emit.errorMsg callerId "Only game master can start the next round"])
    else
      let s' := { s with
        status := Status.waiting
        currentQuestion := none
        currentAnswer := none
        winner := none
        gameStartTime := none
        players := s.players.map (fun p => { p with attempts := 0 }) }
      (saveSession now store s',
       [Emit.nextRoundStarting s'.sessionId
          ((s'.players.find? (fun p => some p.socketId = s'.gameMasterId)).map
            (fun p => p.username))])

/-- Mark the (first) player record with the given socket id disconnected. -/
def markDisconnected (now : Nat) (callerId : String) (s0 : GameSession) : GameSession :=
  { s0 with players :=
    (updateFirst (fun p => p.socketId = callerId)
      (fun p => { p with isConnected := false, lastActivity := now }) s0.players) }

/-- Per-session body of the `handleDisconnect` loop.  `s0` is the document
from the initial query; `rotateGameMaster` reloads from the evolving store
while `session.save()` afterwards writes the in-memory document, so the
source's stale final save is reproduced faithfully. -/
def processDisconnect (now : Nat) (callerId : String)
    (acc : List GameSession × List String × List Emit) (s0 : GameSession) :
    List GameSession × List String × List Emit :=
  let store := acc.1
  let timers := acc.2.1
  let ems := acc.2.2
  match s0.players.find? (fun p => p.socketId = callerId) with
  | none => acc
  | some _ =>
    let s1 := markDisconnected now callerId s0
    let wasGameMaster := s0.gameMasterId = some callerId
    if wasGameMaster then
      let a := assignGameMaster s1 true
      if a.1.status = Status.in_progress then
        let timers' := clearGameTimer timers a.1.sessionId
        let s3 := { a.1 with status := Status.ended }
        let r := rotateGameMaster now s3.sessionId store
        let store2 := saveSession now r.1 s3
        (store2, timers',
         ems ++ a.2 ++
         [Emit.gameEnded s3.sessionId Reason.timeout none s3.currentAnswer] ++
         r.2 ++ [Emit.chatMessage s3.sessionId] ++
         [Emit.playersUpdate s3.sessionId s3.gameMasterId,
          Emit.chatMessage s3.sessionId])
      else
        (saveSession now store a.1, timers,
         ems ++ a.2 ++
         [Emit.playersUpdate a.1.sessionId a.1.gameMasterId,
          Emit.chatMessage a.1.sessionId])
    else
      (saveSession now store s1, timers,
       ems ++
       [Emit.playersUpdate s1.sessionId s1.gameMasterId,
        Emit.chatMessage s1.sessionId])

/-- `handleDisconnect`: scan every session containing the connection id and
apply the per-session disconnect body. -/
def handleDisconnect (now : Nat) (callerId : String)
    (store : List GameSession) (timers : List String) :
    List GameSession × List String × List Emit :=
  let sessions := store.filter (fun s => s.players.any (fun p => p.socketId = callerId))
  sessions.foldl (processDisconnect now callerId) (store, timers, [])

/-- The closed command alphabet of the coordinator.  `tick sid` is the fire
event of the round timer for session `sid`. -/
inductive Cmd where
  | create (callerId username sid : String)
  | join (callerId username sid : String)
  | setQ (callerId sid question answer : String)
  | startG (callerId sid : String)
  | guessC (callerId sid guess : String)
  | nextRound (callerId sid : String)
  | disc (callerId : String)
  | tick (sid : String)
deriving Repr, DecidableEq

/-- Global coordinator state: the session store and the pending-timer map. -/
structure World where
  store : List GameSession
  timers : List String
deriving Repr, DecidableEq

/-- The empty initial world. -/
def initWorld : World := { store := [], timers := [] }

/-- One serialized command execution.  A `tick` is only effective while its
timer is still pending (a `setTimeout` fires at most once). -/
def step (now : Nat) (c : Cmd) (w : World) : World × List Emit :=
  match c with
  | Cmd.create callerId username sid =>
    let r := handleCreateSession now callerId username sid w.store
    ({ w with store := r.1 }, r.2)
  | Cmd.join callerId username sid =>
    let r := handleJoinSession now callerId username sid w.store
    ({ w with store := r.1 }, r.2)
  | Cmd.setQ callerId sid question answer =>
    let r := handleSetQuestion now callerId sid question answer w.store
    ({ w with store := r.1 }, r.2)
  | Cmd.startG callerId sid =>
    let r := handleStartGame now callerId sid w.store w.timers
    ({ store := r.1, timers := r.2.1 }, r.2.2)
  | Cmd.guessC callerId sid guess =>
    let r := handleSubmitGuess now callerId sid guess w.store w.timers
    ({ store := r.1, timers := r.2.1 }, r.2.2)
  | Cmd.nextRound callerId sid =>
    let r := handleStartNextRound now callerId sid w.store
    ({ w with store := r.1 }, r.2)
  | Cmd.disc callerId =>
    let r := handleDisconnect now callerId w.store w.timers
    ({ store := r.1, timers := r.2.1 }, r.2.2)
  | Cmd.tick sid =>
    if sid ∈ w.timers then
      let r := gameTimerCallback now sid w.store (clearGameTimer w.timers sid)
      ({ store := r.1, timers := r.2.1 }, r.2.2)
    else (w, [])

/-- Run a timed trace of commands from a world (states only). -/
def runFrom (w : World) : List (Nat × Cmd) → World
  | [] => w
  | e :: tr => runFrom (step e.1 e.2 w).1 tr

/-- The connection id issuing a command, when there is one. -/
def cmdCaller : Cmd → Option String
  | Cmd.create callerId _ _ => some callerId
  | Cmd.join callerId _ _ => some callerId
  | Cmd.setQ callerId _ _ _ => some callerId
  | Cmd.startG callerId _ => some callerId
  | Cmd.guessC callerId _ _ => some callerId
  | Cmd.nextRound callerId _ => some callerId
  | Cmd.disc callerId => some callerId
  | Cmd.tick _ => none

/-- Session ids named by a command. -/
def cmdSid : Cmd → Option String
  | Cmd.create _ _ sid => some sid
  | Cmd.join _ _ sid => some sid
  | Cmd.setQ _ sid _ _ => some sid
  | Cmd.startG _ sid => some sid
  | Cmd.guessC _ sid _ => some sid
  | Cmd.nextRound _ sid => some sid
  | Cmd.disc _ => none
  | Cmd.tick sid => some sid

/-- A session id already in canonical (trimmed, lowercased) form. -/
def canonicalSid (sid : String) : Prop :=
  jsTrim (jsToLower sid) = sid

/-- A command addresses its session by a canonical id (so the raw timer key
and the stored session id coincide). -/
def canonicalCmd (c : Cmd) : Prop :=
  ∀ sid, cmdSid c = some sid → canonicalSid sid

/-- Dead-connection bookkeeping: transport-level truth that a socket id never
issues a command after its own disconnect. -/
def updateDead (dead : List String) : Cmd → List String
  | Cmd.disc callerId => callerId :: dead
  | _ => dead

/-- Well-formed traces relative to a set of already-dead connection ids:
commands use canonical session ids and never come from a dead connection. -/
def WFtrace (dead : List String) : List (Nat × Cmd) → Prop
  | [] => True
  | e :: tr =>
    canonicalCmd e.2 ∧ (∀ id, cmdCaller e.2 = some id → id ∉ dead) ∧
      WFtrace (updateDead dead e.2) tr

/-- Boolean (hence decidable) form of `canonicalCmd`. -/
def canonicalCmdB (c : Cmd) : Bool :=
  match cmdSid c with
  | some sid => jsTrim (jsToLower sid) = sid
  | none => true

/-- Boolean (hence decidable) form of `WFtrace`. -/
def WFtraceB (dead : List String) : List (Nat × Cmd) → Bool
  | [] => true
  | e :: tr =>
    canonicalCmdB e.2 &&
    (match cmdCaller e.2 with
     | some id => !(dead.contains id)
     | none => true) &&
    WFtraceB (updateDead dead e.2) tr

/-- The dead-connection set accumulated by a trace. -/
def deadAfter (dead : List String) : List (Nat × Cmd) → List String
  | [] => dead
  | e :: tr => deadAfter (updateDead dead e.2) tr

/-- Invariant: the stored session ids are pairwise distinct. -/
def IdsNodup (w : World) : Prop :=
  (w.store.map GameSession.sessionId).Nodup

/-- Invariant: every stored session id is in canonical form. -/
def StoreIdsCanonical (w : World) : Prop :=
  ∀ s ∈ w.store, canonicalSid s.sessionId

/-- Invariant: a session in status `ended` has no pending round timer. -/
def EndedNoTimer (w : World) : Prop :=
  ∀ s ∈ w.store, s.status = Status.ended → s.sessionId ∉ w.timers

/-- Invariant: every player's `attempts` is at most 3. -/
def AttemptsBound (w : World) : Prop :=
  ∀ s ∈ w.store, ∀ p ∈ s.players, p.attempts ≤ 3

/-- Invariant: a disconnected player record can only carry a dead socket id
(commands always come from live sockets). -/
def ConnOK (dead : List String) (w : World) : Prop :=
  ∀ s ∈ w.store, ∀ p ∈ s.players, p.isConnected = false → p.socketId ∈ dead

/-- The reachable-state invariant bundle used by the temporal claims. -/
def InvW (w : World) : Prop :=
  IdsNodup w ∧ StoreIdsCanonical w ∧ EndedNoTimer w ∧ AttemptsBound w

/-- The stateless per-session facts carried by the invariant bundle: a
canonical id, the attempts bound, and dead-socket bookkeeping for
disconnected player rows. -/
def coreQ (dead : List String) (s : GameSession) : Prop :=
  canonicalSid s.sessionId ∧
  (∀ p ∈ s.players, p.attempts ≤ 3) ∧
  (∀ p ∈ s.players, p.isConnected = false → p.socketId ∈ dead)

/-- The store/timer invariant bundle preserved by every serialized handler:
distinct canonical ids, the attempts bound, dead-socket bookkeeping, and no
pending timer for an ended session. -/
def InvS (dead : List String) (store : List GameSession) (timers : List String) : Prop :=
  (store.map GameSession.sessionId).Nodup ∧
  (∀ s ∈ store, coreQ dead s) ∧
  (∀ s ∈ store, s.status = Status.ended → s.sessionId ∉ timers)

/-- The invariant bundle read off a world. -/
def InvD (dead : List String) (w : World) : Prop :=
  InvS dead w.store w.timers

/-- "`a` may come before `b` in `lastGameMasterTime` order": there is no
strict inversion, where `b` strictly precedes `a` under the comparator. -/
def lgmLE (a b : Player) : Prop :=
  ¬(cmpLGM b a < 0 ∧ 0 < cmpLGM a b)

/-- The per-session view of every player's `attempts` counter. -/
def attemptsView (s : GameSession) : List Nat :=
  s.players.map (fun p => p.attempts)

/-- The rotation-invariant core of a player record: everything except
`lastGameMasterTime` and `lastActivity`. -/
def corePView (p : Player) : String × String × Nat × Nat × Bool :=
  (p.socketId, p.username, p.score, p.attempts, p.isConnected)

/-! ### Concrete sessions used by counterexamples and witnesses -/

/-- A session creator who has already held the game-master role once. -/
def pAlice : Player :=
  { socketId := "sa", username := "alice", score := 0, attempts := 1,
    isConnected := true, lastGameMasterTime := some 0, lastActivity := 0 }

/-- A joiner who has never been game master. -/
def pBob : Player :=
  { socketId := "sb", username := "bob", score := 0, attempts := 2,
    isConnected := true, lastGameMasterTime := none, lastActivity := 1 }

/-- A mid-round session: alice is game master, question and answer set. -/
def sInProgress : GameSession :=
  { sessionId := "abc12", requiresGameMaster := false,
    players := [pAlice, pBob], gameMasterId := some "sa",
    currentQuestion := some "capital of france", currentAnswer := some "paris",
    status := Status.in_progress, winner := none, gameStartTime := some 3,
    createdAt := 0, updatedAt := 3 }

/-- The same session after a round has ended (question and answer remain). -/
def sEnded : GameSession :=
  { sInProgress with status := Status.ended, winner := some "bob" }

/-- A waiting session with both players connected, alice the game master. -/
def sWaiting : GameSession :=
  { sInProgress with status := Status.waiting, gameStartTime := none }

/-- A third player with no attempts used yet. -/
def pCara : Player :=
  { socketId := "sc", username := "cara", score := 5, attempts := 0,
    isConnected := true, lastGameMasterTime := none, lastActivity := 2 }

/-- A mid-round session with three players. -/
def sThree : GameSession :=
  { sInProgress with players := [pAlice, pBob, pCara] }

/-- A mid-round session whose guesser has exhausted all three attempts. -/
def sMaxed : GameSession :=
  { sInProgress with players := [pAlice, { pBob with attempts := 3 }] }

/-- A waiting session whose recorded game master has disconnected. -/
def sGmGone : GameSession :=
  { sInProgress with
    status := Status.waiting,
    players := [{ pAlice with isConnected := false }, pBob],
    currentQuestion := none, currentAnswer := none, gameStartTime := none }

/-! ### Character and string normalization lemmas -/

lemma toNat_ofNat_valid (n : Nat) (h : n.isValidChar) : (Char.ofNat n).toNat = n := by
  unfold Char.ofNat
  rw [dif_pos h]
  unfold Char.ofNatAux Char.toNat
  simp [UInt32.toNat]

lemma char_eq_iff_toNat {a b : Char} : a = b ↔ a.toNat = b.toNat := by
  constructor
  · intro h; rw [h]
  · intro h; exact Char.ext (UInt32.ext h)

lemma valid_of_le (n : Nat) (h : n ≤ 122) : n.isValidChar := by
  left; omega

lemma char_toLower_guard_toNat {c : Char} (h : c.toNat ≥ 65 ∧ c.toNat ≤ 90) :
    (Char.toLower c).toNat = c.toNat + 32 := by
  unfold Char.toLower
  rw [if_pos h]
  exact toNat_ofNat_valid _ (valid_of_le _ (by omega))

lemma char_toLower_of_not_guard {c : Char} (h : ¬(c.toNat ≥ 65 ∧ c.toNat ≤ 90)) :
    Char.toLower c = c := by
  unfold Char.toLower
  rw [if_neg h]

lemma char_toLower_idem (c : Char) : (Char.toLower c).toLower = Char.toLower c := by
  by_cases h : c.toNat ≥ 65 ∧ c.toNat ≤ 90
  · have h2 : (Char.toLower c).toNat = c.toNat + 32 := char_toLower_guard_toNat h
    apply char_toLower_of_not_guard
    omega
  · rw [char_toLower_of_not_guard h]
    exact char_toLower_of_not_guard h

lemma isWsChar_iff_toNat (c : Char) :
    isWsChar c = true ↔
      (c.toNat = 32 ∨ c.toNat = 9 ∨ c.toNat = 10 ∨ c.toNat = 13 ∨
       c.toNat = 11 ∨ c.toNat = 12) := by
  have h32 : (' ').toNat = 32 := by decide
  have h9 : ('\t').toNat = 9 := by decide
  have h10 : ('\n').toNat = 10 := by decide
  have h13 : ('\r').toNat = 13 := by decide
  have h11 : ('\x0b').toNat = 11 := by decide
  have h12 : ('\x0c').toNat = 12 := by decide
  unfold isWsChar
  simp only [Bool.or_eq_true, decide_eq_true_eq, char_eq_iff_toNat, h32, h9, h10, h13, h11, h12]
  tauto

lemma isWsChar_toLower (c : Char) : isWsChar (Char.toLower c) = isWsChar c := by
  by_cases h : c.toNat ≥ 65 ∧ c.toNat ≤ 90
  · have h2 : (Char.toLower c).toNat = c.toNat + 32 := char_toLower_guard_toNat h
    have l : isWsChar (Char.toLower c) = false := by
      rw [← Bool.not_eq_true, isWsChar_iff_toNat]; omega
    have r : isWsChar c = false := by
      rw [← Bool.not_eq_true, isWsChar_iff_toNat]; omega
    rw [l, r]
  · rw [char_toLower_of_not_guard h]

lemma dropWhile_cons_self {p : α → Bool} {a : α} {l : List α}
    (h : List.dropWhile p (a :: l) = a :: l) : p a = false := by
  by_contra hc
  rw [Bool.not_eq_false] at hc
  rw [List.dropWhile_cons, if_pos hc] at h
  have hlen := List.IsSuffix.length_le (List.dropWhile_suffix (l := l) p)
  rw [h] at hlen
  simp at hlen

lemma dropWhile_eq_self_of_prefix {p : α → Bool} {l l' : List α}
    (hpre : l' <+: l) (h : List.dropWhile p l = l) : List.dropWhile p l' = l' := by
  cases l' with
  | nil => simp
  | cons a t =>
    obtain ⟨r, hr⟩ := hpre
    subst hr
    have h' : List.dropWhile p (a :: (t ++ r)) = a :: (t ++ r) := by
      simpa using h
    have hpa : p a = false := dropWhile_cons_self h'
    rw [List.dropWhile_cons, if_neg (by simp [hpa])]

lemma jsToLower_idem (s : String) : jsToLower (jsToLower s) = jsToLower s := by
  unfold jsToLower
  simp [List.map_map, Function.comp_def, char_toLower_idem]

lemma dropWhile_ws_map_toLower (l : List Char) :
    List.dropWhile isWsChar (l.map Char.toLower) =
      (List.dropWhile isWsChar l).map Char.toLower := by
  have hp : (isWsChar ∘ Char.toLower) = isWsChar := by
    funext c
    exact isWsChar_toLower c
  rw [List.dropWhile_map, hp]

lemma jsTrim_jsToLower_comm (s : String) :
    jsTrim (jsToLower s) = jsToLower (jsTrim s) := by
  unfold jsTrim jsToLower
  congr 1
  simp only []
  rw [dropWhile_ws_map_toLower, ← List.map_reverse, dropWhile_ws_map_toLower,
    ← List.map_reverse]

lemma jsTrim_idem (s : String) : jsTrim (jsTrim s) = jsTrim s := by
  unfold jsTrim
  congr 1
  set d1 := List.dropWhile isWsChar s.data with hd1
  set t := (List.dropWhile isWsChar d1.reverse).reverse with ht
  have htrev : t.reverse = List.dropWhile isWsChar d1.reverse := by
    rw [ht, List.reverse_reverse]
  have hstep1 : List.dropWhile isWsChar t = t := by
    have hpre : t <+: d1 := by
      rw [← List.reverse_suffix, htrev]
      exact List.dropWhile_suffix _
    exact dropWhile_eq_self_of_prefix hpre (List.dropWhile_idempotent _ _)
  have hstep2 : List.dropWhile isWsChar t.reverse = t.reverse := by
    rw [htrev]
    exact List.dropWhile_idempotent _ _
  show ((List.dropWhile isWsChar (String.mk t).data).reverse.dropWhile isWsChar).reverse = t
  show ((List.dropWhile isWsChar t).reverse.dropWhile isWsChar).reverse = t
  rw [hstep1, hstep2, List.reverse_reverse]

lemma canonicalSid_create (raw : String) : canonicalSid (jsToLower (jsTrim raw)) := by
  unfold canonicalSid
  rw [jsToLower_idem, jsTrim_jsToLower_comm, jsTrim_idem]

lemma canonicalSid_fixed {sid : String} (h : canonicalSid sid) :
    jsTrim sid = sid ∧ jsToLower sid = sid := by
  unfold canonicalSid at h
  constructor
  · conv_lhs => rw [← h]
    rw [jsTrim_idem, h]
  · conv_lhs => rw [← h]
    rw [jsTrim_jsToLower_comm, jsToLower_idem, ← jsTrim_jsToLower_comm, h]

/-! ### Store helper lemmas -/

lemma mem_saveSession {now : Nat} {store : List GameSession} {u t : GameSession}
    (h : t ∈ saveSession now store u) :
    t = { u with updatedAt := now } ∨ (t ∈ store ∧ t.sessionId ≠ u.sessionId) := by
  unfold saveSession at h
  by_cases hp : store.any (fun v => v.sessionId = u.sessionId)
  · rw [if_pos hp] at h
    simp only [List.mem_map] at h
    obtain ⟨v, hv, hveq⟩ := h
    by_cases hid : v.sessionId = u.sessionId
    · left
      rw [← hveq, if_pos (by simp [hid])]
    · right
      rw [← hveq, if_neg (by simp [hid])]
      exact ⟨hv, hid⟩
  · rw [if_neg hp] at h
    rcases List.mem_append.mp h with h1 | h1
    · right
      refine ⟨h1, fun hc => hp ?_⟩
      exact List.any_eq_true.mpr ⟨t, h1, by simp [hc]⟩
    · left
      simpa using h1

lemma find?_replace_self {now : Nat} {u : GameSession} :
    ∀ store : List GameSession,
      store.any (fun v => v.sessionId = u.sessionId) = true →
      (store.map (fun t =>
        if t.sessionId = u.sessionId then { u with updatedAt := now } else t)).find?
          (fun t => t.sessionId = u.sessionId) = some { u with updatedAt := now }
  | [], h => by simp at h
  | v :: rest, h => by
    by_cases hv : v.sessionId = u.sessionId
    · simp only [List.map_cons, if_pos hv]
      exact List.find?_cons_of_pos _ (by simp)
    · simp only [List.map_cons, if_neg hv]
      rw [List.find?_cons_of_neg _ (by simp [hv])]
      apply find?_replace_self rest
      simp only [List.any_cons, Bool.or_eq_true, decide_eq_true_eq] at h
      rcases h with h | h
      · exact absurd h hv
      · exact h

lemma find?_saveSession_self (now : Nat) (store : List GameSession) (u : GameSession) :
    (saveSession now store u).find? (fun t => t.sessionId = u.sessionId) =
      some { u with updatedAt := now } := by
  unfold saveSession
  by_cases hp : store.any (fun v => v.sessionId = u.sessionId)
  · rw [if_pos hp]
    exact find?_replace_self store hp
  · rw [if_neg hp]
    rw [List.find?_append]
    have hnone : store.find? (fun t => t.sessionId = u.sessionId) = none := by
      rw [List.find?_eq_none]
      intro x hx hcx
      apply hp
      exact List.any_eq_true.mpr ⟨x, hx, hcx⟩
    rw [hnone]
    simp [List.find?_cons_of_pos]

lemma find?_saveSession_ne {now : Nat} {store : List GameSession} {u : GameSession}
    {id : String} (hne : id ≠ u.sessionId) :
    (saveSession now store u).find? (fun t => t.sessionId = id) =
      store.find? (fun t => t.sessionId = id) := by
  unfold saveSession
  by_cases hp : store.any (fun v => v.sessionId = u.sessionId)
  · rw [if_pos hp]
    clear hp
    induction store with
    | nil => simp
    | cons v rest ih =>
      by_cases hv : v.sessionId = u.sessionId
      · simp only [List.map_cons, if_pos hv]
        rw [List.find?_cons_of_neg _ (by simp; exact fun hc => hne (hc ▸ rfl)),
          List.find?_cons_of_neg _ (by simp [hv]; exact fun hc => hne (hc ▸ hv ▸ rfl))]
        exact ih
      · simp only [List.map_cons, if_neg hv]
        by_cases hvid : v.sessionId = id
        · rw [List.find?_cons_of_pos _ (by simp [hvid]),
            List.find?_cons_of_pos _ (by simp [hvid])]
        · rw [List.find?_cons_of_neg _ (by simp [hvid]),
            List.find?_cons_of_neg _ (by simp [hvid])]
          exact ih
  · rw [if_neg hp]
    rw [List.find?_append]
    have h2 : List.find? (fun t => t.sessionId = id) [{ u with updatedAt := now }] = none := by
      rw [List.find?_eq_none]
      intro x hx
      simp only [List.mem_singleton] at hx
      subst hx
      simp only [decide_eq_true_eq]
      exact fun hc => hne hc.symm
    rw [h2]
    simp

lemma ids_saveSession (now : Nat) (store : List GameSession) (u : GameSession) :
    (saveSession now store u).map GameSession.sessionId =
      store.map GameSession.sessionId ∨
    ((saveSession now store u).map GameSession.sessionId =
      store.map GameSession.sessionId ++ [u.sessionId] ∧
     u.sessionId ∉ store.map GameSession.sessionId) := by
  unfold saveSession
  by_cases hp : store.any (fun v => v.sessionId = u.sessionId)
  · left
    rw [if_pos hp, List.map_map]
    apply List.map_congr_left
    intro t _
    by_cases hid : t.sessionId = u.sessionId
    · simp [hid]
    · simp [hid]
  · right
    rw [if_neg hp]
    constructor
    · simp
    · intro hc
      obtain ⟨t, ht, hteq⟩ := List.mem_map.mp hc
      exact absurd (List.any_eq_true.mpr ⟨t, ht, by simp [hteq]⟩) hp

/-! ### `updateFirst` lemmas -/

lemma updateFirst_length (p : α → Bool) (f : α → α) :
    ∀ l : List α, (updateFirst p f l).length = l.length
  | [] => rfl
  | x :: l => by
    unfold updateFirst
    by_cases hx : p x
    · rw [if_pos hx]
      simp
    · rw [if_neg hx]
      simp [updateFirst_length p f l]

lemma get?_updateFirst (p : α → Bool) (f : α → α) :
    ∀ (l : List α) (i : Nat),
      (updateFirst p f l).get? i = l.get? i ∨
      ∃ x, l.get? i = some x ∧ l.find? p = some x ∧
        (updateFirst p f l).get? i = some (f x)
  | [], _ => Or.inl rfl
  | y :: l, i => by
    unfold updateFirst
    by_cases hy : p y
    · rw [if_pos hy]
      cases i with
      | zero =>
        right
        exact ⟨y, rfl, List.find?_cons_of_pos _ hy, rfl⟩
      | succ j => left; rfl
    · rw [if_neg hy]
      cases i with
      | zero => left; rfl
      | succ j =>
        have ih := get?_updateFirst p f l j
        rcases ih with ih | ⟨x, hx1, hx2, hx3⟩
        · left; exact ih
        · right
          exact ⟨x, hx1, by rw [List.find?_cons_of_neg _ hy]; exact hx2, hx3⟩

lemma mem_updateFirst {p : α → Bool} {f : α → α} :
    ∀ {l : List α} {y : α}, y ∈ updateFirst p f l →
      y ∈ l ∨ ∃ x, x ∈ l ∧ p x = true ∧ y = f x := by
  intro l
  induction l with
  | nil => intro y h; simp [updateFirst] at h
  | cons a t ih =>
    intro y h
    unfold updateFirst at h
    by_cases ha : p a
    · rw [if_pos ha] at h
      rcases List.mem_cons.mp h with h1 | h1
      · right; exact ⟨a, List.mem_cons_self a t, ha, h1⟩
      · left; exact List.mem_cons_of_mem a h1
    · rw [if_neg ha] at h
      rcases List.mem_cons.mp h with h1 | h1
      · left; exact h1 ▸ List.mem_cons_self a t
      · rcases ih h1 with h2 | ⟨x, hx1, hx2, hx3⟩
        · left; exact List.mem_cons_of_mem a h2
        · right; exact ⟨x, List.mem_cons_of_mem a hx1, hx2, hx3⟩

lemma mem_updateFirst_of_not {p : α → Bool} {f : α → α} :
    ∀ {l : List α} {x : α}, x ∈ l → p x = false → x ∈ updateFirst p f l := by
  intro l
  induction l with
  | nil => intro x h; simp at h
  | cons a t ih =>
    intro x hx hpx
    unfold updateFirst
    by_cases ha : p a
    · rw [if_pos ha]
      rcases List.mem_cons.mp hx with h1 | h1
      · subst h1; rw [ha] at hpx; simp at hpx
      · exact List.mem_cons_of_mem _ h1
    · rw [if_neg ha]
      rcases List.mem_cons.mp hx with h1 | h1
      · exact h1 ▸ List.mem_cons_self a _
      · exact List.mem_cons_of_mem _ (ih h1 hpx)

lemma find?_updateFirst_same {p : α → Bool} {f : α → α}
    (hpres : ∀ x, p x = true → p (f x) = true) :
    ∀ l : List α, (updateFirst p f l).find? p = (l.find? p).map f
  | [] => rfl
  | y :: l => by
    unfold updateFirst
    by_cases hy : p y
    · rw [if_pos hy, List.find?_cons_of_pos _ (hpres y hy), List.find?_cons_of_pos _ hy]
      rfl
    · rw [if_neg hy, List.find?_cons_of_neg _ hy, List.find?_cons_of_neg _ hy]
      exact find?_updateFirst_same hpres l

lemma updateFirst_of_none {p : α → Bool} {f : α → α} :
    ∀ {l : List α}, l.find? p = none → updateFirst p f l = l := by
  intro l
  induction l with
  | nil => intro _; rfl
  | cons a t ih =>
    intro h
    rw [List.find?_eq_none] at h
    have ha : ¬p a = true := h a (List.mem_cons_self a t)
    unfold updateFirst
    rw [if_neg ha]
    congr 1
    apply ih
    rw [List.find?_eq_none]
    exact fun x hx => h x (List.mem_cons_of_mem a hx)

lemma updateFirst_append_first {p : α → Bool} {f : α → α} {x : α}
    (hx : p x = true) :
    ∀ {l₁ : List α} (l₂ : List α), (∀ y ∈ l₁, p y = false) →
      updateFirst p f (l₁ ++ x :: l₂) = l₁ ++ f x :: l₂ := by
  intro l₁
  induction l₁ with
  | nil =>
    intro l₂ _
    rw [List.nil_append, List.nil_append]
    unfold updateFirst
    rw [if_pos hx]
  | cons a t ih =>
    intro l₂ h
    have ha : p a = false := h a (List.mem_cons_self a t)
    rw [List.cons_append]
    unfold updateFirst
    rw [if_neg (by simp [ha]), List.cons_append]
    congr 1
    exact ih l₂ (fun y hy => h y (List.mem_cons_of_mem a hy))

lemma map_updateFirst_eq {p : α → Bool} {f : α → α} {g : α → β}
    (hg : ∀ x, p x = true → g (f x) = g x) :
    ∀ l : List α, (updateFirst p f l).map g = l.map g
  | [] => rfl
  | y :: l => by
    unfold updateFirst
    by_cases hy : p y
    · rw [if_pos hy]
      simp [hg y hy]
    · rw [if_neg hy]
      simp [map_updateFirst_eq hg l]

/-! ### Sorting lemmas -/

lemma mem_insertByLGM {x y : Player} :
    ∀ {l : List Player}, y ∈ insertByLGM x l ↔ y = x ∨ y ∈ l := by
  intro l
  induction l with
  | nil => simp [insertByLGM]
  | cons a t ih =>
    unfold insertByLGM
    by_cases hc : cmpLGM x a < 0
    · rw [if_pos hc]
      simp only [List.mem_cons]
    · rw [if_neg hc]
      simp only [List.mem_cons, ih]
      tauto

lemma mem_sortPlayers {y : Player} :
    ∀ {l : List Player}, y ∈ sortPlayers l ↔ y ∈ l := by
  intro l
  induction l with
  | nil => simp [sortPlayers]
  | cons a t ih =>
    unfold sortPlayers
    rw [mem_insertByLGM, ih]
    simp

lemma sortPlayers_eq_nil_iff : ∀ {l : List Player}, sortPlayers l = [] ↔ l = [] := by
  intro l
  cases l with
  | nil => simp [sortPlayers]
  | cons a t =>
    simp only [sortPlayers]
    constructor
    · intro h
      exfalso
      have : a ∈ insertByLGM a (sortPlayers t) := mem_insertByLGM.mpr (Or.inl rfl)
      rw [h] at this
      simp at this
    · intro h; simp at h

lemma insertByLGM_pairwise {x : Player} :
    ∀ {l : List Player}, l.Pairwise lgmLE → (insertByLGM x l).Pairwise lgmLE := by
  intro l
  induction l with
  | nil =>
    intro _
    simp [insertByLGM, lgmLE]
  | cons y t ih =>
    intro h
    rw [List.pairwise_cons] at h
    obtain ⟨hy, ht⟩ := h
    unfold insertByLGM
    by_cases hc : cmpLGM x y < 0
    · rw [if_pos hc]
      apply List.Pairwise.cons
      · intro z hz
        unfold lgmLE
        cases hx : x.lastGameMasterTime with
        | none =>
          cases hzt : z.lastGameMasterTime with
          | none => simp [cmpLGM, hx, hzt]
          | some tz => simp [cmpLGM, hx, hzt]
        | some tx =>
          cases hyt : y.lastGameMasterTime with
          | none => simp [cmpLGM, hx, hyt] at hc
          | some ty =>
            have htxy : (tx : Int) < ty := by
              simp only [cmpLGM, hx, hyt] at hc
              omega
            rcases List.mem_cons.mp hz with hz1 | hz1
            · subst hz1
              simp only [cmpLGM, hx, hyt]
              omega
            · have hyz := hy z hz1
              unfold lgmLE at hyz
              cases hzt : z.lastGameMasterTime with
              | none =>
                exfalso
                apply hyz
                simp only [cmpLGM, hyt, hzt]
                omega
              | some tz =>
                have htyz : (ty : Int) ≤ tz := by
                  simp only [cmpLGM, hyt, hzt] at hyz
                  omega
                simp only [cmpLGM, hx, hzt]
                omega
      · exact List.Pairwise.cons hy ht
    · rw [if_neg hc]
      apply List.Pairwise.cons
      · intro z hz
        rcases mem_insertByLGM.mp hz with hz1 | hz1
        · subst hz1
          unfold lgmLE
          intro hcontra
          exact hc hcontra.1
        · exact hy z hz1
      · exact ih ht

lemma sortPlayers_pairwise : ∀ l : List Player, (sortPlayers l).Pairwise lgmLE
  | [] => List.Pairwise.nil
  | _ :: l => insertByLGM_pairwise (sortPlayers_pairwise l)

/-! ### Rotation frame lemmas -/

lemma findBySessionId_after_save {now : Nat} {store : List GameSession}
    {u : GameSession} {sid : String} (hid : u.sessionId = jsTrim (jsToLower sid)) :
    findBySessionId (saveSession now store u) sid = some { u with updatedAt := now } := by
  unfold findBySessionId
  rw [← hid]
  exact find?_saveSession_self now store u

lemma corePView_stamp (now : Nat) (nextId : String) (l : List Player) :
    (l.map (fun p => if p.socketId = nextId then { p with lastGameMasterTime := some now }
      else p)).map corePView = l.map corePView := by
  rw [List.map_map]
  apply List.map_congr_left
  intro p _
  by_cases h : p.socketId = nextId
  · simp [corePView, h]
  · simp [corePView, h]

/-- Frame property of `rotateGameMaster`: on the session it targets, it only
touches `gameMasterId`, `requiresGameMaster`, `status` (forcing `ended` in
the main branch), `updatedAt` and `lastGameMasterTime` — winner, question,
answer and every player's core fields survive. -/
lemma rotateGameMaster_frame (now : Nat) (sid : String) (store : List GameSession)
    (u : GameSession) (hfind : findBySessionId store sid = some u) :
    ∃ u'', (rotateGameMaster now sid store).1.find?
        (fun t => t.sessionId = u.sessionId) = some u'' ∧
      u''.winner = u.winner ∧ u''.currentAnswer = u.currentAnswer ∧
      u''.currentQuestion = u.currentQuestion ∧
      (u''.status = u.status ∨ u''.status = Status.ended) ∧
      u''.players.map corePView = u.players.map corePView := by
  simp only [rotateGameMaster, hfind]
  by_cases hcp : (u.players.filter (fun p => p.isConnected)).isEmpty
  · rw [if_pos hcp]
    have hkey := find?_saveSession_self now store ({ u with requiresGameMaster := true })
    exact ⟨_, hkey, rfl, rfl, rfl, Or.inl rfl, rfl⟩
  · rw [if_neg hcp]
    have hne : u.players.filter (fun p => p.isConnected) ≠ [] := by
      intro hn
      rw [← List.isEmpty_iff] at hn
      exact hcp hn
    obtain ⟨g, rest, hs⟩ := List.exists_cons_of_ne_nil
      (fun hn => hne (sortPlayers_eq_nil_iff.mp hn))
    simp only [hs]
    by_cases hv : ((u.players.find? (fun p => some p.socketId = u.gameMasterId)).map
        (fun p => p.isConnected)).getD false = true
    · rw [if_pos hv]
      cases hfil : (g :: rest).filter (fun p => u.gameMasterId ≠ some p.socketId) with
      | nil =>
        have hkey := find?_saveSession_self now store
          ({ u with
              gameMasterId := some g.socketId
              status := Status.ended
              requiresGameMaster := false
              players := u.players.map (fun p =>
                if p.socketId = g.socketId then { p with lastGameMasterTime := some now }
                else p) })
        exact ⟨_, hkey, rfl, rfl, rfl, Or.inr rfl, corePView_stamp now g.socketId u.players⟩
      | cons o os =>
        have hkey := find?_saveSession_self now store
          ({ u with
              gameMasterId := some o.socketId
              status := Status.ended
              requiresGameMaster := false
              players := u.players.map (fun p =>
                if p.socketId = o.socketId then { p with lastGameMasterTime := some now }
                else p) })
        exact ⟨_, hkey, rfl, rfl, rfl, Or.inr rfl, corePView_stamp now o.socketId u.players⟩
    · rw [if_neg hv]
      have hkey := find?_saveSession_self now store
        ({ u with
            gameMasterId := some g.socketId
            status := Status.ended
            requiresGameMaster := false
            players := u.players.map (fun p =>
              if p.socketId = g.socketId then { p with lastGameMasterTime := some now }
              else p) })
      exact ⟨_, hkey, rfl, rfl, rfl, Or.inr rfl, corePView_stamp now g.socketId u.players⟩

/-- `rotateGameMaster` emits neither `game_ended` nor `guess_result`. -/
lemma rotateGameMaster_emits {now : Nat} {sid : String} {store : List GameSession} :
    ∀ e ∈ (rotateGameMaster now sid store).2,
      (∀ sid' r w a, e ≠ Emit.gameEnded sid' r w a) ∧
      (∀ d c atl, e ≠ Emit.guessResult d c atl) := by
  intro e he
  simp only [rotateGameMaster] at he
  cases hf : findBySessionId store sid with
  | none => simp only [hf] at he; simp at he
  | some u =>
    simp only [hf] at he
    by_cases hcp : (u.players.filter (fun p => p.isConnected)).isEmpty
    · rw [if_pos hcp] at he
      simp at he
    · rw [if_neg hcp] at he
      cases hs : sortPlayers (u.players.filter (fun p => p.isConnected)) with
      | nil =>
        simp only [hs] at he
        simp at he
      | cons g rest =>
        simp only [hs] at he
        simp only [List.mem_cons, List.not_mem_nil, or_false] at he
        rcases he with rfl | rfl | rfl | rfl <;>
          exact ⟨(by intros _ _ _ _ h; cases h), (by intros _ _ _ h; cases h)⟩

lemma find?_core_eq {l1 l2 : List Player}
    (h : l1.map corePView = l2.map corePView) (cid : String) :
    (l1.find? (fun p => p.socketId = cid)).map corePView =
      (l2.find? (fun p => p.socketId = cid)).map corePView := by
  have e1 := List.find?_map (p := fun c => c.1 = cid) corePView l1
  have e2 := List.find?_map (p := fun c => c.1 = cid) corePView l2
  rw [h, e2] at e1
  exact e1.symm

/-- `assignGameMaster` only ever touches `gameMasterId` and
`requiresGameMaster`; every other session field, and the whole player list,
is returned unchanged. -/
lemma assignGameMaster_core (s : GameSession) (b : Bool) :
    (assignGameMaster s b).1.players = s.players ∧
    (assignGameMaster s b).1.sessionId = s.sessionId ∧
    (assignGameMaster s b).1.status = s.status ∧
    (assignGameMaster s b).1.winner = s.winner ∧
    (assignGameMaster s b).1.currentQuestion = s.currentQuestion ∧
    (assignGameMaster s b).1.currentAnswer = s.currentAnswer ∧
    (assignGameMaster s b).1.gameStartTime = s.gameStartTime ∧
    (assignGameMaster s b).1.updatedAt = s.updatedAt := by
  simp only [assignGameMaster]
  by_cases hcp : (s.players.filter (fun p => p.isConnected)).isEmpty
  · rw [if_pos hcp]
    simp
  · rw [if_neg hcp]
    by_cases hv : ((s.players.find? (fun p => some p.socketId = s.gameMasterId)).map
        (fun p => p.isConnected)).getD false = true
    · rw [if_pos hv]
      simp
    · rw [if_neg hv]
      cases hs : sortPlayers (s.players.filter (fun p => p.isConnected)) with
      | nil =>
        simp only [hs]
        simp
      | cons g rest =>
        simp only [hs]
        simp

/-- `assignGameMaster` never emits an error. -/
lemma assignGameMaster_no_error (s : GameSession) (b : Bool) :
    ∀ e ∈ (assignGameMaster s b).2, ∀ d m, e ≠ Emit.errorMsg d m := by
  intro e he
  simp only [assignGameMaster] at he
  by_cases hcp : (s.players.filter (fun p => p.isConnected)).isEmpty
  · rw [if_pos hcp] at he
    simp at he
  · rw [if_neg hcp] at he
    by_cases hv : ((s.players.find? (fun p => some p.socketId = s.gameMasterId)).map
        (fun p => p.isConnected)).getD false = true
    · rw [if_pos hv] at he
      simp at he
    · rw [if_neg hv] at he
      cases hs : sortPlayers (s.players.filter (fun p => p.isConnected)) with
      | nil => simp only [hs] at he; simp at he
      | cons g rest =>
        simp only [hs] at he
        by_cases hb : b
        · rw [if_pos hb] at he
          simp only [List.mem_cons, List.not_mem_nil, or_false] at he
          rcases he with rfl | rfl <;> exact (by intros _ _ h; cases h)
        · rw [if_neg hb] at he
          simp at he

/-! ### Claim C7 -/

/-- C7: `join_session` with an existing username is a reconnection — the
matching player record gets the caller's connection id and `connected=true`
while its `score` and `attempts` are preserved, the username list (and hence
uniqueness) is untouched, no error is emitted whatever the status; a fresh
username is appended as a brand-new player record, except while the session
is `in_progress`, when it is rejected with an error and no state change. -/
theorem C7_join_reconnection (now : Nat) (callerId username sid : String)
    (store : List GameSession) (s : GameSession)
    (hu : jsTrim username ≠ "") (hsid : jsTrim sid ≠ "")
    (hfind : findBySessionId store (jsToLower (jsTrim sid)) = some s) :
    (∀ p, s.players.find? (fun q => q.username = jsTrim username) = some p →
      ∃ s', (handleJoinSession now callerId username sid store).1.find?
          (fun t => t.sessionId = s.sessionId) = some s' ∧
        s'.players.map (fun q => q.username) = s.players.map (fun q => q.username) ∧
        s'.players.length = s.players.length ∧
        s'.players.find? (fun q => q.username = jsTrim username) =
          some { p with socketId := callerId, isConnected := true, lastActivity := now } ∧
        Emit.sessionJoinedE callerId true ∈
          (handleJoinSession now callerId username sid store).2 ∧
        (∀ d m, Emit.errorMsg d m ∉ (handleJoinSession now callerId username sid store).2)) ∧
    (s.players.find? (fun q => q.username = jsTrim username) = none →
      s.status = Status.in_progress →
      handleJoinSession now callerId username sid store =
        (store, [Emit.errorMsg callerId "Game is in progress"])) ∧
    (s.players.find? (fun q => q.username = jsTrim username) = none →
      s.status ≠ Status.in_progress →
      ∃ s', (handleJoinSession now callerId username sid store).1.find?
          (fun t => t.sessionId = s.sessionId) = some s' ∧
        s'.players = s.players ++
          [{ socketId := callerId, username := jsTrim username, score := 0,
             attempts := 0, isConnected := true, lastGameMasterTime := none,
             lastActivity := now }]) := by
  refine ⟨?_, ?_, ?_⟩
  · intro p hrec
    simp only [handleJoinSession]
    rw [if_neg (by simp [hu, hsid])]
    simp only [hfind, hrec]
    have hcore := assignGameMaster_core
      ({ s with players :=
        (updateFirst (fun q => q.username = jsTrim username)
          (fun q => { q with socketId := callerId, isConnected := true, lastActivity := now })
          s.players) }) true
    obtain ⟨hply, hsid2, hst2, _⟩ := hcore
    have hkey := find?_saveSession_self now store
      (assignGameMaster
        ({ s with players :=
          (updateFirst (fun q => q.username = jsTrim username)
            (fun q => { q with socketId := callerId, isConnected := true, lastActivity := now })
            s.players) }) true).1
    rw [hsid2] at hkey
    refine ⟨_, hkey, ?_, ?_, ?_, ?_, ?_⟩
    · show (assignGameMaster _ true).1.players.map _ = _
      rw [hply]
      simp only []
      exact map_updateFirst_eq (p := fun q => q.username = jsTrim username)
        (f := fun q => { q with socketId := callerId, isConnected := true, lastActivity := now })
        (g := fun q => q.username)
        (fun x _ => rfl) s.players
    · show (assignGameMaster _ true).1.players.length = _
      rw [hply]
      simp only []
      exact updateFirst_length (fun q => q.username = jsTrim username)
        (fun q => { q with socketId := callerId, isConnected := true, lastActivity := now })
        s.players
    · show (assignGameMaster _ true).1.players.find? _ = _
      rw [hply]
      simp only []
      rw [find?_updateFirst_same (p := fun q => q.username = jsTrim username)
        (f := fun q => { q with socketId := callerId, isConnected := true, lastActivity := now })
        (fun x hx => hx) s.players, hrec]
      rfl
    · apply List.mem_append_left
      exact List.mem_append_right _ (List.mem_cons_self _ _)
    · intro d m hmem
      rcases List.mem_append.mp hmem with h1 | h1
      · rcases List.mem_append.mp h1 with h2 | h2
        · exact assignGameMaster_no_error _ true _ h2 d m rfl
        · simp at h2
      · by_cases hgmn : ((assignGameMaster
            ({ s with players :=
              (updateFirst (fun q => q.username = jsTrim username)
                (fun q => { q with socketId := callerId, isConnected := true, lastActivity := now })
                s.players) }) true).1.gameMasterId.isSome) ∧
            (assignGameMaster
            ({ s with players :=
              (updateFirst (fun q => q.username = jsTrim username)
                (fun q => { q with socketId := callerId, isConnected := true, lastActivity := now })
                s.players) }) true).1.status = Status.waiting
        · rw [if_pos hgmn] at h1
          simp at h1
        · rw [if_neg hgmn] at h1
          simp at h1
  · intro hnone hst
    simp only [handleJoinSession]
    rw [if_neg (by simp [hu, hsid])]
    simp only [hfind, hnone]
    rw [if_pos hst]
  · intro hnone hst
    simp only [handleJoinSession]
    rw [if_neg (by simp [hu, hsid])]
    simp only [hfind, hnone]
    rw [if_neg hst]
    have hcore := assignGameMaster_core
      ({ s with players := s.players ++
        [{ socketId := callerId, username := jsTrim username, score := 0,
           attempts := 0, isConnected := true, lastGameMasterTime := none,
           lastActivity := now }] }) true
    obtain ⟨hply, hsid2, _⟩ := hcore
    have hkey := find?_saveSession_self now store
      (assignGameMaster
        ({ s with players := s.players ++
          [{ socketId := callerId, username := jsTrim username, score := 0,
             attempts := 0, isConnected := true, lastGameMasterTime := none,
             lastActivity := now }] }) true).1
    rw [hsid2] at hkey
    refine ⟨_, hkey, ?_⟩
    show (assignGameMaster _ true).1.players = _
    rw [hply]

/-- C7 (witness): bob reconnects to the waiting session from a new socket;
his record keeps score and attempts, gains the new connection id, and no
duplicate username entry appears. -/
theorem C7_witness :
    (jsTrim "bob" ≠ "" ∧ jsTrim "abc12" ≠ "" ∧
     findBySessionId [sWaiting] (jsToLower (jsTrim "abc12")) = some sWaiting ∧
     sWaiting.players.find? (fun q => q.username = jsTrim "bob") = some pBob) ∧
    (∃ s', (handleJoinSession 9 "sb2" "bob" "abc12" [sWaiting]).1.find?
        (fun t => t.sessionId = sWaiting.sessionId) = some s' ∧
      s'.players.map (fun q => q.username) = sWaiting.players.map (fun q => q.username) ∧
      s'.players.length = sWaiting.players.length ∧
      s'.players.find? (fun q => q.username = jsTrim "bob") =
        some { pBob with socketId := "sb2", isConnected := true, lastActivity := 9 } ∧
      Emit.sessionJoinedE "sb2" true ∈
        (handleJoinSession 9 "sb2" "bob" "abc12" [sWaiting]).2 ∧
      (∀ d m, Emit.errorMsg d m ∉ (handleJoinSession 9 "sb2" "bob" "abc12" [sWaiting]).2)) :=
  ⟨⟨by decide, by decide, by decide, by decide⟩,
   (C7_join_reconnection 9 "sb2" "bob" "abc12" [sWaiting] sWaiting (by decide)
     (by decide) (by decide)).1 pBob (by decide)⟩

/-! ### Claim C9 -/

/-- C9: `create_session` initializes the creator with
`lastGameMasterTime = some now` (not null), while `join_session` appends new
players with `lastGameMasterTime = none`; since the sort treats null as
earliest, every null-stamped player sorts ahead of any stamped player (in
particular the creator), so the first rotation prefers the joiners. -/
theorem C9_creator_vs_joiners :
    (∀ (now : Nat) (callerId username sid : String) (store : List GameSession),
      jsTrim username ≠ "" → jsTrim sid ≠ "" →
      findBySessionId store (jsToLower (jsTrim sid)) = none →
      ∃ s', (handleCreateSession now callerId username sid store).1.find?
          (fun t => t.sessionId = jsToLower (jsTrim sid)) = some s' ∧
        s'.players = [{ socketId := callerId, username := jsTrim username, score := 0,
                        attempts := 0, isConnected := true,
                        lastGameMasterTime := some now, lastActivity := now }] ∧
        s'.gameMasterId = some callerId) ∧
    (∀ (now : Nat) (callerId username sid : String) (store : List GameSession)
        (s : GameSession),
      jsTrim username ≠ "" → jsTrim sid ≠ "" →
      findBySessionId store (jsToLower (jsTrim sid)) = some s →
      s.players.find? (fun q => q.username = jsTrim username) = none →
      s.status ≠ Status.in_progress →
      ∃ s', (handleJoinSession now callerId username sid store).1.find?
          (fun t => t.sessionId = s.sessionId) = some s' ∧
        s'.players = s.players ++
          [{ socketId := callerId, username := jsTrim username, score := 0,
             attempts := 0, isConnected := true, lastGameMasterTime := none,
             lastActivity := now }]) ∧
    (∀ l : List Player, l ≠ [] → (∃ p ∈ l, p.lastGameMasterTime = none) →
      ∃ h rest, sortPlayers l = h :: rest ∧ h.lastGameMasterTime = none) ∧
    (∀ l : List Player, (sortPlayers l).Pairwise
      (fun a b => b.lastGameMasterTime = none → a.lastGameMasterTime = none)) := by
  refine ⟨?_, ?_, ?_, ?_⟩
  · intro now callerId username sid store hu hsid hnone
    simp only [handleCreateSession]
    rw [if_neg (by simp [hu, hsid])]
    simp only [hnone]
    have hkey := find?_saveSession_self now store
      ({ sessionId := jsToLower (jsTrim sid)
         requiresGameMaster := false
         players := [{ socketId := callerId, username := jsTrim username, score := 0,
                       attempts := 0, isConnected := true,
                       lastGameMasterTime := some now, lastActivity := now }]
         gameMasterId := some callerId
         currentQuestion := none
         currentAnswer := none
         status := Status.waiting
         winner := none
         gameStartTime := none
         createdAt := now
         updatedAt := now })
    exact ⟨_, hkey, rfl, rfl⟩
  · intro now callerId username sid store s hu hsid hfind hnone hst
    simp only [handleJoinSession]
    rw [if_neg (by simp [hu, hsid])]
    simp only [hfind, hnone]
    rw [if_neg hst]
    have hcore := assignGameMaster_core
      ({ s with players := s.players ++
        [{ socketId := callerId, username := jsTrim username, score := 0,
           attempts := 0, isConnected := true, lastGameMasterTime := none,
           lastActivity := now }] }) true
    obtain ⟨hply, hsid2, _⟩ := hcore
    have hkey := find?_saveSession_self now store
      (assignGameMaster
        ({ s with players := s.players ++
          [{ socketId := callerId, username := jsTrim username, score := 0,
             attempts := 0, isConnected := true, lastGameMasterTime := none,
             lastActivity := now }] }) true).1
    rw [hsid2] at hkey
    refine ⟨_, hkey, ?_⟩
    show (assignGameMaster _ true).1.players = _
    rw [hply]
  · intro l hne hex
    obtain ⟨h, rest, hs⟩ := List.exists_cons_of_ne_nil
      (fun hn => hne (sortPlayers_eq_nil_iff.mp hn))
    refine ⟨h, rest, hs, ?_⟩
    obtain ⟨p, hpmem, hpnull⟩ := hex
    have hpmem' : p ∈ sortPlayers l := mem_sortPlayers.mpr hpmem
    rw [hs] at hpmem'
    rcases List.mem_cons.mp hpmem' with rfl | hpl
    · exact hpnull
    · by_contra hh
      have hpw := sortPlayers_pairwise l
      rw [hs, List.pairwise_cons] at hpw
      have hle := hpw.1 p hpl
      unfold lgmLE at hle
      apply hle
      cases hht : h.lastGameMasterTime with
      | none => exact absurd hht hh
      | some th =>
        constructor
        · simp [cmpLGM, hpnull]
        · simp [cmpLGM, hpnull, hht]
  · intro l
    apply List.Pairwise.imp ?_ (sortPlayers_pairwise l)
    intro a b hab hbnull
    by_contra hanull
    apply hab
    cases hat : a.lastGameMasterTime with
    | none => exact absurd hat hanull
    | some ta =>
      constructor
      · simp [cmpLGM, hbnull]
      · simp [cmpLGM, hbnull, hat]

/-- C9 (witness): the claim theorem at concrete inputs — a fresh session is
created by alice (stamped `some 0`), bob joins with a null stamp, and in the
concrete two-player list bob sorts first. -/
theorem C9_witness :
    (jsTrim "alice" ≠ "" ∧ jsTrim "abc12" ≠ "" ∧
      findBySessionId [] (jsToLower (jsTrim "abc12")) = none ∧
      [pAlice, pBob] ≠ ([] : List Player) ∧
      (∃ p ∈ [pAlice, pBob], p.lastGameMasterTime = none)) ∧
    (∃ s', (handleCreateSession 0 "sa" "alice" "abc12" []).1.find?
        (fun t => t.sessionId = jsToLower (jsTrim "abc12")) = some s' ∧
      s'.players = [{ socketId := "sa", username := jsTrim "alice", score := 0,
                      attempts := 0, isConnected := true,
                      lastGameMasterTime := some 0, lastActivity := 0 }] ∧
      s'.gameMasterId = some "sa") ∧
    (∃ h rest, sortPlayers [pAlice, pBob] = h :: rest ∧
      h.lastGameMasterTime = none) :=
  ⟨⟨by decide, by decide, by decide, by decide, ⟨pBob, by decide, by decide⟩⟩,
   C9_creator_vs_joiners.1 0 "sa" "alice" "abc12" [] (by decide) (by decide) (by decide),
   C9_creator_vs_joiners.2.2.1 [pAlice, pBob] (by decide)
     ⟨pBob, by decide, by decide⟩⟩

/-! ### Claim C5 -/

/-- C5: a submitted guess is judged correct iff its trimmed, lowercased form
exactly equals the stored normalized answer (itself `toLower ∘ trim` of what
the game master set) — no fuzzy matching; and a correct guess awards exactly
10 points to the guesser, sets `winner` to the guesser's username, cancels
the round timer, and ends the round with a `game_ended` of reason
`winner`. -/
theorem C5_guess_comparison (now : Nat) (callerId sid guess ans : String)
    (store : List GameSession) (timers : List String) (s : GameSession)
    (player : Player)
    (hg : jsTrim guess ≠ "")
    (hfind : findBySessionId store sid = some s)
    (hst : s.status = Status.in_progress)
    (hp : s.players.find? (fun p => p.socketId = callerId) = some player)
    (hgm : s.gameMasterId ≠ some callerId)
    (hatt : player.attempts < 3)
    (hans : s.currentAnswer = some (jsToLower (jsTrim ans))) :
    (Emit.gameEnded s.sessionId Reason.winner (some player.username) s.currentAnswer ∈
        (handleSubmitGuess now callerId sid guess store timers).2.2 ↔
      jsToLower (jsTrim guess) = jsToLower (jsTrim ans)) ∧
    (jsToLower (jsTrim guess) = jsToLower (jsTrim ans) →
      (handleSubmitGuess now callerId sid guess store timers).2.1 =
        clearGameTimer timers sid ∧
      ∃ s'', (handleSubmitGuess now callerId sid guess store timers).1.find?
          (fun t => t.sessionId = s.sessionId) = some s'' ∧
        s''.status = Status.ended ∧
        s''.winner = some player.username ∧
        ∃ r, s''.players.find? (fun p => p.socketId = callerId) = some r ∧
          r.score = player.score + 10 ∧ r.username = player.username) := by
  have hcanon : s.sessionId = jsTrim (jsToLower sid) := by
    have h := List.find?_some hfind
    simpa using h
  by_cases hc : jsToLower (jsTrim guess) = jsToLower (jsTrim ans)
  · have hcond : some (jsToLower (jsTrim guess)) = s.currentAnswer := by
      rw [hans, hc]
    have hmain : (handleSubmitGuess now callerId sid guess store timers) =
        (let s' := { s with
            players := updateFirst (fun p => p.socketId = callerId)
              (fun p => { p with attempts := p.attempts + 1, score := p.score + 10 })
              s.players
            status := Status.ended
            winner := some player.username }
         let r := rotateGameMaster now sid (saveSession now store s')
         (r.1, clearGameTimer timers sid,
          [Emit.gameEnded s.sessionId Reason.winner (some player.username)
            s.currentAnswer] ++ r.2 ++ [Emit.chatMessage s.sessionId])) := by
      simp only [handleSubmitGuess, hfind, hp]
      rw [if_neg (by simp [hg]), if_neg (by simp [hst]), if_neg hgm,
        if_neg (by omega), if_pos hcond]
    rw [hmain]
    simp only []
    constructor
    · constructor
      · intro _; exact hc
      · intro _
        exact List.mem_append_left _ (List.mem_append_left _ (List.mem_cons_self _ _))
    · intro _
      refine ⟨by trivial, ?_⟩
      have hfind1 : findBySessionId (saveSession now store
          ({ s with
              players := updateFirst (fun p => p.socketId = callerId)
                (fun p => { p with attempts := p.attempts + 1, score := p.score + 10 })
                s.players
              status := Status.ended
              winner := some player.username })) sid =
          some ({ { s with
              players := updateFirst (fun p => p.socketId = callerId)
                (fun p => { p with attempts := p.attempts + 1, score := p.score + 10 })
                s.players
              status := Status.ended
              winner := some player.username } with updatedAt := now }) :=
        findBySessionId_after_save hcanon
      obtain ⟨u'', hu, hw, _, _, hstt, hcore⟩ :=
        rotateGameMaster_frame now sid _ _ hfind1
      refine ⟨u'', hu, ?_, hw, ?_⟩
      · rcases hstt with h | h
        · exact h
        · exact h
      · have hbump : (updateFirst (fun p => p.socketId = callerId)
            (fun p => { p with attempts := p.attempts + 1, score := p.score + 10 })
            s.players).find? (fun p => p.socketId = callerId) =
            some { player with attempts := player.attempts + 1, score := player.score + 10 } := by
          rw [find?_updateFirst_same (p := fun p => p.socketId = callerId)
            (f := fun p => { p with attempts := p.attempts + 1, score := p.score + 10 })
            (fun x hx => hx) s.players, hp]
          rfl
        have hfc := find?_core_eq hcore callerId
        rw [hbump] at hfc
        cases hrr : u''.players.find? (fun p => p.socketId = callerId) with
        | none => rw [hrr] at hfc; simp at hfc
        | some r =>
          rw [hrr] at hfc
          simp only [Option.map_some'] at hfc
          have hr := Option.some_inj.mp hfc
          refine ⟨r, rfl, ?_, ?_⟩
          · have := congrArg (fun c => c.2.2.1) hr
            simpa [corePView] using this
          · have := congrArg (fun c => c.2.1) hr
            simpa [corePView] using this
  · have hcond : ¬(some (jsToLower (jsTrim guess)) = s.currentAnswer) := by
      rw [hans]
      simp only [Option.some_inj]
      exact hc
    constructor
    · constructor
      · intro hmem
        exfalso
        revert hmem
        simp only [handleSubmitGuess, hfind, hp]
        rw [if_neg (by simp [hg]), if_neg (by simp [hst]), if_neg hgm,
          if_neg (by omega), if_neg hcond]
        by_cases hex : allPlayersExhausted
            ({ s with
                players := updateFirst (fun p => p.socketId = callerId)
                  (fun p => { p with attempts := p.attempts + 1 }) s.players }) = true
        · rw [if_pos hex]
          intro hmem
          cases hgmv : s.gameMasterId with
          | none =>
            simp only [hgmv] at hmem
            simp at hmem
            exact (rotateGameMaster_emits _ hmem).1 _ _ _ _ rfl
          | some gg =>
            simp only [hgmv] at hmem
            simp at hmem
            exact (rotateGameMaster_emits _ hmem).1 _ _ _ _ rfl
        · rw [if_neg hex]
          intro hmem
          cases hgmv : s.gameMasterId with
          | none =>
            simp only [hgmv] at hmem
            simp at hmem
          | some gg =>
            simp only [hgmv] at hmem
            simp at hmem
      · intro hcc
        exact absurd hcc hc
    · intro hcc
      exact absurd hcc hc

/-- C5 (witness): the claim theorem applied to the spec's own scenario — bob
guesses `" PARIS "` against the stored answer `"paris"` (set as `"Paris "`). -/
theorem C5_witness :
    (jsTrim " PARIS " ≠ "" ∧
     findBySessionId [sInProgress] "abc12" = some sInProgress ∧
     sInProgress.status = Status.in_progress ∧
     sInProgress.players.find? (fun p => p.socketId = "sb") = some pBob ∧
     sInProgress.gameMasterId ≠ some "sb" ∧
     pBob.attempts < 3 ∧
     sInProgress.currentAnswer = some (jsToLower (jsTrim "Paris "))) ∧
    ((Emit.gameEnded sInProgress.sessionId Reason.winner (some pBob.username)
        sInProgress.currentAnswer ∈
        (handleSubmitGuess 4 "sb" "abc12" " PARIS " [sInProgress] ["abc12"]).2.2 ↔
      jsToLower (jsTrim " PARIS ") = jsToLower (jsTrim "Paris ")) ∧
     (jsToLower (jsTrim " PARIS ") = jsToLower (jsTrim "Paris ") →
      (handleSubmitGuess 4 "sb" "abc12" " PARIS " [sInProgress] ["abc12"]).2.1 =
        clearGameTimer ["abc12"] "abc12" ∧
      ∃ s'', (handleSubmitGuess 4 "sb" "abc12" " PARIS " [sInProgress] ["abc12"]).1.find?
          (fun t => t.sessionId = sInProgress.sessionId) = some s'' ∧
        s''.status = Status.ended ∧
        s''.winner = some pBob.username ∧
        ∃ r, s''.players.find? (fun p => p.socketId = "sb") = some r ∧
          r.score = pBob.score + 10 ∧ r.username = pBob.username)) :=
  ⟨⟨by decide, by decide, by decide, by decide, by decide, by decide, by decide⟩,
   C5_guess_comparison 4 "sb" "abc12" " PARIS " "Paris " [sInProgress] ["abc12"]
     sInProgress pBob (by decide) (by decide) (by decide) (by decide) (by decide)
     (by decide) (by decide)⟩

/-! ### Store identification helpers -/

lemma find?_id_mem {store : List GameSession} {id : String} {s : GameSession}
    (h : store.find? (fun t => t.sessionId = id) = some s) :
    s ∈ store ∧ s.sessionId = id :=
  ⟨List.mem_of_find?_eq_some h, by simpa using List.find?_some h⟩

lemma find?_of_nodup {store : List GameSession} {v : GameSession}
    (hnd : (store.map GameSession.sessionId).Nodup) (hv : v ∈ store) :
    store.find? (fun t => t.sessionId = v.sessionId) = some v := by
  cases hf : store.find? (fun t => t.sessionId = v.sessionId) with
  | none =>
    rw [List.find?_eq_none] at hf
    exact absurd (by simp) (hf v hv)
  | some u =>
    obtain ⟨hu, huid⟩ := find?_id_mem hf
    rw [List.inj_on_of_nodup_map hnd hu hv huid]

lemma attemptsView_players {l1 l2 : List Player}
    (h : l1.map corePView = l2.map corePView) :
    l1.map (fun p => p.attempts) = l2.map (fun p => p.attempts) := by
  have h2 := congrArg (List.map (fun c : String × String × Nat × Nat × Bool => c.2.2.2.1)) h
  rw [List.map_map, List.map_map] at h2
  exact h2

lemma mem_updateFirst_find? {p : α → Bool} {f : α → α} :
    ∀ {l : List α} {y : α}, y ∈ updateFirst p f l →
      y ∈ l ∨ ∃ x, l.find? p = some x ∧ y = f x := by
  intro l
  induction l with
  | nil => intro y h; simp [updateFirst] at h
  | cons a t ih =>
    intro y h
    unfold updateFirst at h
    by_cases ha : p a
    · rw [if_pos ha] at h
      rcases List.mem_cons.mp h with h1 | h1
      · right; exact ⟨a, List.find?_cons_of_pos _ ha, h1⟩
      · left; exact List.mem_cons_of_mem a h1
    · rw [if_neg ha] at h
      rcases List.mem_cons.mp h with h1 | h1
      · left; exact h1 ▸ List.mem_cons_self a t
      · rcases ih h1 with h2 | ⟨x, hx1, hx2⟩
        · left; exact List.mem_cons_of_mem a h2
        · right
          exact ⟨x, by rw [List.find?_cons_of_neg _ ha]; exact hx1, hx2⟩

lemma rotate_find?_other {now : Nat} {sid id : String} {store : List GameSession}
    (hne : jsTrim (jsToLower sid) ≠ id) :
    (rotateGameMaster now sid store).1.find? (fun t => t.sessionId = id) =
      store.find? (fun t => t.sessionId = id) := by
  cases hf : findBySessionId store sid with
  | none => simp only [rotateGameMaster, hf]
  | some u =>
    simp only [rotateGameMaster, hf]
    have huid : u.sessionId = jsTrim (jsToLower sid) :=
      (find?_id_mem (show store.find? (fun t =>
        t.sessionId = jsTrim (jsToLower sid)) = some u from hf)).2
    have hneu : id ≠ u.sessionId := by
      intro hc
      exact hne (by rw [← huid, hc])
    by_cases hcp : (u.players.filter (fun p => p.isConnected)).isEmpty
    · rw [if_pos hcp]
      exact find?_saveSession_ne hneu
    · rw [if_neg hcp]
      have hnn : u.players.filter (fun p => p.isConnected) ≠ [] := by
        intro hn
        rw [← List.isEmpty_iff] at hn
        exact hcp hn
      obtain ⟨g, rest, hs⟩ := List.exists_cons_of_ne_nil
        (fun hn => hnn (sortPlayers_eq_nil_iff.mp hn))
      simp only [hs]
      by_cases hv : ((u.players.find? (fun p => some p.socketId = u.gameMasterId)).map
          (fun p => p.isConnected)).getD false = true
      · rw [if_pos hv]
        cases hfil : (g :: rest).filter (fun p => u.gameMasterId ≠ some p.socketId) with
        | nil => exact find?_saveSession_ne hneu
        | cons o os => exact find?_saveSession_ne hneu
      · rw [if_neg hv]
        exact find?_saveSession_ne hneu

/-- `rotateGameMaster` on a found session: the entry keeps its `attemptsView`,
and its final status is the old one or `ended`. -/
lemma rotate_view_self {now : Nat} {sid : String} {store : List GameSession}
    {u : GameSession} (hf : findBySessionId store sid = some u) :
    ∃ u'', (rotateGameMaster now sid store).1.find?
        (fun t => t.sessionId = u.sessionId) = some u'' ∧
      attemptsView u'' = attemptsView u ∧
      (u''.status = u.status ∨ u''.status = Status.ended) := by
  obtain ⟨u'', h1, _, _, _, h5, h6⟩ := rotateGameMaster_frame now sid store u hf
  exact ⟨u'', h1, attemptsView_players h6, h5⟩

lemma ids_saveSession_present {now : Nat} {store : List GameSession} {u : GameSession}
    (h : ∃ v ∈ store, v.sessionId = u.sessionId) :
    (saveSession now store u).map GameSession.sessionId =
      store.map GameSession.sessionId := by
  obtain ⟨v, hv, hveq⟩ := h
  unfold saveSession
  rw [if_pos (List.any_eq_true.mpr ⟨v, hv, by simp [hveq]⟩)]
  rw [List.map_map]
  apply List.map_congr_left
  intro t _
  by_cases hid : t.sessionId = u.sessionId
  · simp [hid]
  · simp [hid]

lemma rotate_ids {now : Nat} {sid : String} {store : List GameSession} :
    (rotateGameMaster now sid store).1.map GameSession.sessionId =
      store.map GameSession.sessionId := by
  cases hf : findBySessionId store sid with
  | none => simp only [rotateGameMaster, hf]
  | some u =>
    simp only [rotateGameMaster, hf]
    have hu : u ∈ store ∧ u.sessionId = jsTrim (jsToLower sid) :=
      find?_id_mem (show store.find? (fun t =>
        t.sessionId = jsTrim (jsToLower sid)) = some u from hf)
    by_cases hcp : (u.players.filter (fun p => p.isConnected)).isEmpty
    · rw [if_pos hcp]
      exact ids_saveSession_present ⟨u, hu.1, rfl⟩
    · rw [if_neg hcp]
      have hnn : u.players.filter (fun p => p.isConnected) ≠ [] := by
        intro hn
        rw [← List.isEmpty_iff] at hn
        exact hcp hn
      obtain ⟨g, rest, hs⟩ := List.exists_cons_of_ne_nil
        (fun hn => hnn (sortPlayers_eq_nil_iff.mp hn))
      simp only [hs]
      by_cases hv : ((u.players.find? (fun p => some p.socketId = u.gameMasterId)).map
          (fun p => p.isConnected)).getD false = true
      · rw [if_pos hv]
        cases hfil : (g :: rest).filter (fun p => u.gameMasterId ≠ some p.socketId) with
        | nil => exact ids_saveSession_present ⟨u, hu.1, rfl⟩
        | cons o os => exact ids_saveSession_present ⟨u, hu.1, rfl⟩
      · rw [if_neg hv]
        exact ids_saveSession_present ⟨u, hu.1, rfl⟩

lemma assignGameMaster_no_gameEnded (s : GameSession) (b : Bool) :
    ∀ e ∈ (assignGameMaster s b).2, ∀ sid' r w a, e ≠ Emit.gameEnded sid' r w a := by
  intro e he
  simp only [assignGameMaster] at he
  by_cases hcp : (s.players.filter (fun p => p.isConnected)).isEmpty
  · rw [if_pos hcp] at he
    simp at he
  · rw [if_neg hcp] at he
    by_cases hv : ((s.players.find? (fun p => some p.socketId = s.gameMasterId)).map
        (fun p => p.isConnected)).getD false = true
    · rw [if_pos hv] at he
      simp at he
    · rw [if_neg hv] at he
      cases hs : sortPlayers (s.players.filter (fun p => p.isConnected)) with
      | nil => simp only [hs] at he; simp at he
      | cons g rest =>
        simp only [hs] at he
        by_cases hb : b
        · rw [if_pos hb] at he
          simp only [List.mem_cons, List.not_mem_nil, or_false] at he
          rcases he with rfl | rfl <;> exact (by intros _ _ _ _ h; cases h)
        · rw [if_neg hb] at he
          simp at he

/-- Per-session characterization of the disconnect loop body. -/
lemma processDisconnect_spec (now : Nat) (c : String)
    (acc : List GameSession × List String × List Emit) (s0 : GameSession)
    (hcanon0 : canonicalSid s0.sessionId)
    (hpres : s0.sessionId ∈ acc.1.map GameSession.sessionId) :
    (∀ id ∈ (processDisconnect now c acc s0).2.1, id ∈ acc.2.1) ∧
    ((processDisconnect now c acc s0).1.map GameSession.sessionId =
      acc.1.map GameSession.sessionId) ∧
    (∀ id, id ≠ s0.sessionId →
      (processDisconnect now c acc s0).1.find? (fun t => t.sessionId = id) =
        acc.1.find? (fun t => t.sessionId = id)) ∧
    ((processDisconnect now c acc s0).1.find? (fun t => t.sessionId = s0.sessionId) =
        acc.1.find? (fun t => t.sessionId = s0.sessionId) ∨
      ∃ d, (processDisconnect now c acc s0).1.find?
          (fun t => t.sessionId = s0.sessionId) = some d ∧
        d.players = (markDisconnected now c s0).players ∧
        (d.status = s0.status ∨ (d.status = Status.ended ∧
          s0.status = Status.in_progress ∧
          s0.sessionId ∉ (processDisconnect now c acc s0).2.1))) ∧
    (∀ sid' r w a, Emit.gameEnded sid' r w a ∈ (processDisconnect now c acc s0).2.2 →
      Emit.gameEnded sid' r w a ∈ acc.2.2 ∨
      (sid' = s0.sessionId ∧ s0.status = Status.in_progress ∧
       ∃ d, (processDisconnect now c acc s0).1.find?
          (fun t => t.sessionId = sid') = some d ∧ d.status = Status.ended)) := by
  have hm_sid : (markDisconnected now c s0).sessionId = s0.sessionId := rfl
  have hm_status : (markDisconnected now c s0).status = s0.status := rfl
  obtain ⟨ha_players, ha_sid, ha_status, _⟩ :=
    assignGameMaster_core (markDisconnected now c s0) true
  have hA_sid : (assignGameMaster (markDisconnected now c s0) true).1.sessionId =
      s0.sessionId := by rw [ha_sid]; exact hm_sid
  have hA_status : (assignGameMaster (markDisconnected now c s0) true).1.status =
      s0.status := by rw [ha_status]; exact hm_status
  have hpres2 : ∃ v ∈ acc.1, v.sessionId = s0.sessionId := by
    obtain ⟨v, hv, hveq⟩ := List.mem_map.mp hpres
    exact ⟨v, hv, hveq⟩
  cases hfp : s0.players.find? (fun q => q.socketId = c) with
  | none =>
    simp only [processDisconnect, hfp]
    exact ⟨fun id h => h, by trivial, fun id _ => by trivial,
      Or.inl (by trivial), fun _ _ _ _ h => Or.inl h⟩
  | some pl =>
    simp only [processDisconnect, hfp]
    by_cases hwgm : s0.gameMasterId = some c
    · rw [if_pos hwgm]
      by_cases hst : (assignGameMaster (markDisconnected now c s0) true).1.status =
          Status.in_progress
      · rw [if_pos hst]
        have hs0st : s0.status = Status.in_progress := by rw [← hA_status]; exact hst
        have hkey := find?_saveSession_self now
          (rotateGameMaster now
            (assignGameMaster (markDisconnected now c s0) true).1.sessionId acc.1).1
          ({ (assignGameMaster (markDisconnected now c s0) true).1 with
              status := Status.ended })
        refine ⟨?_, ?_, ?_, ?_, ?_⟩
        · intro id hid
          exact (List.mem_filter.mp hid).1
        · rw [ids_saveSession_present ?_]
          · exact rotate_ids
          · obtain ⟨v, hv, hveq⟩ := hpres2
            have hvmem : v.sessionId ∈ (rotateGameMaster now
                (assignGameMaster (markDisconnected now c s0) true).1.sessionId
                acc.1).1.map GameSession.sessionId := by
              rw [rotate_ids]
              exact List.mem_map.mpr ⟨v, hv, rfl⟩
            obtain ⟨v2, hv2, hv2eq⟩ := List.mem_map.mp hvmem
            refine ⟨v2, hv2, ?_⟩
            show v2.sessionId =
              (assignGameMaster (markDisconnected now c s0) true).1.sessionId
            rw [hA_sid]
            exact hv2eq.trans hveq
        · intro id hne
          rw [find?_saveSession_ne (by
            rw [show ({ (assignGameMaster (markDisconnected now c s0) true).1 with
                status := Status.ended } : GameSession).sessionId = s0.sessionId
              from hA_sid]
            exact fun hc => hne hc)]
          apply rotate_find?_other
          rw [hA_sid, hcanon0]
          exact fun hc => hne hc.symm
        · right
          rw [← hA_sid]
          refine ⟨_, hkey, ?_, Or.inr ⟨rfl, hs0st, ?_⟩⟩
          · show (assignGameMaster (markDisconnected now c s0) true).1.players = _
            rw [ha_players]
          · simp [clearGameTimer]
        · intro sid' r w a hmem
          simp only [List.mem_append, List.mem_cons, List.not_mem_nil, or_false] at hmem
          rcases hmem with ((((hmem | hmem) | hmem) | hmem) | hmem) | hmem
          · exact Or.inl hmem
          · exact absurd rfl (assignGameMaster_no_gameEnded _ true _ hmem sid' r w a)
          · right
            have hsid' : sid' =
                (assignGameMaster (markDisconnected now c s0) true).1.sessionId := by
              cases hmem; rfl
            refine ⟨hsid'.trans hA_sid, hs0st, ?_⟩
            rw [hsid']
            exact ⟨_, hkey, rfl⟩
          · exact absurd rfl ((rotateGameMaster_emits _ hmem).1 sid' r w a)
          · cases hmem
          · rcases hmem with hmem | hmem
            · cases hmem
            · cases hmem
      · rw [if_neg hst]
        have hkey := find?_saveSession_self now acc.1
          (assignGameMaster (markDisconnected now c s0) true).1
        rw [hA_sid] at hkey
        refine ⟨fun id h => h, ?_, ?_, ?_, ?_⟩
        · apply ids_saveSession_present
          rw [hA_sid]
          exact hpres2
        · intro id hne
          exact find?_saveSession_ne (by rw [hA_sid]; exact fun hc => hne hc)
        · right
          refine ⟨_, hkey, ?_, Or.inl ?_⟩
          · show (assignGameMaster (markDisconnected now c s0) true).1.players = _
            rw [ha_players]
          · show (assignGameMaster (markDisconnected now c s0) true).1.status = _
            rw [hA_status]
        · intro sid' r w a hmem
          simp only [List.mem_append, List.mem_cons, List.not_mem_nil, or_false] at hmem
          rcases hmem with (hmem | hmem) | hmem
          · exact Or.inl hmem
          · exact absurd rfl (assignGameMaster_no_gameEnded _ true _ hmem sid' r w a)
          · rcases hmem with hmem | hmem
            · cases hmem
            · cases hmem
    · rw [if_neg hwgm]
      have hkey := find?_saveSession_self now acc.1 (markDisconnected now c s0)
      rw [hm_sid] at hkey
      refine ⟨fun id h => h, ?_, ?_, ?_, ?_⟩
      · apply ids_saveSession_present
        rw [hm_sid]
        exact hpres2
      · intro id hne
        exact find?_saveSession_ne (by rw [hm_sid]; exact fun hc => hne hc)
      · right
        exact ⟨_, hkey, rfl, Or.inl rfl⟩
      · intro sid' r w a hmem
        simp only [List.mem_append, List.mem_cons, List.not_mem_nil, or_false] at hmem
        rcases hmem with hmem | hmem
        · exact Or.inl hmem
        · rcases hmem with hmem | hmem
          · cases hmem
          · cases hmem

/-! ### Claim C1 -/

/-- C1 (counterexample): `start_next_round` issued by the game master while the
session is still `in_progress` is NOT rejected: it emits no error, succeeds,
and resets the session to `waiting` — contradicting the claim that it is
accepted only from `Ended` and rejected as a `StateConflictError` otherwise. -/
theorem C1_counterexample :
    sInProgress.status = Status.in_progress ∧
    (handleStartNextRound 20 "sa" "abc12" [sInProgress]).2 =
      [Emit.nextRoundStarting "abc12" (some "alice")] ∧
    ((handleStartNextRound 20 "sa" "abc12" [sInProgress]).1.find?
        (fun t => t.sessionId = "abc12")).map (fun t => t.status) =
      some Status.waiting := by
  decide

/-- C1 (amended): `handleStartNextRound` checks only that the caller is the
current game master — there is no status guard at all, so it is accepted from
`Waiting`, `InProgress` and `Ended` alike.  When the caller is not the game
master it is rejected with an error to the caller only and no state change;
when the caller is the game master it sets status to `waiting`, clears
question, answer, winner and `gameStartTime`, and resets every player's
`attempts` to 0, whatever the prior status was. -/
theorem C1_start_next_round_amended (now : Nat) (callerId sid : String)
    (store : List GameSession) (s : GameSession)
    (hfind : findBySessionId store sid = some s) :
    (s.gameMasterId ≠ some callerId →
      handleStartNextRound now callerId sid store =
        (store, [Emit.errorMsg callerId "Only game master can start the next round"])) ∧
    (s.gameMasterId = some callerId →
      ∃ s', (handleStartNextRound now callerId sid store).1.find?
          (fun t => t.sessionId = s.sessionId) = some s' ∧
        s'.status = Status.waiting ∧ s'.currentQuestion = none ∧
        s'.currentAnswer = none ∧ s'.winner = none ∧ s'.gameStartTime = none ∧
        s'.players = s.players.map (fun p => { p with attempts := 0 }) ∧
        ∃ gmName, (handleStartNextRound now callerId sid store).2 =
          [Emit.nextRoundStarting s.sessionId gmName]) := by
  constructor
  · intro h
    simp only [handleStartNextRound, hfind]
    rw [if_pos h]
  · intro h
    simp only [handleStartNextRound, hfind]
    rw [if_neg (by simp [h])]
    have hkey := find?_saveSession_self now store
      ({ s with
          status := Status.waiting
          currentQuestion := none
          currentAnswer := none
          winner := none
          gameStartTime := none
          players := s.players.map (fun p => { p with attempts := 0 }) })
    exact ⟨_, hkey, rfl, rfl, rfl, rfl, rfl, rfl, ⟨_, rfl⟩⟩

/-! ### Claim C3 -/

/-- C3 (counterexample): when the game master (alice) disconnects from a
waiting session, the selector reassigns the role to bob — but bob's
`lastGameMasterTime` stays `none`; it is NOT set to the time of selection,
contradicting the claim that every selection (also the one after a
join/disconnect) stamps the chosen player's `lastGameMasterAt`. -/
theorem C3_counterexample :
    ((handleDisconnect 50 "sa" [sWaiting] []).1.map (fun t => t.gameMasterId)) =
      [some "sb"] ∧
    ((handleDisconnect 50 "sa" [sWaiting] []).1.map
      (fun t => t.players.map (fun p => (p.socketId, p.lastGameMasterTime)))) =
      [[("sa", some 0), ("sb", (none : Option Nat))]] := by
  decide

/-- C3 (amended): the two selectors share the choice rule — first of the
connected players sorted by `lastGameMasterTime` ascending with null earliest
(`sortPlayers`, whose order is certified by the `lgmLE` pairwise conjunct),
the current game master being excluded by end-of-round rotation when still
connected — but only `rotateGameMaster` (end-of-round rotation) stamps the
chosen player's `lastGameMasterTime := now`; `assignGameMaster` (reassignment
after a join or disconnect) leaves every player record, and in particular
every `lastGameMasterTime`, unchanged. -/
theorem C3_selector_amended (now : Nat) (sid : String) (store : List GameSession)
    (s : GameSession) (b : Bool)
    (hfind : findBySessionId store sid = some s) :
    ((assignGameMaster s b).1.players = s.players) ∧
    ((s.players.filter (fun p => p.isConnected) ≠ []) →
     (((s.players.find? (fun p => some p.socketId = s.gameMasterId)).map
        (fun p => p.isConnected)).getD false = false) →
      ∃ g rest, sortPlayers (s.players.filter (fun p => p.isConnected)) = g :: rest ∧
        (assignGameMaster s b).1.gameMasterId = some g.socketId) ∧
    ((s.players.filter (fun p => p.isConnected) ≠ []) →
     (((s.players.find? (fun p => some p.socketId = s.gameMasterId)).map
        (fun p => p.isConnected)).getD false = false) →
      ∃ g rest, sortPlayers (s.players.filter (fun p => p.isConnected)) = g :: rest ∧
      ∃ s'', (rotateGameMaster now sid store).1.find?
          (fun t => t.sessionId = s.sessionId) = some s'' ∧
        s''.gameMasterId = some g.socketId ∧
        s''.players = s.players.map (fun p =>
          if p.socketId = g.socketId then { p with lastGameMasterTime := some now }
          else p)) ∧
    ((((s.players.find? (fun p => some p.socketId = s.gameMasterId)).map
        (fun p => p.isConnected)).getD false = true) →
     ∀ o os, (sortPlayers (s.players.filter (fun p => p.isConnected))).filter
        (fun p => s.gameMasterId ≠ some p.socketId) = o :: os →
      s.gameMasterId ≠ some o.socketId ∧
      ∃ s'', (rotateGameMaster now sid store).1.find?
          (fun t => t.sessionId = s.sessionId) = some s'' ∧
        s''.gameMasterId = some o.socketId ∧
        s''.players = s.players.map (fun p =>
          if p.socketId = o.socketId then { p with lastGameMasterTime := some now }
          else p)) ∧
    (∀ l : List Player, (sortPlayers l).Pairwise lgmLE) := by
  refine ⟨?_, ?_, ?_, ?_, fun l => sortPlayers_pairwise l⟩
  · simp only [assignGameMaster]
    by_cases hcp : (s.players.filter (fun p => p.isConnected)).isEmpty
    · rw [if_pos hcp]
    · rw [if_neg hcp]
      by_cases hv : ((s.players.find? (fun p => some p.socketId = s.gameMasterId)).map
          (fun p => p.isConnected)).getD false = true
      · rw [if_pos hv]
      · rw [if_neg hv]
        cases hs : sortPlayers (s.players.filter (fun p => p.isConnected)) with
        | nil => rfl
        | cons g rest => rfl
  · intro hcp hinv
    obtain ⟨g, rest, hs⟩ := List.exists_cons_of_ne_nil
      (fun hn => hcp (sortPlayers_eq_nil_iff.mp hn))
    refine ⟨g, rest, hs, ?_⟩
    simp only [assignGameMaster]
    rw [if_neg (by simpa [List.isEmpty_iff] using hcp), if_neg (by simp [hinv]), hs]
  · intro hcp hinv
    obtain ⟨g, rest, hs⟩ := List.exists_cons_of_ne_nil
      (fun hn => hcp (sortPlayers_eq_nil_iff.mp hn))
    refine ⟨g, rest, hs, ?_⟩
    simp only [rotateGameMaster, hfind]
    rw [if_neg (by simpa [List.isEmpty_iff] using hcp)]
    simp only [hs]
    rw [if_neg (by simp [hinv])]
    have hkey := find?_saveSession_self now store
      ({ s with
          gameMasterId := some g.socketId
          status := Status.ended
          requiresGameMaster := false
          players := s.players.map (fun p =>
            if p.socketId = g.socketId then { p with lastGameMasterTime := some now }
            else p) })
    exact ⟨_, hkey, rfl, rfl⟩
  · intro hvalid o os hfilter
    have hgm : ∃ q, s.players.find? (fun p => some p.socketId = s.gameMasterId) = some q ∧
        q.isConnected = true := by
      cases hq : s.players.find? (fun p => some p.socketId = s.gameMasterId) with
      | none => rw [hq] at hvalid; simp at hvalid
      | some q =>
        rw [hq] at hvalid
        exact ⟨q, rfl, by simpa using hvalid⟩
    obtain ⟨q, hq, hqconn⟩ := hgm
    have hqmem : q ∈ s.players.filter (fun p => p.isConnected) :=
      List.mem_filter.mpr ⟨List.mem_of_find?_eq_some hq, by simp [hqconn]⟩
    have hcp : s.players.filter (fun p => p.isConnected) ≠ [] := by
      intro hn
      rw [hn] at hqmem
      simp at hqmem
    obtain ⟨g, rest, hs⟩ := List.exists_cons_of_ne_nil
      (fun hn => hcp (sortPlayers_eq_nil_iff.mp hn))
    rw [hs] at hfilter
    constructor
    · have ho : o ∈ (g :: rest).filter (fun p => s.gameMasterId ≠ some p.socketId) := by
        rw [hfilter]
        exact List.mem_cons_self o os
      have := List.of_mem_filter ho
      simpa using this
    · simp only [rotateGameMaster, hfind]
      rw [if_neg (by simpa [List.isEmpty_iff] using hcp)]
      simp only [hs]
      rw [if_pos (by simp [hq, hqconn])]
      simp only [hfilter]
      have hkey := find?_saveSession_self now store
        ({ s with
            gameMasterId := some o.socketId
            status := Status.ended
            requiresGameMaster := false
            players := s.players.map (fun p =>
              if p.socketId = o.socketId then { p with lastGameMasterTime := some now }
              else p) })
      exact ⟨_, hkey, rfl, rfl⟩

/-- C3 (witness): the amended theorem applied to a concrete waiting session
whose recorded game master is disconnected: reassignment picks bob (the null
`lastGameMasterTime` candidate first) without stamping his time, while
rotation would pick him and stamp it. -/
theorem C3_witness :
    findBySessionId [sGmGone] "abc12" = some sGmGone ∧
    sGmGone.players.filter (fun p => p.isConnected) ≠ [] ∧
    (((sGmGone.players.find? (fun p => some p.socketId = sGmGone.gameMasterId)).map
        (fun p => p.isConnected)).getD false = false) ∧
    ((assignGameMaster sGmGone true).1.players = sGmGone.players) ∧
    (∃ g rest, sortPlayers (sGmGone.players.filter (fun p => p.isConnected)) = g :: rest ∧
      (assignGameMaster sGmGone true).1.gameMasterId = some g.socketId) ∧
    (∃ g rest, sortPlayers (sGmGone.players.filter (fun p => p.isConnected)) = g :: rest ∧
      ∃ s'', (rotateGameMaster 77 "abc12" [sGmGone]).1.find?
          (fun t => t.sessionId = sGmGone.sessionId) = some s'' ∧
        s''.gameMasterId = some g.socketId ∧
        s''.players = sGmGone.players.map (fun p =>
          if p.socketId = g.socketId then { p with lastGameMasterTime := some 77 }
          else p)) :=
  ⟨by decide, by decide, by decide,
   (C3_selector_amended 77 "abc12" [sGmGone] sGmGone true (by decide)).1,
   (C3_selector_amended 77 "abc12" [sGmGone] sGmGone true (by decide)).2.1
     (by decide) (by decide),
   (C3_selector_amended 77 "abc12" [sGmGone] sGmGone true (by decide)).2.2.1
     (by decide) (by decide)⟩

/-! ### Claim C2 -/

/-- C2 (counterexample): with the session in status `Ended` (question and
answer still stored from the previous round), the game master's `start_game`
is NOT rejected: it succeeds, moves the session to `in_progress` and arms the
timer — contradicting the claim that `StartRound` is rejected from any status
other than `Waiting`. -/
theorem C2_counterexample :
    sEnded.status = Status.ended ∧
    (handleStartGame 30 "sa" "abc12" [sEnded] []).2.2 =
      [Emit.gameStarted "abc12" (some "capital of france") 60,
       Emit.gmNotify "sa" "game_started"] ∧
    ((handleStartGame 30 "sa" "abc12" [sEnded] []).1.find?
        (fun t => t.sessionId = "abc12")).map (fun t => t.status) =
      some Status.in_progress ∧
    (handleStartGame 30 "sa" "abc12" [sEnded] []).2.1 = ["abc12"] := by
  decide

/-- C2 (amended): `handleStartGame` succeeds exactly when the caller is the
game master, at least 2 connected players exist, question and answer are both
set (non-null, non-empty) and the status is not `in_progress` — so it is
accepted from `Waiting` AND from `Ended`.  On success every player's
`attempts` resets to 0, winner becomes null, status becomes `in_progress`,
`gameStartTime` is set to now and the 60-second timer is armed; otherwise the
store and timers are unchanged and the caller alone receives an error. -/
theorem C2_start_round_amended (now : Nat) (callerId sid : String)
    (store : List GameSession) (timers : List String) (s : GameSession)
    (hfind : findBySessionId store sid = some s) :
    ((s.gameMasterId = some callerId ∧
      2 ≤ (s.players.filter (fun p => p.isConnected)).length ∧
      strOptFalsy s.currentQuestion = false ∧ strOptFalsy s.currentAnswer = false ∧
      s.status ≠ Status.in_progress) →
      handleStartGame now callerId sid store timers =
        (saveSession now store
          ({ s with
              players := s.players.map (fun p => { p with attempts := 0 })
              status := Status.in_progress
              gameStartTime := some now
              winner := none }),
         armTimer (clearGameTimer timers sid) sid,
         [Emit.gameStarted sid s.currentQuestion 60,
          Emit.gmNotify callerId "game_started"])) ∧
    (¬(s.gameMasterId = some callerId ∧
      2 ≤ (s.players.filter (fun p => p.isConnected)).length ∧
      strOptFalsy s.currentQuestion = false ∧ strOptFalsy s.currentAnswer = false ∧
      s.status ≠ Status.in_progress) →
      (handleStartGame now callerId sid store timers).1 = store ∧
      (handleStartGame now callerId sid store timers).2.1 = timers ∧
      ∃ m, (handleStartGame now callerId sid store timers).2.2 =
        [Emit.errorMsg callerId m]) := by
  constructor
  · rintro ⟨h1, h2, h3, h4, h5⟩
    simp only [handleStartGame, hfind]
    rw [if_neg (by simp [h1]), if_neg (by omega), if_neg (by simp [h3, h4]), if_neg h5]
  · intro hng
    by_cases h1 : s.gameMasterId = some callerId
    · by_cases h2 : (s.players.filter (fun p => p.isConnected)).length < 2
      · simp only [handleStartGame, hfind]
        rw [if_neg (by simp [h1]), if_pos h2]
        exact ⟨rfl, rfl, _, rfl⟩
      · by_cases h3 : (strOptFalsy s.currentQuestion || strOptFalsy s.currentAnswer) = true
        · simp only [handleStartGame, hfind]
          rw [if_neg (by simp [h1]), if_neg h2, if_pos h3]
          exact ⟨rfl, rfl, _, rfl⟩
        · by_cases h4 : s.status = Status.in_progress
          · simp only [handleStartGame, hfind]
            rw [if_neg (by simp [h1]), if_neg h2, if_neg h3, if_pos h4]
            exact ⟨rfl, rfl, _, rfl⟩
          · exfalso
            apply hng
            simp only [Bool.or_eq_true] at h3
            push_neg at h3
            refine ⟨h1, by omega, ?_, ?_, h4⟩
            · simpa using h3.1
            · simpa using h3.2
    · simp only [handleStartGame, hfind]
      rw [if_pos (by simp [h1])]
      exact ⟨rfl, rfl, _, rfl⟩

/-- C2 (witness): the amended theorem applied to a concrete `Ended` session
whose game master restarts the round directly. -/
theorem C2_witness :
    findBySessionId [sEnded] "abc12" = some sEnded ∧
    ((sEnded.gameMasterId = some "sa" ∧
      2 ≤ (sEnded.players.filter (fun p => p.isConnected)).length ∧
      strOptFalsy sEnded.currentQuestion = false ∧
      strOptFalsy sEnded.currentAnswer = false ∧
      sEnded.status ≠ Status.in_progress) →
      handleStartGame 30 "sa" "abc12" [sEnded] [] =
        (saveSession 30 [sEnded]
          ({ sEnded with
              players := sEnded.players.map (fun p => { p with attempts := 0 })
              status := Status.in_progress
              gameStartTime := some 30
              winner := none }),
         armTimer (clearGameTimer [] "abc12") "abc12",
         [Emit.gameStarted "abc12" sEnded.currentQuestion 60,
          Emit.gmNotify "sa" "game_started"])) :=
  ⟨by decide,
   (C2_start_round_amended 30 "sa" "abc12" [sEnded] [] sEnded (by decide)).1⟩

/-- C1 (witness): the amended theorem applied to a concrete `in_progress`
session whose game master issues `start_next_round`. -/
theorem C1_witness :
    findBySessionId [sInProgress] "abc12" = some sInProgress ∧
    (sInProgress.gameMasterId = some "sa" →
      ∃ s', (handleStartNextRound 20 "sa" "abc12" [sInProgress]).1.find?
          (fun t => t.sessionId = sInProgress.sessionId) = some s' ∧
        s'.status = Status.waiting ∧ s'.currentQuestion = none ∧
        s'.currentAnswer = none ∧ s'.winner = none ∧ s'.gameStartTime = none ∧
        s'.players = sInProgress.players.map (fun p => { p with attempts := 0 }) ∧
        ∃ gmName, (handleStartNextRound 20 "sa" "abc12" [sInProgress]).2 =
          [Emit.nextRoundStarting sInProgress.sessionId gmName]) :=
  ⟨by decide,
   (C1_start_next_round_amended 20 "sa" "abc12" [sInProgress] sInProgress (by decide)).2⟩

/-! ### Claim C8 -/

/-- C8: when the game master disconnects while the session is `in_progress`,
the round is force-ended with reason `timeout` (timer entry for the session
canceled, status `ended`, `game_ended` emitted), the disconnecting player's
record is marked disconnected, and the surviving `gameMasterId` belongs to a
still-connected remaining player — so the next `start_next_round` can only be
accepted from one of them. -/
theorem C8_gm_disconnect_mid_round (now : Nat) (callerId : String)
    (timers : List String) (s : GameSession) (p : Player) (l₁ l₂ : List Player)
    (hsplit : s.players = l₁ ++ p :: l₂)
    (hpid : p.socketId = callerId)
    (huniq : ∀ x ∈ l₁ ++ l₂, x.socketId ≠ callerId)
    (hgm : s.gameMasterId = some callerId)
    (hst : s.status = Status.in_progress)
    (hconn : ∃ q ∈ l₁ ++ l₂, q.isConnected = true) :
    ∃ s', (handleDisconnect now callerId [s] timers).1.find?
        (fun t => t.sessionId = s.sessionId) = some s' ∧
      s'.status = Status.ended ∧
      s'.players = l₁ ++ { p with isConnected := false, lastActivity := now } :: l₂ ∧
      Emit.gameEnded s.sessionId Reason.timeout none s.currentAnswer ∈
        (handleDisconnect now callerId [s] timers).2.2 ∧
      s.sessionId ∉ (handleDisconnect now callerId [s] timers).2.1 ∧
      ∃ g, s'.gameMasterId = some g.socketId ∧ g.socketId ≠ callerId ∧
        g.isConnected = true ∧ g ∈ l₁ ++ l₂ := by
  have hpmem : p ∈ s.players := by
    rw [hsplit]
    exact List.mem_append_right _ (List.mem_cons_self _ _)
  have hany : s.players.any (fun q => q.socketId = callerId) = true :=
    List.any_eq_true.mpr ⟨p, hpmem, by simp [hpid]⟩
  have hfilterS : [s].filter (fun t => t.players.any (fun q => q.socketId = callerId)) =
      [s] := by
    simp [List.filter_cons, hany]
  have hl₁none : l₁.find? (fun q => q.socketId = callerId) = none :=
    List.find?_eq_none.mpr (fun x hx => by
      simp [huniq x (List.mem_append_left _ hx)])
  have hfindp : s.players.find? (fun q => q.socketId = callerId) = some p := by
    rw [hsplit, List.find?_append, hl₁none,
      List.find?_cons_of_pos _ (by simp [hpid])]
    rfl
  have hupd : updateFirst (fun q => q.socketId = callerId)
      (fun q => { q with isConnected := false, lastActivity := now }) s.players =
      l₁ ++ { p with isConnected := false, lastActivity := now } :: l₂ := by
    rw [hsplit]
    exact updateFirst_append_first (by simp [hpid]) l₂
      (fun y hy => by simp [huniq y (List.mem_append_left _ hy)])
  have hl₁none' : l₁.find? (fun q => some q.socketId = some callerId) = none :=
    List.find?_eq_none.mpr (fun x hx => by
      simp [huniq x (List.mem_append_left _ hx)])
  have hfindp' : (l₁ ++ { p with isConnected := false, lastActivity := now } :: l₂).find?
      (fun q => some q.socketId = some callerId) =
      some { p with isConnected := false, lastActivity := now } := by
    rw [List.find?_append, hl₁none',
      List.find?_cons_of_pos _ (by simp [hpid])]
    rfl
  have hconn' : ((l₁ ++ { p with isConnected := false, lastActivity := now } :: l₂).filter
      (fun q => q.isConnected)) ≠ [] := by
    obtain ⟨q, hqm, hqc⟩ := hconn
    intro hnil
    have hq2 : q ∈ (l₁ ++ { p with isConnected := false, lastActivity := now } :: l₂).filter
        (fun q => q.isConnected) := by
      apply List.mem_filter.mpr
      refine ⟨?_, by simp [hqc]⟩
      rcases List.mem_append.mp hqm with hql | hql
      · exact List.mem_append_left _ hql
      · exact List.mem_append_right _ (List.mem_cons_of_mem _ hql)
    rw [hnil] at hq2
    simp at hq2
  obtain ⟨g, rest, hsort⟩ := List.exists_cons_of_ne_nil
    (fun hn => hconn' (sortPlayers_eq_nil_iff.mp hn))
  have hgmem : g ∈ l₁ ++ l₂ ∧ g.isConnected = true ∧ g.socketId ≠ callerId := by
    have hg1 : g ∈ sortPlayers ((l₁ ++ { p with isConnected := false, lastActivity := now }
        :: l₂).filter (fun q => q.isConnected)) := by
      rw [hsort]
      exact List.mem_cons_self _ _
    have hg2 := mem_sortPlayers.mp hg1
    have hg3 := List.mem_filter.mp hg2
    have hgconn : g.isConnected = true := by simpa using hg3.2
    rcases List.mem_append.mp hg3.1 with hgl | hgl
    · exact ⟨List.mem_append_left _ hgl, hgconn,
        huniq g (List.mem_append_left _ hgl)⟩
    · rcases List.mem_cons.mp hgl with rfl | hgl2
      · simp at hgconn
      · exact ⟨List.mem_append_right _ hgl2, hgconn,
          huniq g (List.mem_append_right _ hgl2)⟩
  have hassign : assignGameMaster
      ({ s with players := l₁ ++ { p with isConnected := false, lastActivity := now } :: l₂ })
      true =
      ({ s with
          players := l₁ ++ { p with isConnected := false, lastActivity := now } :: l₂
          gameMasterId := some g.socketId
          requiresGameMaster := false },
       [Emit.newGameMaster s.sessionId g.socketId,
        Emit.playersUpdate s.sessionId (some g.socketId)]) := by
    simp only [assignGameMaster]
    rw [if_neg (c := (((l₁ ++ { p with isConnected := false, lastActivity := now } :: l₂).filter
        (fun q => q.isConnected)).isEmpty = true))
      (by rw [List.isEmpty_iff]; exact hconn')]
    rw [show (l₁ ++ { p with isConnected := false, lastActivity := now } :: l₂).find?
        (fun q => some q.socketId = s.gameMasterId) =
        some { p with isConnected := false, lastActivity := now } from by
      rw [hgm]; exact hfindp']
    rw [if_neg (by simp)]
    simp only [hsort]
    simp
  simp only [handleDisconnect, hfilterS, List.foldl_cons, List.foldl_nil,
    processDisconnect, markDisconnected, hfindp, hupd]
  rw [if_pos hgm]
  rw [hassign]
  rw [if_pos hst]
  have hkey := find?_saveSession_self now
    (rotateGameMaster now s.sessionId [s]).1
    ({ { { s with players := l₁ ++ { p with isConnected := false, lastActivity := now } :: l₂ }
        with gameMasterId := some g.socketId, requiresGameMaster := false }
      with status := Status.ended })
  refine ⟨_, hkey, rfl, rfl, ?_, ?_, ⟨g, rfl, hgmem.2.2, hgmem.2.1, hgmem.1⟩⟩
  · simp
  · simp [clearGameTimer]

/-- C8 (witness): alice (the game master) disconnects from the live
two-player round; bob is the only remaining connected player. -/
theorem C8_witness :
    (sInProgress.players = [] ++ pAlice :: [pBob] ∧
     pAlice.socketId = "sa" ∧
     (∀ x ∈ ([] : List Player) ++ [pBob], x.socketId ≠ "sa") ∧
     sInProgress.gameMasterId = some "sa" ∧
     sInProgress.status = Status.in_progress ∧
     (∃ q ∈ ([] : List Player) ++ [pBob], q.isConnected = true)) ∧
    (∃ s', (handleDisconnect 50 "sa" [sInProgress] ["abc12"]).1.find?
        (fun t => t.sessionId = sInProgress.sessionId) = some s' ∧
      s'.status = Status.ended ∧
      s'.players = [] ++ { pAlice with isConnected := false, lastActivity := 50 } :: [pBob] ∧
      Emit.gameEnded sInProgress.sessionId Reason.timeout none sInProgress.currentAnswer ∈
        (handleDisconnect 50 "sa" [sInProgress] ["abc12"]).2.2 ∧
      sInProgress.sessionId ∉ (handleDisconnect 50 "sa" [sInProgress] ["abc12"]).2.1 ∧
      ∃ g, s'.gameMasterId = some g.socketId ∧ g.socketId ≠ "sa" ∧
        g.isConnected = true ∧ g ∈ ([] : List Player) ++ [pBob]) :=
  ⟨⟨by decide, by decide, by decide, by decide, by decide, ⟨pBob, by decide, by decide⟩⟩,
   C8_gm_disconnect_mid_round 50 "sa" ["abc12"] sInProgress pAlice [] [pBob]
     (by decide) (by decide) (by decide) (by decide) (by decide)
     ⟨pBob, by decide, by decide⟩⟩

/-! ### Claim C10 -/

/-- C10: an incorrect guess that leaves at least one connected non-game-master
player with attempts remaining changes only the guessing player's `attempts`
(by exactly +1) and the session's `updatedAt`; scores, status, winner,
question, answer and `gameMasterId` are unchanged, the timer map is
untouched, no `game_ended` is emitted, and the only `guess_result` goes to
the guesser with `attemptsLeft = 3 - attemptsUsed`. -/
theorem C10_incorrect_guess_frame (now : Nat) (callerId sid guess : String)
    (store : List GameSession) (timers : List String) (s : GameSession)
    (player : Player)
    (hg : jsTrim guess ≠ "")
    (hfind : findBySessionId store sid = some s)
    (hst : s.status = Status.in_progress)
    (hp : s.players.find? (fun p => p.socketId = callerId) = some player)
    (hgm : s.gameMasterId ≠ some callerId)
    (hatt : player.attempts < 3)
    (hwrong : ¬(some (jsToLower (jsTrim guess)) = s.currentAnswer))
    (hnex : allPlayersExhausted
      ({ s with players :=
        (updateFirst (fun p => p.socketId = callerId)
          (fun p => { p with attempts := p.attempts + 1 }) s.players) }) = false) :
    (handleSubmitGuess now callerId sid guess store timers =
      (saveSession now store
        ({ s with players :=
          (updateFirst (fun p => p.socketId = callerId)
            (fun p => { p with attempts := p.attempts + 1 }) s.players) }),
       timers,
       [Emit.guessResult callerId false (3 - (player.attempts + 1)),
        Emit.chatMessage s.sessionId] ++
       (match s.gameMasterId with
        | some g => [Emit.gmNotify g "player_guessed"]
        | none => []))) ∧
    (∃ s', (handleSubmitGuess now callerId sid guess store timers).1.find?
        (fun t => t.sessionId = s.sessionId) = some s' ∧
      s'.status = s.status ∧ s'.winner = s.winner ∧
      s'.currentQuestion = s.currentQuestion ∧ s'.currentAnswer = s.currentAnswer ∧
      s'.gameMasterId = s.gameMasterId ∧ s'.updatedAt = now ∧
      s'.players.map (fun p => (p.socketId, p.score)) =
        s.players.map (fun p => (p.socketId, p.score)) ∧
      s'.players.find? (fun p => p.socketId = callerId) =
        some { player with attempts := player.attempts + 1 } ∧
      (∀ q ∈ s.players, q.socketId ≠ callerId → q ∈ s'.players)) ∧
    (∀ sid' r w a, Emit.gameEnded sid' r w a ∉
      (handleSubmitGuess now callerId sid guess store timers).2.2) ∧
    (∀ d c atl, Emit.guessResult d c atl ∈
        (handleSubmitGuess now callerId sid guess store timers).2.2 →
      d = callerId ∧ c = false ∧ atl = 3 - (player.attempts + 1)) ∧
    (handleSubmitGuess now callerId sid guess store timers).2.1 = timers := by
  have hmain : handleSubmitGuess now callerId sid guess store timers =
      (saveSession now store
        ({ s with players :=
          (updateFirst (fun p => p.socketId = callerId)
            (fun p => { p with attempts := p.attempts + 1 }) s.players) }),
       timers,
       [Emit.guessResult callerId false (3 - (player.attempts + 1)),
        Emit.chatMessage s.sessionId] ++
       (match s.gameMasterId with
        | some g => [Emit.gmNotify g "player_guessed"]
        | none => [])) := by
    simp only [handleSubmitGuess, hfind, hp]
    rw [if_neg (by simp [hg]), if_neg (by simp [hst]), if_neg hgm,
      if_neg (by omega), if_neg hwrong, if_neg (by simp [hnex])]
  refine ⟨hmain, ?_, ?_, ?_, ?_⟩
  · have hkey := find?_saveSession_self now store
      ({ s with players :=
        (updateFirst (fun p => p.socketId = callerId)
          (fun p => { p with attempts := p.attempts + 1 }) s.players) })
    rw [hmain]
    refine ⟨_, hkey, rfl, rfl, rfl, rfl, rfl, rfl, ?_, ?_, ?_⟩
    · show (updateFirst _ _ s.players).map _ = _
      exact map_updateFirst_eq (p := fun p => p.socketId = callerId)
        (f := fun p => { p with attempts := p.attempts + 1 })
        (g := fun p => (p.socketId, p.score))
        (fun x _ => rfl) s.players
    · show (updateFirst _ _ s.players).find? _ = _
      rw [find?_updateFirst_same (p := fun p => p.socketId = callerId)
        (f := fun p => { p with attempts := p.attempts + 1 })
        (fun x hx => hx) s.players, hp]
      rfl
    · intro q hq hqne
      show q ∈ updateFirst _ _ s.players
      exact mem_updateFirst_of_not hq (by simp [hqne])
  · intro sid' r w a hmem
    rw [hmain] at hmem
    cases hgmv : s.gameMasterId with
    | none => simp only [hgmv] at hmem; simp at hmem
    | some gg => simp only [hgmv] at hmem; simp at hmem
  · intro d c atl hmem
    rw [hmain] at hmem
    cases hgmv : s.gameMasterId with
    | none =>
      simp only [hgmv] at hmem
      simp at hmem
      exact ⟨hmem.1, hmem.2.1, by have h2 := hmem.2.2; omega⟩
    | some gg =>
      simp only [hgmv] at hmem
      simp at hmem
      exact ⟨hmem.1, hmem.2.1, by have h2 := hmem.2.2; omega⟩
  · rw [hmain]

/-- C10 (witness): cara's wrong guess in the three-player session bumps only
her attempts and emits a single `guess_result` to her with 2 attempts left. -/
theorem C10_witness :
    (jsTrim "londn" ≠ "" ∧
     findBySessionId [sThree] "abc12" = some sThree ∧
     sThree.status = Status.in_progress ∧
     sThree.players.find? (fun p => p.socketId = "sc") = some pCara ∧
     sThree.gameMasterId ≠ some "sc" ∧
     pCara.attempts < 3 ∧
     ¬(some (jsToLower (jsTrim "londn")) = sThree.currentAnswer) ∧
     allPlayersExhausted
       ({ sThree with players :=
         (updateFirst (fun p => p.socketId = "sc")
           (fun p => { p with attempts := p.attempts + 1 }) sThree.players) }) = false) ∧
    ((∀ sid' r w a, Emit.gameEnded sid' r w a ∉
       (handleSubmitGuess 7 "sc" "abc12" "londn" [sThree] ["abc12"]).2.2) ∧
     (handleSubmitGuess 7 "sc" "abc12" "londn" [sThree] ["abc12"]).2.1 = ["abc12"]) :=
  ⟨⟨by decide, by decide, by decide, by decide, by decide, by decide, by decide, by decide⟩,
   ⟨(C10_incorrect_guess_frame 7 "sc" "abc12" "londn" [sThree] ["abc12"] sThree pCara
       (by decide) (by decide) (by decide) (by decide) (by decide) (by decide)
       (by decide) (by decide)).2.2.1,
    (C10_incorrect_guess_frame 7 "sc" "abc12" "londn" [sThree] ["abc12"] sThree pCara
       (by decide) (by decide) (by decide) (by decide) (by decide) (by decide)
       (by decide) (by decide)).2.2.2.2⟩⟩

/-! ### Invariant-preservation primitives -/

lemma findBySessionId_canon {store : List GameSession} {sid : String}
    (h : canonicalSid sid) :
    findBySessionId store sid = store.find? (fun t => t.sessionId = sid) := by
  simp only [findBySessionId, canonicalSid] at h ⊢
  rw [h]

lemma coreQ_mono {dead dead' : List String} {s : GameSession}
    (hsub : ∀ id ∈ dead, id ∈ dead') (h : coreQ dead s) : coreQ dead' s :=
  ⟨h.1, h.2.1, fun p hp hc => hsub _ (h.2.2 p hp hc)⟩

lemma nodup_save {now : Nat} {store : List GameSession} {u : GameSession}
    (h : (store.map GameSession.sessionId).Nodup) :
    ((saveSession now store u).map GameSession.sessionId).Nodup := by
  rcases ids_saveSession now store u with he | ⟨he, hnm⟩
  · rw [he]; exact h
  · rw [he]
    simp only [List.nodup_append, List.nodup_cons, List.nodup_nil]
    exact ⟨h, by simp, by simpa using hnm⟩

lemma storeQ_save {now : Nat} {dead : List String} {store : List GameSession}
    {u : GameSession} (h : ∀ s ∈ store, coreQ dead s) (hu : coreQ dead u) :
    ∀ t ∈ saveSession now store u, coreQ dead t := by
  intro t ht
  rcases mem_saveSession ht with rfl | ⟨htm, _⟩
  · exact hu
  · exact h t htm

lemma ent_save {now : Nat} {store : List GameSession} {u : GameSession}
    {T : List String}
    (h : ∀ s ∈ store, s.status = Status.ended → s.sessionId ∉ T)
    (hu : u.status = Status.ended → u.sessionId ∉ T) :
    ∀ t ∈ saveSession now store u, t.status = Status.ended → t.sessionId ∉ T := by
  intro t ht
  rcases mem_saveSession ht with rfl | ⟨htm, _⟩
  · exact hu
  · exact h t htm

lemma coreQ_of_core {dead : List String} {t u : GameSession}
    (hsid : t.sessionId = u.sessionId)
    (hcore : t.players.map corePView = u.players.map corePView)
    (hq : coreQ dead u) : coreQ dead t := by
  refine ⟨hsid ▸ hq.1, ?_, ?_⟩
  · intro p hp
    have hm : corePView p ∈ u.players.map corePView := by
      rw [← hcore]
      exact List.mem_map.mpr ⟨p, hp, rfl⟩
    obtain ⟨q, hq2, hqe⟩ := List.mem_map.mp hm
    simp only [corePView, Prod.mk.injEq] at hqe
    rw [← hqe.2.2.2.1]
    exact hq.2.1 q hq2
  · intro p hp hc
    have hm : corePView p ∈ u.players.map corePView := by
      rw [← hcore]
      exact List.mem_map.mpr ⟨p, hp, rfl⟩
    obtain ⟨q, hq2, hqe⟩ := List.mem_map.mp hm
    simp only [corePView, Prod.mk.injEq] at hqe
    rw [← hqe.1]
    exact hq.2.2 q hq2 (by rw [hqe.2.2.2.2]; exact hc)

lemma mem_rotate {now : Nat} {sid : String} {store : List GameSession} :
    ∀ t ∈ (rotateGameMaster now sid store).1,
      ∃ u ∈ store, t.sessionId = u.sessionId ∧
        t.players.map corePView = u.players.map corePView ∧
        (t.status = u.status ∨
          (t.status = Status.ended ∧ u.sessionId = jsTrim (jsToLower sid))) := by
  intro t ht
  cases hf : findBySessionId store sid with
  | none =>
    simp only [rotateGameMaster, hf] at ht
    exact ⟨t, ht, rfl, rfl, Or.inl rfl⟩
  | some u =>
    obtain ⟨hum, huid⟩ := find?_id_mem
      (show store.find? (fun v => v.sessionId = jsTrim (jsToLower sid)) = some u from hf)
    simp only [rotateGameMaster, hf] at ht
    by_cases hcp : (u.players.filter (fun p => p.isConnected)).isEmpty
    · rw [if_pos hcp] at ht
      rcases mem_saveSession ht with rfl | ⟨htm, _⟩
      · exact ⟨u, hum, rfl, rfl, Or.inl rfl⟩
      · exact ⟨t, htm, rfl, rfl, Or.inl rfl⟩
    · rw [if_neg hcp] at ht
      have hnn : u.players.filter (fun p => p.isConnected) ≠ [] := by
        intro hn
        rw [← List.isEmpty_iff] at hn
        exact hcp hn
      obtain ⟨g, rest, hs⟩ := List.exists_cons_of_ne_nil
        (fun hn => hnn (sortPlayers_eq_nil_iff.mp hn))
      simp only [hs] at ht
      by_cases hv : ((u.players.find? (fun p => some p.socketId = u.gameMasterId)).map
          (fun p => p.isConnected)).getD false = true
      · rw [if_pos hv] at ht
        cases hfil : (g :: rest).filter (fun p => u.gameMasterId ≠ some p.socketId) with
        | nil =>
          simp only [hfil] at ht
          rcases mem_saveSession ht with rfl | ⟨htm, _⟩
          · exact ⟨u, hum, rfl, corePView_stamp now g.socketId u.players,
              Or.inr ⟨rfl, huid⟩⟩
          · exact ⟨t, htm, rfl, rfl, Or.inl rfl⟩
        | cons o os =>
          simp only [hfil] at ht
          rcases mem_saveSession ht with rfl | ⟨htm, _⟩
          · exact ⟨u, hum, rfl, corePView_stamp now o.socketId u.players,
              Or.inr ⟨rfl, huid⟩⟩
          · exact ⟨t, htm, rfl, rfl, Or.inl rfl⟩
      · rw [if_neg hv] at ht
        rcases mem_saveSession ht with rfl | ⟨htm, _⟩
        · exact ⟨u, hum, rfl, corePView_stamp now g.socketId u.players,
            Or.inr ⟨rfl, huid⟩⟩
        · exact ⟨t, htm, rfl, rfl, Or.inl rfl⟩

lemma storeQ_rotate {now : Nat} {sid : String} {dead : List String}
    {store : List GameSession} (h : ∀ s ∈ store, coreQ dead s) :
    ∀ t ∈ (rotateGameMaster now sid store).1, coreQ dead t := by
  intro t ht
  obtain ⟨u, hum, h1, h2, _⟩ := mem_rotate t ht
  exact coreQ_of_core h1 h2 (h u hum)

lemma ent_rotate {now : Nat} {sid : String} {store : List GameSession}
    {T : List String}
    (h : ∀ s ∈ store, s.status = Status.ended → s.sessionId ∉ T)
    (h2 : jsTrim (jsToLower sid) ∉ T) :
    ∀ t ∈ (rotateGameMaster now sid store).1,
      t.status = Status.ended → t.sessionId ∉ T := by
  intro t ht hts
  obtain ⟨u, hum, h1, _, h3⟩ := mem_rotate t ht
  rcases h3 with h3 | ⟨_, h4⟩
  · rw [h1]
    exact h u hum (by rw [← h3]; exact hts)
  · rw [h1, h4]
    exact h2

lemma nodup_rotate {now : Nat} {sid : String} {store : List GameSession}
    (h : (store.map GameSession.sessionId).Nodup) :
    ((rotateGameMaster now sid store).1.map GameSession.sessionId).Nodup := by
  rw [rotate_ids]
  exact h

lemma clearGameTimer_subset {T : List String} {sid : String} :
    ∀ id ∈ clearGameTimer T sid, id ∈ T := by
  intro id hid
  exact (List.mem_filter.mp hid).1

lemma clearGameTimer_not_mem {T : List String} {sid : String} :
    sid ∉ clearGameTimer T sid := by
  intro h
  have := (List.mem_filter.mp h).2
  simp at this

lemma ent_timers_mono {store : List GameSession} {T T' : List String}
    (hsub : ∀ id ∈ T', id ∈ T)
    (h : ∀ s ∈ store, s.status = Status.ended → s.sessionId ∉ T) :
    ∀ s ∈ store, s.status = Status.ended → s.sessionId ∉ T' :=
  fun s hs he hc => h s hs he (hsub _ hc)

lemma invS_timers_mono {dead : List String} {store : List GameSession}
    {T T' : List String} (hsub : ∀ id ∈ T', id ∈ T)
    (h : InvS dead store T) : InvS dead store T' :=
  ⟨h.1, h.2.1, ent_timers_mono hsub h.2.2⟩

lemma coreQ_cast {dead : List String} {t u : GameSession}
    (h1 : t.sessionId = u.sessionId) (h2 : t.players = u.players)
    (hq : coreQ dead u) : coreQ dead t := by
  obtain ⟨q1, q2, q3⟩ := hq
  refine ⟨?_, ?_, ?_⟩
  · rw [h1]; exact q1
  · rw [h2]; exact q2
  · rw [h2]; exact q3

lemma inv_create {now : Nat} {cid un sid : String} {dead : List String}
    {store : List GameSession} {T : List String} (h : InvS dead store T) :
    InvS dead (handleCreateSession now cid un sid store).1 T := by
  obtain ⟨hnd, hq, hent⟩ := h
  cases hf : findBySessionId store (jsToLower (jsTrim sid)) with
  | some s =>
    simp only [handleCreateSession, hf]
    by_cases hg : (jsTrim un = "" || jsTrim sid = "") = true
    · rw [if_pos hg]
      exact ⟨hnd, hq, hent⟩
    · rw [if_neg hg]
      exact ⟨hnd, hq, hent⟩
  | none =>
    simp only [handleCreateSession, hf]
    by_cases hg : (jsTrim un = "" || jsTrim sid = "") = true
    · rw [if_pos hg]
      exact ⟨hnd, hq, hent⟩
    · rw [if_neg hg]
      refine ⟨nodup_save hnd, storeQ_save hq ?_, ent_save hent ?_⟩
      · refine ⟨canonicalSid_create sid, ?_, ?_⟩
        · intro p hp
          simp only [List.mem_singleton] at hp
          subst hp
          simp
        · intro p hp hc
          simp only [List.mem_singleton] at hp
          subst hp
          simp at hc
      · intro hst
        simp at hst

lemma inv_setQ {now : Nat} {cid sid q a : String} {dead : List String}
    {store : List GameSession} {T : List String} (h : InvS dead store T) :
    InvS dead (handleSetQuestion now cid sid q a store).1 T := by
  obtain ⟨hnd, hq, hent⟩ := h
  cases hf : findBySessionId store sid with
  | none =>
    simp only [handleSetQuestion, hf]
    by_cases hg : (jsTrim q = "" || jsTrim a = "") = true
    · rw [if_pos hg]
      exact ⟨hnd, hq, hent⟩
    · rw [if_neg hg]
      exact ⟨hnd, hq, hent⟩
  | some s =>
    obtain ⟨hsm, _⟩ := find?_id_mem hf
    simp only [handleSetQuestion, hf]
    by_cases hg : (jsTrim q = "" || jsTrim a = "") = true
    · rw [if_pos hg]
      exact ⟨hnd, hq, hent⟩
    · rw [if_neg hg]
      by_cases hgm : s.gameMasterId ≠ some cid
      · rw [if_pos hgm]
        exact ⟨hnd, hq, hent⟩
      · rw [if_neg hgm]
        by_cases hst : s.status ≠ Status.waiting
        · rw [if_pos hst]
          exact ⟨hnd, hq, hent⟩
        · rw [if_neg hst]
          refine ⟨nodup_save hnd, storeQ_save hq ?_, ent_save hent ?_⟩
          · exact hq s hsm
          · intro hse
            exact hent s hsm hse

lemma inv_nextRound {now : Nat} {cid sid : String} {dead : List String}
    {store : List GameSession} {T : List String} (h : InvS dead store T) :
    InvS dead (handleStartNextRound now cid sid store).1 T := by
  obtain ⟨hnd, hq, hent⟩ := h
  cases hf : findBySessionId store sid with
  | none =>
    simp only [handleStartNextRound, hf]
    exact ⟨hnd, hq, hent⟩
  | some s =>
    obtain ⟨hsm, _⟩ := find?_id_mem hf
    simp only [handleStartNextRound, hf]
    by_cases hgm : s.gameMasterId ≠ some cid
    · rw [if_pos hgm]
      exact ⟨hnd, hq, hent⟩
    · rw [if_neg hgm]
      refine ⟨nodup_save hnd, storeQ_save hq ?_, ent_save hent ?_⟩
      · refine ⟨(hq s hsm).1, ?_, ?_⟩
        · intro p hp
          obtain ⟨x, hx, hxe⟩ := List.mem_map.mp hp
          rw [← hxe]
          simp
        · intro p hp hc
          obtain ⟨x, hx, hxe⟩ := List.mem_map.mp hp
          rw [← hxe] at hc ⊢
          exact (hq s hsm).2.2 x hx (by simpa using hc)
      · intro hse
        simp at hse

lemma inv_join {now : Nat} {cid un sid : String} {dead : List String}
    {store : List GameSession} {T : List String} (h : InvS dead store T) :
    InvS dead (handleJoinSession now cid un sid store).1 T := by
  obtain ⟨hnd, hq, hent⟩ := h
  cases hf : findBySessionId store (jsToLower (jsTrim sid)) with
  | none =>
    simp only [handleJoinSession, hf]
    by_cases hg : (jsTrim un = "" || jsTrim sid = "") = true
    · rw [if_pos hg]
      exact ⟨hnd, hq, hent⟩
    · rw [if_neg hg]
      exact ⟨hnd, hq, hent⟩
  | some s =>
    obtain ⟨hsm, _⟩ := find?_id_mem hf
    have hqs := hq s hsm
    simp only [handleJoinSession, hf]
    by_cases hg : (jsTrim un = "" || jsTrim sid = "") = true
    · rw [if_pos hg]
      exact ⟨hnd, hq, hent⟩
    · rw [if_neg hg]
      cases hfp : s.players.find? (fun p => p.username = jsTrim un) with
      | some q =>
        simp only [hfp]
        have hq1 : coreQ dead { s with players :=
            (updateFirst (fun p => p.username = jsTrim un)
              (fun p =>
                { p with socketId := cid, isConnected := true, lastActivity := now })
              s.players) } := by
          refine ⟨hqs.1, ?_, ?_⟩
          · intro p hp
            rcases mem_updateFirst hp with hp1 | ⟨x, hx, _, rfl⟩
            · exact hqs.2.1 p hp1
            · simpa using hqs.2.1 x hx
          · intro p hp hc
            rcases mem_updateFirst hp with hp1 | ⟨x, hx, _, rfl⟩
            · exact hqs.2.2 p hp1 hc
            · simp at hc
        obtain ⟨hap, hasid, hast, _⟩ := assignGameMaster_core
          ({ s with players :=
            (updateFirst (fun p => p.username = jsTrim un)
              (fun p =>
                { p with socketId := cid, isConnected := true, lastActivity := now })
              s.players) }) true
        refine ⟨nodup_save hnd, storeQ_save hq (coreQ_cast hasid hap hq1), ent_save hent ?_⟩
        · intro he
          rw [hasid]
          exact hent s hsm (by rw [← hast]; exact he)
      | none =>
        simp only [hfp]
        by_cases hst : s.status = Status.in_progress
        · rw [if_pos hst]
          exact ⟨hnd, hq, hent⟩
        · rw [if_neg hst]
          have hq1 : coreQ dead { s with players := s.players ++
              [{ socketId := cid, username := jsTrim un, score := 0,
                 attempts := 0, isConnected := true,
                 lastGameMasterTime := none, lastActivity := now }] } := by
            refine ⟨hqs.1, ?_, ?_⟩
            · intro p hp
              rcases List.mem_append.mp hp with hp1 | hp1
              · exact hqs.2.1 p hp1
              · simp only [List.mem_singleton] at hp1
                subst hp1
                simp
            · intro p hp hc
              rcases List.mem_append.mp hp with hp1 | hp1
              · exact hqs.2.2 p hp1 hc
              · simp only [List.mem_singleton] at hp1
                subst hp1
                simp at hc
          obtain ⟨hap, hasid, hast, _⟩ := assignGameMaster_core
            ({ s with players := s.players ++
              [{ socketId := cid, username := jsTrim un, score := 0,
                 attempts := 0, isConnected := true,
                 lastGameMasterTime := none, lastActivity := now }] }) true
          refine ⟨nodup_save hnd, storeQ_save hq (coreQ_cast hasid hap hq1),
            ent_save hent ?_⟩
          · intro he
            rw [hasid]
            exact hent s hsm (by rw [← hast]; exact he)

lemma inv_startG {now : Nat} {cid sid : String} {dead : List String}
    {store : List GameSession} {T : List String} (hc : canonicalSid sid)
    (h : InvS dead store T) :
    InvS dead (handleStartGame now cid sid store T).1
      (handleStartGame now cid sid store T).2.1 := by
  obtain ⟨hnd, hq, hent⟩ := h
  cases hf : findBySessionId store sid with
  | none =>
    simp only [handleStartGame, hf]
    exact ⟨hnd, hq, hent⟩
  | some s =>
    obtain ⟨hsm, hsid⟩ := find?_id_mem hf
    have hsid' : s.sessionId = sid := by rw [hsid]; exact hc
    simp only [handleStartGame, hf]
    by_cases h1 : s.gameMasterId ≠ some cid
    · rw [if_pos h1]
      exact ⟨hnd, hq, hent⟩
    · rw [if_neg h1]
      by_cases h2 : (s.players.filter (fun p => p.isConnected)).length < 2
      · rw [if_pos h2]
        exact ⟨hnd, hq, hent⟩
      · rw [if_neg h2]
        by_cases h3 : (strOptFalsy s.currentQuestion || strOptFalsy s.currentAnswer) = true
        · rw [if_pos h3]
          exact ⟨hnd, hq, hent⟩
        · rw [if_neg h3]
          by_cases h4 : s.status = Status.in_progress
          · rw [if_pos h4]
            exact ⟨hnd, hq, hent⟩
          · rw [if_neg h4]
            refine ⟨nodup_save hnd, storeQ_save hq ?_, ?_⟩
            · refine ⟨(hq s hsm).1, ?_, ?_⟩
              · intro p hp
                obtain ⟨x, hx, hxe⟩ := List.mem_map.mp hp
                rw [← hxe]
                simp
              · intro p hp hcn
                obtain ⟨x, hx, hxe⟩ := List.mem_map.mp hp
                rw [← hxe] at hcn ⊢
                exact (hq s hsm).2.2 x hx (by simpa using hcn)
            · intro t ht hte
              rcases mem_saveSession ht with rfl | ⟨htm, htne⟩
              · simp at hte
              · have hold := hent t htm hte
                intro hmem
                rcases List.mem_cons.mp hmem with he | he
                · exact htne (he.trans hsid'.symm)
                · exact hold (clearGameTimer_subset _ (clearGameTimer_subset _ he))

lemma inv_timerCb {now : Nat} {sid : String} {dead : List String}
    {store : List GameSession} {T : List String} (hc : canonicalSid sid)
    (h : InvS dead store T) :
    InvS dead (gameTimerCallback now sid store T).1
      (gameTimerCallback now sid store T).2.1 := by
  obtain ⟨hnd, hq, hent⟩ := h
  cases hf : findBySessionId store sid with
  | none =>
    simp only [gameTimerCallback, hf]
    exact ⟨hnd, hq, hent⟩
  | some s =>
    obtain ⟨hsm, hsid⟩ := find?_id_mem hf
    have hsid' : s.sessionId = sid := by rw [hsid]; exact hc
    simp only [gameTimerCallback, hf]
    by_cases hst : s.status = Status.in_progress
    · rw [if_pos hst]
      refine ⟨nodup_rotate (nodup_save hnd), storeQ_rotate (storeQ_save hq (hq s hsm)), ?_⟩
      apply ent_rotate (ent_save (ent_timers_mono clearGameTimer_subset hent) ?_) ?_
      · intro _
        show s.sessionId ∉ clearGameTimer T sid
        rw [hsid']
        exact clearGameTimer_not_mem
      · rw [show jsTrim (jsToLower sid) = sid from hc]
        exact clearGameTimer_not_mem
    · rw [if_neg hst]
      exact ⟨hnd, hq, hent⟩

lemma inv_guess {now : Nat} {cid sid guess : String} {dead : List String}
    {store : List GameSession} {T : List String} (hc : canonicalSid sid)
    (h : InvS dead store T) :
    InvS dead (handleSubmitGuess now cid sid guess store T).1
      (handleSubmitGuess now cid sid guess store T).2.1 := by
  obtain ⟨hnd, hq, hent⟩ := h
  cases hf : findBySessionId store sid with
  | none =>
    simp only [handleSubmitGuess, hf]
    by_cases hg : jsTrim guess = ""
    · rw [if_pos hg]
      exact ⟨hnd, hq, hent⟩
    · rw [if_neg hg]
      exact ⟨hnd, hq, hent⟩
  | some s =>
    obtain ⟨hsm, hsid⟩ := find?_id_mem hf
    have hsid' : s.sessionId = sid := by rw [hsid]; exact hc
    simp only [handleSubmitGuess, hf]
    by_cases hg : jsTrim guess = ""
    · rw [if_pos hg]
      exact ⟨hnd, hq, hent⟩
    · rw [if_neg hg]
      by_cases hst : s.status ≠ Status.in_progress
      · rw [if_pos hst]
        exact ⟨hnd, hq, hent⟩
      · rw [if_neg hst]
        have hstp : s.status = Status.in_progress := not_not.mp hst
        cases hfp : s.players.find? (fun p => p.socketId = cid) with
        | none =>
          simp only [hfp]
          exact ⟨hnd, hq, hent⟩
        | some player =>
          simp only [hfp]
          by_cases hgm : s.gameMasterId = some cid
          · rw [if_pos hgm]
            exact ⟨hnd, hq, hent⟩
          · rw [if_neg hgm]
            by_cases hat : player.attempts ≥ 3
            · rw [if_pos hat]
              exact ⟨hnd, hq, hent⟩
            · rw [if_neg hat]
              by_cases hcor : some (jsToLower (jsTrim guess)) = s.currentAnswer
              · rw [if_pos hcor]
                have hqw : coreQ dead ({ s with
                    players := updateFirst (fun p => p.socketId = cid)
                      (fun p =>
                        { p with attempts := p.attempts + 1, score := p.score + 10 })
                      s.players
                    status := Status.ended
                    winner := some player.username }) := by
                  refine ⟨(hq s hsm).1, ?_, ?_⟩
                  · intro p hp
                    rcases mem_updateFirst_find? hp with hp1 | ⟨x, hx, rfl⟩
                    · exact (hq s hsm).2.1 p hp1
                    · rw [hfp] at hx
                      injection hx with hx
                      subst hx
                      show player.attempts + 1 ≤ 3
                      omega
                  · intro p hp hcn
                    rcases mem_updateFirst_find? hp with hp1 | ⟨x, hx, rfl⟩
                    · exact (hq s hsm).2.2 p hp1 hcn
                    · rw [hfp] at hx
                      injection hx with hx
                      subst hx
                      exact (hq s hsm).2.2 player (List.mem_of_find?_eq_some hfp)
                        (by simpa using hcn)
                refine ⟨nodup_rotate (nodup_save hnd),
                  storeQ_rotate (storeQ_save hq hqw), ?_⟩
                refine ent_rotate
                  (ent_save (ent_timers_mono clearGameTimer_subset hent) ?_) ?_
                · intro _
                  show s.sessionId ∉ clearGameTimer T sid
                  rw [hsid']
                  exact clearGameTimer_not_mem
                · rw [show jsTrim (jsToLower sid) = sid from hc]
                  exact clearGameTimer_not_mem
              · rw [if_neg hcor]
                have hq1 : coreQ dead ({ s with
                    players := updateFirst (fun p => p.socketId = cid)
                      (fun p => { p with attempts := p.attempts + 1 })
                      s.players }) := by
                  refine ⟨(hq s hsm).1, ?_, ?_⟩
                  · intro p hp
                    rcases mem_updateFirst_find? hp with hp1 | ⟨x, hx, rfl⟩
                    · exact (hq s hsm).2.1 p hp1
                    · rw [hfp] at hx
                      injection hx with hx
                      subst hx
                      show player.attempts + 1 ≤ 3
                      omega
                  · intro p hp hcn
                    rcases mem_updateFirst_find? hp with hp1 | ⟨x, hx, rfl⟩
                    · exact (hq s hsm).2.2 p hp1 hcn
                    · rw [hfp] at hx
                      injection hx with hx
                      subst hx
                      exact (hq s hsm).2.2 player (List.mem_of_find?_eq_some hfp)
                        (by simpa using hcn)
                by_cases hex : allPlayersExhausted ({ s with
                    players := updateFirst (fun p => p.socketId = cid)
                      (fun p => { p with attempts := p.attempts + 1 })
                      s.players }) = true
                · rw [if_pos hex]
                  refine ⟨nodup_rotate (nodup_save (nodup_save hnd)),
                    storeQ_rotate (storeQ_save (storeQ_save hq hq1) hq1), ?_⟩
                  refine ent_rotate
                    (ent_save (ent_save
                      (ent_timers_mono clearGameTimer_subset hent) ?_) ?_) ?_
                  · intro hse
                    have hse' : s.status = Status.ended := hse
                    rw [hstp] at hse'
                    cases hse'
                  · intro _
                    show s.sessionId ∉ clearGameTimer T sid
                    rw [hsid']
                    exact clearGameTimer_not_mem
                  · rw [show jsTrim (jsToLower sid) = sid from hc]
                    exact clearGameTimer_not_mem
                · rw [if_neg hex]
                  refine ⟨nodup_save hnd, storeQ_save hq hq1, ent_save hent ?_⟩
                  · intro hse
                    have hse' : s.status = Status.ended := hse
                    rw [hstp] at hse'
                    cases hse'

lemma inv_processDisc {now : Nat} {c : String} {dead : List String}
    {T0 : List String} {acc : List GameSession × List String × List Emit}
    {s0 : GameSession}
    (hq0 : coreQ (c :: dead) s0)
    (hent0 : s0.status = Status.ended → s0.sessionId ∉ T0)
    (hacc : InvS (c :: dead) acc.1 acc.2.1)
    (hsub : ∀ id ∈ acc.2.1, id ∈ T0) :
    InvS (c :: dead) (processDisconnect now c acc s0).1
      (processDisconnect now c acc s0).2.1 ∧
    (∀ id ∈ (processDisconnect now c acc s0).2.1, id ∈ T0) := by
  obtain ⟨hnd, hq, hent⟩ := hacc
  obtain ⟨ha_players, ha_sid, ha_status, _⟩ :=
    assignGameMaster_core (markDisconnected now c s0) true
  have hA_sid : (assignGameMaster (markDisconnected now c s0) true).1.sessionId =
      s0.sessionId := ha_sid.trans rfl
  have hA_status : (assignGameMaster (markDisconnected now c s0) true).1.status =
      s0.status := ha_status.trans rfl
  have hqm : coreQ (c :: dead) (markDisconnected now c s0) := by
    refine ⟨hq0.1, ?_, ?_⟩
    · intro p hp
      rcases mem_updateFirst hp with hp1 | ⟨x, hx, _, rfl⟩
      · exact hq0.2.1 p hp1
      · simpa using hq0.2.1 x hx
    · intro p hp hcn
      rcases mem_updateFirst hp with hp1 | ⟨x, hx, hpx, rfl⟩
      · exact hq0.2.2 p hp1 hcn
      · simp only [decide_eq_true_eq] at hpx
        simp [hpx]
  have hqA : coreQ (c :: dead) (assignGameMaster (markDisconnected now c s0) true).1 :=
    coreQ_cast ha_sid ha_players hqm
  cases hfp : s0.players.find? (fun q => q.socketId = c) with
  | none =>
    simp only [processDisconnect, hfp]
    exact ⟨⟨hnd, hq, hent⟩, hsub⟩
  | some pl =>
    simp only [processDisconnect, hfp]
    by_cases hwgm : s0.gameMasterId = some c
    · rw [if_pos hwgm]
      by_cases hst : (assignGameMaster (markDisconnected now c s0) true).1.status =
          Status.in_progress
      · rw [if_pos hst]
        refine ⟨⟨nodup_save (nodup_rotate hnd),
          storeQ_save (storeQ_rotate hq) hqA, ?_⟩, ?_⟩
        · refine ent_save (ent_rotate
            (ent_timers_mono clearGameTimer_subset hent) ?_) ?_
          · rw [hA_sid, show jsTrim (jsToLower s0.sessionId) = s0.sessionId from hq0.1]
            have : s0.sessionId ∉ clearGameTimer acc.2.1 s0.sessionId :=
              clearGameTimer_not_mem
            intro hmem
            apply this
            have hx := List.mem_filter.mp hmem
            refine List.mem_filter.mpr ⟨hx.1, ?_⟩
            simpa [hA_sid] using hx.2
          · intro _
            show (assignGameMaster (markDisconnected now c s0) true).1.sessionId ∉ _
            exact clearGameTimer_not_mem
        · intro id hid
          exact hsub _ (clearGameTimer_subset _ hid)
      · rw [if_neg hst]
        refine ⟨⟨nodup_save hnd, storeQ_save hq hqA, ent_save hent ?_⟩, hsub⟩
        · intro he hcm
          exact hent0 (hA_status.symm.trans he) (hsub _ (hA_sid ▸ hcm))
    · rw [if_neg hwgm]
      refine ⟨⟨nodup_save hnd, storeQ_save hq hqm, ent_save hent ?_⟩, hsub⟩
      · intro he hcm
        exact hent0 he (hsub _ hcm)

lemma foldl_processDisconnect_inv {now : Nat} {c : String} {dead : List String}
    {store0 : List GameSession} {T0 : List String}
    (h0 : InvS dead store0 T0) :
    ∀ (ms : List GameSession) (acc : List GameSession × List String × List Emit),
      (∀ m ∈ ms, m ∈ store0) →
      InvS (c :: dead) acc.1 acc.2.1 →
      (∀ id ∈ acc.2.1, id ∈ T0) →
      InvS (c :: dead) (ms.foldl (processDisconnect now c) acc).1
        (ms.foldl (processDisconnect now c) acc).2.1 ∧
      (∀ id ∈ (ms.foldl (processDisconnect now c) acc).2.1, id ∈ T0)
  | [], acc, _, hacc, hsub => ⟨hacc, hsub⟩
  | m :: ms, acc, hm, hacc, hsub => by
    have hmm := hm m (List.mem_cons_self m ms)
    have hstep := @inv_processDisc now c dead T0 acc m
      (coreQ_mono (fun x hx => List.mem_cons_of_mem c hx) (h0.2.1 m hmm))
      (h0.2.2 m hmm) hacc hsub
    rw [List.foldl_cons]
    exact foldl_processDisconnect_inv h0 ms _
      (fun x hx => hm x (List.mem_cons_of_mem m hx)) hstep.1 hstep.2

lemma inv_disc {now : Nat} {c : String} {dead : List String}
    {store : List GameSession} {T : List String} (h : InvS dead store T) :
    InvS (c :: dead) (handleDisconnect now c store T).1
      (handleDisconnect now c store T).2.1 := by
  have hmono : InvS (c :: dead) store T :=
    ⟨h.1, fun s hs => coreQ_mono (fun x hx => List.mem_cons_of_mem c hx) (h.2.1 s hs),
     h.2.2⟩
  exact (foldl_processDisconnect_inv h
    (store.filter (fun s => s.players.any (fun p => p.socketId = c)))
    (store, T, ([] : List Emit))
    (fun m hm => (List.mem_filter.mp hm).1) hmono (fun _ hid => hid)).1

lemma inv_step {now : Nat} {c : Cmd} {dead : List String} {w : World}
    (hcanon : canonicalCmdB c = true) (h : InvS dead w.store w.timers) :
    InvS (updateDead dead c) (step now c w).1.store (step now c w).1.timers := by
  cases c with
  | create cid un sid => exact inv_create h
  | join cid un sid => exact inv_join h
  | setQ cid sid q a => exact inv_setQ h
  | startG cid sid =>
    exact inv_startG (by simpa [canonicalCmdB, cmdSid, canonicalSid] using hcanon) h
  | guessC cid sid g =>
    exact inv_guess (by simpa [canonicalCmdB, cmdSid, canonicalSid] using hcanon) h
  | nextRound cid sid => exact inv_nextRound h
  | disc cid => exact inv_disc h
  | tick sid =>
    by_cases hmem : sid ∈ w.timers
    · simp only [step, if_pos hmem]
      exact inv_timerCb (by simpa [canonicalCmdB, cmdSid, canonicalSid] using hcanon)
        (invS_timers_mono clearGameTimer_subset h)
    · simp only [step, if_neg hmem]
      exact h

lemma inv_runFrom :
    ∀ (tr : List (Nat × Cmd)) (dead : List String) (w : World),
      WFtraceB dead tr = true → InvS dead w.store w.timers →
      InvS (deadAfter dead tr) (runFrom w tr).store (runFrom w tr).timers
  | [], _, _, _, h => h
  | e :: tr, dead, w, hwf, h => by
    simp only [WFtraceB, Bool.and_eq_true] at hwf
    exact inv_runFrom tr _ _ hwf.2 (inv_step hwf.1.1 h)

lemma foldl_processDisconnect_spec {now : Nat} {c : String}
    {store : List GameSession} {T : List String}
    (hnd : (store.map GameSession.sessionId).Nodup)
    (hcanon : ∀ s ∈ store, canonicalSid s.sessionId) :
    ∀ (ms : List GameSession) (acc : List GameSession × List String × List Emit),
      (∀ m ∈ ms, m ∈ store) →
      (ms.map GameSession.sessionId).Nodup →
      (∀ id ∈ acc.2.1, id ∈ T) →
      acc.1.map GameSession.sessionId = store.map GameSession.sessionId →
      (∀ id s', acc.1.find? (fun t => t.sessionId = id) = some s' →
        ∃ s, store.find? (fun t => t.sessionId = id) = some s ∧
          (s' = s ∨ (s'.players = (markDisconnected now c s).players ∧
            (s'.status = s.status ∨
              (s'.status = Status.ended ∧ s.status = Status.in_progress))))) →
      (∀ sid' r win a, Emit.gameEnded sid' r win a ∈ acc.2.2 →
        (∃ s, store.find? (fun t => t.sessionId = sid') = some s ∧
          s.status = Status.in_progress) ∧
        (∃ d, acc.1.find? (fun t => t.sessionId = sid') = some d ∧
          d.status = Status.ended) ∧
        sid' ∉ ms.map GameSession.sessionId) →
      (∀ id ∈ (ms.foldl (processDisconnect now c) acc).2.1, id ∈ T) ∧
      ((ms.foldl (processDisconnect now c) acc).1.map GameSession.sessionId =
        store.map GameSession.sessionId) ∧
      (∀ id s', (ms.foldl (processDisconnect now c) acc).1.find?
          (fun t => t.sessionId = id) = some s' →
        ∃ s, store.find? (fun t => t.sessionId = id) = some s ∧
          (s' = s ∨ (s'.players = (markDisconnected now c s).players ∧
            (s'.status = s.status ∨
              (s'.status = Status.ended ∧ s.status = Status.in_progress))))) ∧
      (∀ sid' r win a,
        Emit.gameEnded sid' r win a ∈ (ms.foldl (processDisconnect now c) acc).2.2 →
        (∃ s, store.find? (fun t => t.sessionId = sid') = some s ∧
          s.status = Status.in_progress) ∧
        (∃ d, (ms.foldl (processDisconnect now c) acc).1.find?
            (fun t => t.sessionId = sid') = some d ∧ d.status = Status.ended))
  | [], acc, _, _, hsub, hids, hfind, hemit =>
    ⟨hsub, hids, hfind, fun sid' r win a hm =>
      ⟨(hemit sid' r win a hm).1, (hemit sid' r win a hm).2.1⟩⟩
  | m :: ms, acc, hm, hmsnd, hsub, hids, hfind, hemit => by
    have hmm := hm m (List.mem_cons_self m ms)
    have hpres : m.sessionId ∈ acc.1.map GameSession.sessionId := by
      rw [hids]
      exact List.mem_map.mpr ⟨m, hmm, rfl⟩
    obtain ⟨sp1, sp2, sp3, sp4, sp5⟩ :=
      processDisconnect_spec now c acc m (hcanon m hmm) hpres
    have hmfind : store.find? (fun t => t.sessionId = m.sessionId) = some m :=
      find?_of_nodup hnd hmm
    simp only [List.map_cons, List.nodup_cons] at hmsnd
    rw [List.foldl_cons]
    apply foldl_processDisconnect_spec hnd hcanon ms _
      (fun x hx => hm x (List.mem_cons_of_mem m hx)) hmsnd.2
    · intro id hid
      exact hsub _ (sp1 _ hid)
    · rw [sp2]
      exact hids
    · intro id s' hP
      by_cases hid : id = m.sessionId
      · subst hid
        rcases sp4 with h4 | ⟨d, hd, hdp, hds⟩
        · rw [h4] at hP
          exact hfind _ _ hP
        · rw [hd] at hP
          injection hP with hP
          subst hP
          refine ⟨m, hmfind, Or.inr ⟨hdp, ?_⟩⟩
          rcases hds with hds | ⟨h1, h2, _⟩
          · exact Or.inl hds
          · exact Or.inr ⟨h1, h2⟩
      · rw [sp3 id hid] at hP
        exact hfind _ _ hP
    · intro sid' r win a hmem
      rcases sp5 sid' r win a hmem with hold | ⟨hse, hsp, d, hd, hds⟩
      · obtain ⟨hpre, hdd, hnin⟩ := hemit sid' r win a hold
        rw [List.map_cons] at hnin
        have hne : sid' ≠ m.sessionId :=
          fun hc => hnin (by rw [hc]; exact List.mem_cons_self _ _)
        have hnin' : sid' ∉ ms.map GameSession.sessionId :=
          fun hc => hnin (List.mem_cons_of_mem _ hc)
        obtain ⟨d, hdf, hde⟩ := hdd
        refine ⟨hpre, ⟨d, ?_, hde⟩, hnin'⟩
        rw [sp3 sid' hne]
        exact hdf
      · subst hse
        exact ⟨⟨m, hmfind, hsp⟩, ⟨d, hd, hds⟩, hmsnd.1⟩

lemma handleDisconnect_spec {now : Nat} {c : String}
    {store : List GameSession} {T : List String}
    (hnd : (store.map GameSession.sessionId).Nodup)
    (hcanon : ∀ s ∈ store, canonicalSid s.sessionId) :
    (∀ id ∈ (handleDisconnect now c store T).2.1, id ∈ T) ∧
    ((handleDisconnect now c store T).1.map GameSession.sessionId =
      store.map GameSession.sessionId) ∧
    (∀ id s', (handleDisconnect now c store T).1.find?
        (fun t => t.sessionId = id) = some s' →
      ∃ s, store.find? (fun t => t.sessionId = id) = some s ∧
        (s' = s ∨ (s'.players = (markDisconnected now c s).players ∧
          (s'.status = s.status ∨
            (s'.status = Status.ended ∧ s.status = Status.in_progress))))) ∧
    (∀ sid' r win a,
      Emit.gameEnded sid' r win a ∈ (handleDisconnect now c store T).2.2 →
      (∃ s, store.find? (fun t => t.sessionId = sid') = some s ∧
        s.status = Status.in_progress) ∧
      (∃ d, (handleDisconnect now c store T).1.find?
          (fun t => t.sessionId = sid') = some d ∧ d.status = Status.ended)) := by
  have hsnd : ((store.filter
      (fun s => s.players.any (fun p => p.socketId = c))).map
        GameSession.sessionId).Nodup :=
    hnd.sublist ((List.filter_sublist store).map GameSession.sessionId)
  exact foldl_processDisconnect_spec hnd hcanon
    (store.filter (fun s => s.players.any (fun p => p.socketId = c)))
    (store, T, ([] : List Emit))
    (fun m hm => (List.mem_filter.mp hm).1) hsnd
    (fun _ hid => hid) rfl
    (fun id s' h => ⟨s', h, Or.inl rfl⟩)
    (fun sid' r win a hm => absurd hm (List.not_mem_nil _))

lemma mem_ite {c : Prop} [Decidable c] {l1 l2 : List α} {e : α}
    (h : e ∈ if c then l1 else l2) : e ∈ l1 ∨ e ∈ l2 := by
  by_cases hc : c
  · rw [if_pos hc] at h
    exact Or.inl h
  · rw [if_neg hc] at h
    exact Or.inr h

lemma view_get_attempts {l1 l2 : List Player}
    (h : l1.map (fun p => p.attempts) = l2.map (fun p => p.attempts))
    {i : Nat} {p q : Player} (h1 : l1.get? i = some p) (h2 : l2.get? i = some q) :
    p.attempts = q.attempts := by
  have hg := congrArg (fun l => l.get? i) h
  simp only [List.get?_map, h1, h2, Option.map_some] at hg
  exact Option.some.inj hg

lemma map_updateFirst_congr {p : α → Bool} {f₁ f₂ : α → α} {g : α → β}
    (h : ∀ x, p x = true → g (f₁ x) = g (f₂ x)) :
    ∀ l : List α, (updateFirst p f₁ l).map g = (updateFirst p f₂ l).map g
  | [] => rfl
  | y :: l => by
    unfold updateFirst
    by_cases hy : p y
    · simp only [if_pos hy]
      simp [h y hy]
    · simp only [if_neg hy]
      simp [map_updateFirst_congr h l]

lemma rotate_save_find_view {now : Nat} {sid : String} {store : List GameSession}
    {u : GameSession} (hid : u.sessionId = jsTrim (jsToLower sid)) :
    ∃ d, (rotateGameMaster now sid (saveSession now store u)).1.find?
        (fun t => t.sessionId = u.sessionId) = some d ∧
      attemptsView d = attemptsView u ∧
      (d.status = u.status ∨ d.status = Status.ended) := by
  obtain ⟨d, hd, hv, hst⟩ := rotate_view_self
    (@findBySessionId_after_save now store u sid hid)
  refine ⟨d, hd, hv, ?_⟩
  rcases hst with h | h
  · exact Or.inl h
  · exact Or.inr h

lemma create_no_gameEnded {now : Nat} {cid un sid : String}
    {store : List GameSession} {sid' : String} {r : Reason} {win ans : Option String} :
    Emit.gameEnded sid' r win ans ∉ (handleCreateSession now cid un sid store).2 := by
  cases hf : findBySessionId store (jsToLower (jsTrim sid)) with
  | some s =>
    simp only [handleCreateSession, hf]
    by_cases hg : (jsTrim un = "" || jsTrim sid = "") = true
    · rw [if_pos hg]
      simp
    · rw [if_neg hg]
      simp
  | none =>
    simp only [handleCreateSession, hf]
    by_cases hg : (jsTrim un = "" || jsTrim sid = "") = true
    · rw [if_pos hg]
      simp
    · rw [if_neg hg]
      simp

lemma setQ_no_gameEnded {now : Nat} {cid sid q a : String}
    {store : List GameSession} {sid' : String} {r : Reason} {win ans : Option String} :
    Emit.gameEnded sid' r win ans ∉ (handleSetQuestion now cid sid q a store).2 := by
  cases hf : findBySessionId store sid with
  | none =>
    simp only [handleSetQuestion, hf]
    by_cases hg : (jsTrim q = "" || jsTrim a = "") = true
    · rw [if_pos hg]
      simp
    · rw [if_neg hg]
      simp
  | some s =>
    simp only [handleSetQuestion, hf]
    by_cases hg : (jsTrim q = "" || jsTrim a = "") = true
    · rw [if_pos hg]
      simp
    · rw [if_neg hg]
      by_cases hgm : s.gameMasterId ≠ some cid
      · rw [if_pos hgm]
        simp
      · rw [if_neg hgm]
        by_cases hst : s.status ≠ Status.waiting
        · rw [if_pos hst]
          simp
        · rw [if_neg hst]
          simp

lemma nextRound_no_gameEnded {now : Nat} {cid sid : String}
    {store : List GameSession} {sid' : String} {r : Reason} {win ans : Option String} :
    Emit.gameEnded sid' r win ans ∉ (handleStartNextRound now cid sid store).2 := by
  cases hf : findBySessionId store sid with
  | none =>
    simp only [handleStartNextRound, hf]
    simp
  | some s =>
    simp only [handleStartNextRound, hf]
    by_cases hgm : s.gameMasterId ≠ some cid
    · rw [if_pos hgm]
      simp
    · rw [if_neg hgm]
      simp

lemma startG_no_gameEnded {now : Nat} {cid sid : String}
    {store : List GameSession} {T : List String}
    {sid' : String} {r : Reason} {win ans : Option String} :
    Emit.gameEnded sid' r win ans ∉ (handleStartGame now cid sid store T).2.2 := by
  cases hf : findBySessionId store sid with
  | none =>
    simp only [handleStartGame, hf]
    simp
  | some s =>
    simp only [handleStartGame, hf]
    by_cases h1 : s.gameMasterId ≠ some cid
    · rw [if_pos h1]
      simp
    · rw [if_neg h1]
      by_cases h2 : (s.players.filter (fun p => p.isConnected)).length < 2
      · rw [if_pos h2]
        simp
      · rw [if_neg h2]
        by_cases h3 : (strOptFalsy s.currentQuestion || strOptFalsy s.currentAnswer) = true
        · rw [if_pos h3]
          simp
        · rw [if_neg h3]
          by_cases h4 : s.status = Status.in_progress
          · rw [if_pos h4]
            simp
          · rw [if_neg h4]
            simp

lemma join_no_gameEnded {now : Nat} {cid un sid : String}
    {store : List GameSession} {sid' : String} {r : Reason} {win ans : Option String} :
    Emit.gameEnded sid' r win ans ∉ (handleJoinSession now cid un sid store).2 := by
  cases hf : findBySessionId store (jsToLower (jsTrim sid)) with
  | none =>
    simp only [handleJoinSession, hf]
    by_cases hg : (jsTrim un = "" || jsTrim sid = "") = true
    · rw [if_pos hg]
      simp
    · rw [if_neg hg]
      simp
  | some s =>
    simp only [handleJoinSession, hf]
    by_cases hg : (jsTrim un = "" || jsTrim sid = "") = true
    · rw [if_pos hg]
      simp
    · rw [if_neg hg]
      cases hfp : s.players.find? (fun p => p.username = jsTrim un) with
      | some q =>
        simp only [hfp]
        intro hmem
        rcases List.mem_append.mp hmem with hmem | hmem
        · rcases List.mem_append.mp hmem with hmem | hmem
          · exact absurd rfl (assignGameMaster_no_gameEnded _ true _ hmem sid' r win ans)
          · simp at hmem
        · rcases mem_ite hmem with hmem | hmem <;> simp at hmem
      | none =>
        simp only [hfp]
        by_cases hst : s.status = Status.in_progress
        · rw [if_pos hst]
          simp
        · rw [if_neg hst]
          intro hmem
          rcases List.mem_append.mp hmem with hmem | hmem
          · rcases List.mem_append.mp hmem with hmem | hmem
            · exact absurd rfl
                (assignGameMaster_no_gameEnded _ true _ hmem sid' r win ans)
            · simp at hmem
          · rcases mem_ite hmem with hmem | hmem <;> simp at hmem

lemma timerCb_gameEnded {now : Nat} {sid : String} {store : List GameSession}
    {T : List String} (hc : canonicalSid sid)
    {sid' : String} {r : Reason} {win ans : Option String}
    (hmem : Emit.gameEnded sid' r win ans ∈ (gameTimerCallback now sid store T).2.2) :
    (∃ s, store.find? (fun t => t.sessionId = sid') = some s ∧
      s.status = Status.in_progress) ∧
    (∃ d, (gameTimerCallback now sid store T).1.find?
        (fun t => t.sessionId = sid') = some d ∧ d.status = Status.ended) := by
  cases hf : findBySessionId store sid with
  | none =>
    simp only [gameTimerCallback, hf] at hmem
    simp at hmem
  | some s =>
    obtain ⟨hsm, hsid⟩ := find?_id_mem hf
    have hsid' : s.sessionId = sid := by rw [hsid]; exact hc
    have hf' : store.find? (fun t => t.sessionId = sid) = some s := by
      rw [findBySessionId_canon hc] at hf
      exact hf
    simp only [gameTimerCallback, hf] at hmem ⊢
    by_cases hst : s.status = Status.in_progress
    · rw [if_pos hst] at hmem ⊢
      simp only [List.mem_append, List.mem_cons, List.not_mem_nil, or_false] at hmem
      rcases hmem with (hmem | hmem) | hmem
      · cases hmem
        constructor
        · refine ⟨s, ?_, hst⟩
          rw [hsid']
          exact hf'
        · obtain ⟨d, hd, _, hds⟩ := @rotate_save_find_view now sid store
            ({ s with status := Status.ended })
            (show s.sessionId = jsTrim (jsToLower sid) from hsid)
          refine ⟨d, hd, ?_⟩
          rcases hds with h | h
          · exact h
          · exact h
      · exact absurd rfl ((rotateGameMaster_emits _ hmem).1 sid' r win ans)
      · cases hmem
    · rw [if_neg hst] at hmem
      simp at hmem

lemma guess_gameEnded {now : Nat} {cid sid guess : String} {store : List GameSession}
    {T : List String} (hc : canonicalSid sid)
    {sid' : String} {r : Reason} {win ans : Option String}
    (hmem : Emit.gameEnded sid' r win ans ∈
      (handleSubmitGuess now cid sid guess store T).2.2) :
    (∃ s, store.find? (fun t => t.sessionId = sid') = some s ∧
      s.status = Status.in_progress) ∧
    (∃ d, (handleSubmitGuess now cid sid guess store T).1.find?
        (fun t => t.sessionId = sid') = some d ∧ d.status = Status.ended) := by
  cases hf : findBySessionId store sid with
  | none =>
    simp only [handleSubmitGuess, hf] at hmem
    by_cases hg : jsTrim guess = ""
    · rw [if_pos hg] at hmem
      simp at hmem
    · rw [if_neg hg] at hmem
      simp at hmem
  | some s =>
    obtain ⟨hsm, hsid⟩ := find?_id_mem hf
    have hsid' : s.sessionId = sid := by rw [hsid]; exact hc
    have hf' : store.find? (fun t => t.sessionId = sid) = some s := by
      rw [findBySessionId_canon hc] at hf
      exact hf
    simp only [handleSubmitGuess, hf] at hmem ⊢
    by_cases hg : jsTrim guess = ""
    · rw [if_pos hg] at hmem
      simp at hmem
    · rw [if_neg hg] at hmem ⊢
      by_cases hst : s.status ≠ Status.in_progress
      · rw [if_pos hst] at hmem
        simp at hmem
      · rw [if_neg hst] at hmem ⊢
        have hstp : s.status = Status.in_progress := not_not.mp hst
        cases hfp : s.players.find? (fun p => p.socketId = cid) with
        | none =>
          simp only [hfp] at hmem
          simp at hmem
        | some player =>
          simp only [hfp] at hmem ⊢
          by_cases hgm : s.gameMasterId = some cid
          · rw [if_pos hgm] at hmem
            simp at hmem
          · rw [if_neg hgm] at hmem ⊢
            by_cases hat : player.attempts ≥ 3
            · rw [if_pos hat] at hmem
              simp at hmem
            · rw [if_neg hat] at hmem ⊢
              by_cases hcor : some (jsToLower (jsTrim guess)) = s.currentAnswer
              · rw [if_pos hcor] at hmem ⊢
                simp only [List.mem_append, List.mem_cons, List.not_mem_nil,
                  or_false] at hmem
                rcases hmem with (hmem | hmem) | hmem
                · cases hmem
                  constructor
                  · refine ⟨s, ?_, hstp⟩
                    rw [hsid']
                    exact hf'
                  · obtain ⟨d, hd, _, hds⟩ := @rotate_save_find_view now sid store
                      ({ s with
                        players := updateFirst (fun p => p.socketId = cid)
                          (fun p =>
                            { p with attempts := p.attempts + 1, score := p.score + 10 })
                          s.players
                        status := Status.ended
                        winner := some player.username })
                      (show s.sessionId = jsTrim (jsToLower sid) from hsid)
                    refine ⟨d, hd, ?_⟩
                    rcases hds with h | h
                    · exact h
                    · exact h
                · exact absurd rfl ((rotateGameMaster_emits _ hmem).1 sid' r win ans)
                · cases hmem
              · rw [if_neg hcor] at hmem ⊢
                by_cases hex : allPlayersExhausted ({ s with
                    players := updateFirst (fun p => p.socketId = cid)
                      (fun p => { p with attempts := p.attempts + 1 })
                      s.players }) = true
                · rw [if_pos hex] at hmem ⊢
                  simp only [List.mem_append, List.mem_cons, List.not_mem_nil,
                    or_false] at hmem
                  rcases hmem with (((hmem | hmem) | hmem) | hmem) | hmem
                  · rcases hmem with hmem | hmem
                    · cases hmem
                    · cases hmem
                  · cases hgm2 : s.gameMasterId with
                    | some g2 =>
                      simp only [hgm2] at hmem
                      simp at hmem
                    | none =>
                      simp only [hgm2] at hmem
                      simp at hmem
                  · cases hmem
                    constructor
                    · refine ⟨s, ?_, hstp⟩
                      rw [hsid']
                      exact hf'
                    · obtain ⟨d, hd, _, hds⟩ := @rotate_save_find_view now sid
                        (saveSession now store ({ s with
                          players := updateFirst (fun p => p.socketId = cid)
                            (fun p => { p with attempts := p.attempts + 1 })
                            s.players }))
                        ({ s with
                          players := updateFirst (fun p => p.socketId = cid)
                            (fun p => { p with attempts := p.attempts + 1 })
                            s.players
                          status := Status.ended })
                        (show s.sessionId = jsTrim (jsToLower sid) from hsid)
                      refine ⟨d, hd, ?_⟩
                      rcases hds with h | h
                      · exact h
                      · exact h
                  · exact absurd rfl ((rotateGameMaster_emits _ hmem).1 sid' r win ans)
                  · cases hmem
                · rw [if_neg hex] at hmem
                  simp only [List.mem_append, List.mem_cons, List.not_mem_nil,
                    or_false] at hmem
                  rcases hmem with (hmem | hmem) | hmem
                  · cases hmem
                  · cases hmem
                  · cases hgm2 : s.gameMasterId with
                    | some g2 =>
                      simp only [hgm2] at hmem
                      simp at hmem
                    | none =>
                      simp only [hgm2] at hmem
                      simp at hmem

lemma step_gameEnded {now : Nat} {c : Cmd} {w : World} {dead : List String}
    (hinv : InvS dead w.store w.timers) (hcanon : canonicalCmdB c = true)
    {sid' : String} {r : Reason} {win ans : Option String}
    (hmem : Emit.gameEnded sid' r win ans ∈ (step now c w).2) :
    (∃ s, w.store.find? (fun t => t.sessionId = sid') = some s ∧
      s.status = Status.in_progress) ∧
    (∃ d, (step now c w).1.store.find? (fun t => t.sessionId = sid') = some d ∧
      d.status = Status.ended) ∧
    sid' ∉ (step now c w).1.timers := by
  have hpost := @inv_step now c dead w hcanon hinv
  have hmain : (∃ s, w.store.find? (fun t => t.sessionId = sid') = some s ∧
      s.status = Status.in_progress) ∧
    (∃ d, (step now c w).1.store.find? (fun t => t.sessionId = sid') = some d ∧
      d.status = Status.ended) := by
    cases c with
    | create cid un sid => exact absurd hmem create_no_gameEnded
    | join cid un sid => exact absurd hmem join_no_gameEnded
    | setQ cid sid q a => exact absurd hmem setQ_no_gameEnded
    | startG cid sid => exact absurd hmem startG_no_gameEnded
    | nextRound cid sid => exact absurd hmem nextRound_no_gameEnded
    | guessC cid sid g =>
      exact guess_gameEnded
        (by simpa [canonicalCmdB, cmdSid, canonicalSid] using hcanon) hmem
    | disc cid =>
      have hspec := @handleDisconnect_spec now cid w.store w.timers
        hinv.1 (fun s hs => (hinv.2.1 s hs).1)
      exact ⟨(hspec.2.2.2 sid' r win ans hmem).1, (hspec.2.2.2 sid' r win ans hmem).2⟩
    | tick sid =>
      by_cases hmem2 : sid ∈ w.timers
      · have hmem' : Emit.gameEnded sid' r win ans ∈
            (gameTimerCallback now sid w.store (clearGameTimer w.timers sid)).2.2 := by
          simpa only [step, if_pos hmem2] using hmem
        have := timerCb_gameEnded
          (by simpa [canonicalCmdB, cmdSid, canonicalSid] using hcanon) hmem'
        refine ⟨this.1, ?_⟩
        simpa only [step, if_pos hmem2] using this.2
      · rw [show (step now (Cmd.tick sid) w).2 = [] from by
          simp only [step, if_neg hmem2]] at hmem
        cases hmem
  refine ⟨hmain.1, hmain.2, ?_⟩
  obtain ⟨d, hd, hde⟩ := hmain.2
  obtain ⟨hdm, hdid⟩ := find?_id_mem hd
  intro hmm
  exact hpost.2.2 d hdm hde (by rw [hdid]; exact hmm)

/-- C4: the fired round timer re-checks the session status and is a complete
no-op — store, timer map and notifications unchanged — unless the session is
still `in_progress`; along any well-formed trace from the empty world an
`ended` session never has a pending round timer (whichever trigger ended the
round cancelled it); and any serialized step that emits `game_ended` for a
session finds that session `in_progress` before the step, leaves it `ended`
with no pending timer after the step — so no second `game_ended` can be
emitted for the same round. -/
theorem C4_timer_once :
    (∀ now sid store T,
      (∀ s, findBySessionId store sid = some s → s.status ≠ Status.in_progress) →
      gameTimerCallback now sid store T = (store, T, [])) ∧
    (∀ tr, WFtraceB [] tr = true → EndedNoTimer (runFrom initWorld tr)) ∧
    (∀ now c w dead sid' r win ans, InvD dead w → canonicalCmdB c = true →
      Emit.gameEnded sid' r win ans ∈ (step now c w).2 →
      (∃ s, w.store.find? (fun t => t.sessionId = sid') = some s ∧
        s.status = Status.in_progress) ∧
      (∃ d, (step now c w).1.store.find? (fun t => t.sessionId = sid') = some d ∧
        d.status = Status.ended) ∧
      sid' ∉ (step now c w).1.timers) := by
  refine ⟨?_, ?_, ?_⟩
  · intro now sid store T hno
    cases hf : findBySessionId store sid with
    | none => simp only [gameTimerCallback, hf]
    | some s =>
      simp only [gameTimerCallback, hf]
      rw [if_neg (hno s hf)]
  · intro tr hwf
    have h0 : InvS [] initWorld.store initWorld.timers := by
      refine ⟨?_, ?_, ?_⟩ <;> simp [initWorld]
    exact (inv_runFrom tr [] initWorld hwf h0).2.2
  · intro now c w dead sid' r win ans hinv hcanon hmem
    exact step_gameEnded hinv hcanon hmem

/-- C4 (witness): the fired timer is a no-op on the concrete ended session;
the one-command create trace satisfies the ended-no-timer invariant; and the
timeout tick on the live mid-round session is characterized by the theorem. -/
theorem C4_witness :
    gameTimerCallback 7 "abc12" [sEnded] ["zzz"] = ([sEnded], ["zzz"], []) ∧
    EndedNoTimer (runFrom initWorld [(3, Cmd.create "c1" "al" "abc12")]) ∧
    ((∃ s, [sInProgress].find? (fun t => t.sessionId = "abc12") = some s ∧
        s.status = Status.in_progress) ∧
     (∃ d, (step 9 (Cmd.tick "abc12")
         { store := [sInProgress], timers := ["abc12"] }).1.store.find?
           (fun t => t.sessionId = "abc12") = some d ∧ d.status = Status.ended) ∧
     "abc12" ∉ (step 9 (Cmd.tick "abc12")
         { store := [sInProgress], timers := ["abc12"] }).1.timers) :=
  ⟨C4_timer_once.1 7 "abc12" [sEnded] ["zzz"] (fun s hs => by
      rw [show findBySessionId [sEnded] "abc12" = some sEnded from by decide] at hs
      cases hs
      decide),
   C4_timer_once.2.1 [(3, Cmd.create "c1" "al" "abc12")] (by decide),
   C4_timer_once.2.2 9 (Cmd.tick "abc12")
     { store := [sInProgress], timers := ["abc12"] } [] "abc12" Reason.timeout
     none (some "paris")
     (by
       refine ⟨by decide, ?_, ?_⟩
       · intro s hs
         simp only [List.mem_singleton] at hs
         subst hs
         refine ⟨?_, by decide, by decide⟩
         show jsTrim (jsToLower sInProgress.sessionId) = sInProgress.sessionId
         decide
       · intro s hs
         simp only [List.mem_singleton] at hs
         subst hs
         intro hse
         exact absurd hse (by decide))
     (by decide) (by decide)⟩

/-! ### Per-handler attempts-change characterization -/

lemma find?_pred_congr {store : List GameSession} {a b : String} (h : a = b) :
    store.find? (fun t => t.sessionId = a) = store.find? (fun t => t.sessionId = b) := by
  rw [h]

lemma find?_save_target {now : Nat} {store : List GameSession} {u : GameSession}
    {id : String} {s' : GameSession}
    (hf' : (saveSession now store u).find? (fun t => t.sessionId = id) = some s')
    (hid : u.sessionId = id) :
    s' = { u with updatedAt := now } := by
  have hkey : (saveSession now store u).find? (fun t => t.sessionId = id) =
      some { u with updatedAt := now } := by
    rw [← hid]
    exact find?_saveSession_self now store u
  rw [hkey] at hf'
  exact (Option.some.inj hf').symm

lemma create_attempts {now : Nat} {cid un sid : String} {store : List GameSession}
    {id : String} {s s' : GameSession}
    (hf : store.find? (fun t => t.sessionId = id) = some s)
    (hf' : (handleCreateSession now cid un sid store).1.find?
      (fun t => t.sessionId = id) = some s') : s' = s := by
  cases hfb : findBySessionId store (jsToLower (jsTrim sid)) with
  | some q =>
    simp only [handleCreateSession, hfb] at hf'
    by_cases hg : (jsTrim un = "" || jsTrim sid = "") = true
    · rw [if_pos hg] at hf'
      rw [hf] at hf'
      exact (Option.some.inj hf').symm
    · rw [if_neg hg] at hf'
      rw [hf] at hf'
      exact (Option.some.inj hf').symm
  | none =>
    simp only [handleCreateSession, hfb] at hf'
    by_cases hg : (jsTrim un = "" || jsTrim sid = "") = true
    · rw [if_pos hg] at hf'
      rw [hf] at hf'
      exact (Option.some.inj hf').symm
    · rw [if_neg hg] at hf'
      have hfb' : store.find? (fun t =>
          t.sessionId = jsToLower (jsTrim sid)) = none := by
        rw [find?_pred_congr (canonicalSid_create sid).symm]
        exact hfb
      have hne : id ≠ jsToLower (jsTrim sid) := by
        intro hc
        rw [hc, hfb'] at hf
        cases hf
      rw [find?_saveSession_ne (by exact hne)] at hf'
      rw [hf] at hf'
      exact (Option.some.inj hf').symm

lemma setQ_attempts {now : Nat} {cid sid q a : String} {store : List GameSession}
    (hnd : (store.map GameSession.sessionId).Nodup)
    {id : String} {s s' : GameSession}
    (hf : store.find? (fun t => t.sessionId = id) = some s)
    (hf' : (handleSetQuestion now cid sid q a store).1.find?
      (fun t => t.sessionId = id) = some s') : s'.players = s.players := by
  cases hfb : findBySessionId store sid with
  | none =>
    simp only [handleSetQuestion, hfb] at hf'
    by_cases hg : (jsTrim q = "" || jsTrim a = "") = true
    · rw [if_pos hg, hf] at hf'
      rw [Option.some.inj hf']
    · rw [if_neg hg, hf] at hf'
      rw [Option.some.inj hf']
  | some sF =>
    obtain ⟨hsm, _⟩ := find?_id_mem hfb
    simp only [handleSetQuestion, hfb] at hf'
    by_cases hg : (jsTrim q = "" || jsTrim a = "") = true
    · rw [if_pos hg, hf] at hf'
      rw [Option.some.inj hf']
    · rw [if_neg hg] at hf'
      by_cases hgm : sF.gameMasterId ≠ some cid
      · rw [if_pos hgm, hf] at hf'
        rw [Option.some.inj hf']
      · rw [if_neg hgm] at hf'
        by_cases hst : sF.status ≠ Status.waiting
        · rw [if_pos hst, hf] at hf'
          rw [Option.some.inj hf']
        · rw [if_neg hst] at hf'
          by_cases hid : id = sF.sessionId
          · subst hid
            have hsF : store.find? (fun t => t.sessionId = sF.sessionId) = some sF :=
              find?_of_nodup hnd hsm
            rw [hsF] at hf
            have hs : s = sF := (Option.some.inj hf).symm
            have hs' := find?_save_target hf' (by rfl)
            rw [hs, hs']
          · rw [find?_saveSession_ne (by exact fun hc => hid hc), hf] at hf'
            rw [Option.some.inj hf']

lemma nextRound_attempts {now : Nat} {cid sid : String} {store : List GameSession}
    (hnd : (store.map GameSession.sessionId).Nodup) (hc : canonicalSid sid)
    {id : String} {s s' : GameSession}
    (hf : store.find? (fun t => t.sessionId = id) = some s)
    (hf' : (handleStartNextRound now cid sid store).1.find?
      (fun t => t.sessionId = id) = some s') :
    s'.players = s.players ∨
    (id = sid ∧ s'.players = s.players.map (fun p => { p with attempts := 0 })) := by
  cases hfb : findBySessionId store sid with
  | none =>
    simp only [handleStartNextRound, hfb] at hf'
    rw [hf] at hf'
    rw [Option.some.inj hf']
    exact Or.inl rfl
  | some sF =>
    obtain ⟨hsm, hsid⟩ := find?_id_mem hfb
    have hsid' : sF.sessionId = sid := by rw [hsid]; exact hc
    simp only [handleStartNextRound, hfb] at hf'
    by_cases hgm : sF.gameMasterId ≠ some cid
    · rw [if_pos hgm, hf] at hf'
      rw [Option.some.inj hf']
      exact Or.inl rfl
    · rw [if_neg hgm] at hf'
      by_cases hid : id = sF.sessionId
      · subst hid
        have hsF : store.find? (fun t => t.sessionId = sF.sessionId) = some sF :=
          find?_of_nodup hnd hsm
        rw [hsF] at hf
        have hs : s = sF := (Option.some.inj hf).symm
        have hs' := find?_save_target hf' (by rfl)
        right
        refine ⟨hsid', ?_⟩
        rw [hs, hs']
      · rw [find?_saveSession_ne (by exact fun hc2 => hid hc2), hf] at hf'
        rw [Option.some.inj hf']
        exact Or.inl rfl

lemma startG_attempts {now : Nat} {cid sid : String} {store : List GameSession}
    {T : List String}
    (hnd : (store.map GameSession.sessionId).Nodup) (hc : canonicalSid sid)
    {id : String} {s s' : GameSession}
    (hf : store.find? (fun t => t.sessionId = id) = some s)
    (hf' : (handleStartGame now cid sid store T).1.find?
      (fun t => t.sessionId = id) = some s') :
    s'.players = s.players ∨
    (id = sid ∧ s'.players = s.players.map (fun p => { p with attempts := 0 })) := by
  cases hfb : findBySessionId store sid with
  | none =>
    simp only [handleStartGame, hfb] at hf'
    rw [hf] at hf'
    rw [Option.some.inj hf']
    exact Or.inl rfl
  | some sF =>
    obtain ⟨hsm, hsid⟩ := find?_id_mem hfb
    have hsid' : sF.sessionId = sid := by rw [hsid]; exact hc
    simp only [handleStartGame, hfb] at hf'
    by_cases h1 : sF.gameMasterId ≠ some cid
    · rw [if_pos h1, hf] at hf'
      rw [Option.some.inj hf']
      exact Or.inl rfl
    · rw [if_neg h1] at hf'
      by_cases h2 : (sF.players.filter (fun p => p.isConnected)).length < 2
      · rw [if_pos h2, hf] at hf'
        rw [Option.some.inj hf']
        exact Or.inl rfl
      · rw [if_neg h2] at hf'
        by_cases h3 : (strOptFalsy sF.currentQuestion ||
            strOptFalsy sF.currentAnswer) = true
        · rw [if_pos h3, hf] at hf'
          rw [Option.some.inj hf']
          exact Or.inl rfl
        · rw [if_neg h3] at hf'
          by_cases h4 : sF.status = Status.in_progress
          · rw [if_pos h4, hf] at hf'
            rw [Option.some.inj hf']
            exact Or.inl rfl
          · rw [if_neg h4] at hf'
            by_cases hid : id = sF.sessionId
            · subst hid
              have hsF : store.find? (fun t => t.sessionId = sF.sessionId) = some sF :=
                find?_of_nodup hnd hsm
              rw [hsF] at hf
              have hs : s = sF := (Option.some.inj hf).symm
              have hs' := find?_save_target hf' (by rfl)
              right
              refine ⟨hsid', ?_⟩
              rw [hs, hs']
            · rw [find?_saveSession_ne (by exact fun hc2 => hid hc2), hf] at hf'
              rw [Option.some.inj hf']
              exact Or.inl rfl

lemma join_attempts {now : Nat} {cid un sid : String} {store : List GameSession}
    (hnd : (store.map GameSession.sessionId).Nodup)
    {id : String} {s s' : GameSession}
    (hf : store.find? (fun t => t.sessionId = id) = some s)
    (hf' : (handleJoinSession now cid un sid store).1.find?
      (fun t => t.sessionId = id) = some s') :
    ∀ i p p', s.players.get? i = some p → s'.players.get? i = some p' →
      p'.attempts = p.attempts := by
  cases hfb : findBySessionId store (jsToLower (jsTrim sid)) with
  | none =>
    simp only [handleJoinSession, hfb] at hf'
    by_cases hg : (jsTrim un = "" || jsTrim sid = "") = true
    · rw [if_pos hg, hf] at hf'
      rw [Option.some.inj hf']
      intro i p p' hp hp'
      rw [hp] at hp'
      rw [Option.some.inj hp']
    · rw [if_neg hg, hf] at hf'
      rw [Option.some.inj hf']
      intro i p p' hp hp'
      rw [hp] at hp'
      rw [Option.some.inj hp']
  | some sF =>
    obtain ⟨hsm, _⟩ := find?_id_mem hfb
    simp only [handleJoinSession, hfb] at hf'
    by_cases hg : (jsTrim un = "" || jsTrim sid = "") = true
    · rw [if_pos hg, hf] at hf'
      rw [Option.some.inj hf']
      intro i p p' hp hp'
      rw [hp] at hp'
      rw [Option.some.inj hp']
    · rw [if_neg hg] at hf'
      cases hfp : sF.players.find? (fun p => p.username = jsTrim un) with
      | some q =>
        simp only [hfp] at hf'
        obtain ⟨hap, hasid, _, _⟩ := assignGameMaster_core
          ({ sF with players :=
            (updateFirst (fun p => p.username = jsTrim un)
              (fun p =>
                { p with socketId := cid, isConnected := true, lastActivity := now })
              sF.players) }) true
        by_cases hid : id = sF.sessionId
        · subst hid
          have hsF : store.find? (fun t => t.sessionId = sF.sessionId) = some sF :=
            find?_of_nodup hnd hsm
          rw [hsF] at hf
          have hs : s = sF := (Option.some.inj hf).symm
          have hs' := find?_save_target hf' (hasid.trans rfl)
          have hpl : s'.players =
              updateFirst (fun p => p.username = jsTrim un)
                (fun p =>
                  { p with socketId := cid, isConnected := true, lastActivity := now })
                sF.players := by
            rw [hs']
            exact hap
          intro i p p' hp hp'
          rw [hpl] at hp'
          rw [hs] at hp
          rcases get?_updateFirst (fun p => p.username = jsTrim un)
            (fun p =>
              { p with socketId := cid, isConnected := true, lastActivity := now })
            sF.players i with hcase | ⟨x, hx1, _, hx3⟩
          · rw [hcase, hp] at hp'
            rw [Option.some.inj hp']
          · rw [hx3] at hp'
            have hxp : x = p := by
              rw [hx1] at hp
              exact Option.some.inj hp
            subst hxp
            have hp2 : p' =
                { x with socketId := cid, isConnected := true, lastActivity := now } :=
              (Option.some.inj hp').symm
            rw [hp2]
        · have hne : id ≠ (assignGameMaster ({ sF with players :=
              (updateFirst (fun p => p.username = jsTrim un)
                (fun p =>
                  { p with socketId := cid, isConnected := true, lastActivity := now })
                sF.players) }) true).1.sessionId :=
            fun hc => hid (hc.trans (hasid.trans rfl))
          rw [find?_saveSession_ne hne, hf] at hf'
          rw [Option.some.inj hf']
          intro i p p' hp hp'
          rw [hp] at hp'
          rw [Option.some.inj hp']
      | none =>
        simp only [hfp] at hf'
        by_cases hst : sF.status = Status.in_progress
        · rw [if_pos hst, hf] at hf'
          rw [Option.some.inj hf']
          intro i p p' hp hp'
          rw [hp] at hp'
          rw [Option.some.inj hp']
        · rw [if_neg hst] at hf'
          obtain ⟨hap, hasid, _, _⟩ := assignGameMaster_core
            ({ sF with players := sF.players ++
              [{ socketId := cid, username := jsTrim un, score := 0,
                 attempts := 0, isConnected := true,
                 lastGameMasterTime := none, lastActivity := now }] }) true
          by_cases hid : id = sF.sessionId
          · subst hid
            have hsF : store.find? (fun t => t.sessionId = sF.sessionId) = some sF :=
              find?_of_nodup hnd hsm
            rw [hsF] at hf
            have hs : s = sF := (Option.some.inj hf).symm
            have hs' := find?_save_target hf' (hasid.trans rfl)
            have hpl : s'.players = sF.players ++
                [{ socketId := cid, username := jsTrim un, score := 0,
                   attempts := 0, isConnected := true,
                   lastGameMasterTime := none, lastActivity := now }] := by
              rw [hs']
              exact hap
            intro i p p' hp hp'
            rw [hpl] at hp'
            rw [hs] at hp
            have hlt : i < sF.players.length := by
              by_contra hge
              rw [List.get?_eq_none.mpr (Nat.le_of_not_lt hge)] at hp
              cases hp
            rw [List.get?_append hlt, hp] at hp'
            rw [Option.some.inj hp']
          · have hne : id ≠ (assignGameMaster ({ sF with players := sF.players ++
                [{ socketId := cid, username := jsTrim un, score := 0,
                   attempts := 0, isConnected := true,
                   lastGameMasterTime := none, lastActivity := now }] }) true).1.sessionId :=
              fun hc => hid (hc.trans (hasid.trans rfl))
            rw [find?_saveSession_ne hne, hf] at hf'
            rw [Option.some.inj hf']
            intro i p p' hp hp'
            rw [hp] at hp'
            rw [Option.some.inj hp']

lemma timerCb_attempts {now : Nat} {sid : String} {store : List GameSession}
    {T : List String}
    (hnd : (store.map GameSession.sessionId).Nodup) (hc : canonicalSid sid)
    {id : String} {s s' : GameSession}
    (hf : store.find? (fun t => t.sessionId = id) = some s)
    (hf' : (gameTimerCallback now sid store T).1.find?
      (fun t => t.sessionId = id) = some s') :
    attemptsView s' = attemptsView s := by
  cases hfb : findBySessionId store sid with
  | none =>
    simp only [gameTimerCallback, hfb] at hf'
    rw [hf] at hf'
    rw [Option.some.inj hf']
  | some sF =>
    obtain ⟨hsm, hsid⟩ := find?_id_mem hfb
    have hsid' : sF.sessionId = sid := by rw [hsid]; exact hc
    simp only [gameTimerCallback, hfb] at hf'
    by_cases hst : sF.status = Status.in_progress
    · rw [if_pos hst] at hf'
      by_cases hid : id = sF.sessionId
      · subst hid
        have hsF : store.find? (fun t => t.sessionId = sF.sessionId) = some sF :=
          find?_of_nodup hnd hsm
        rw [hsF] at hf
        have hs : s = sF := (Option.some.inj hf).symm
        obtain ⟨d, hd, hv, _⟩ := @rotate_save_find_view now sid store
          ({ sF with status := Status.ended }) (hsid.trans rfl)
        have hd1 : (rotateGameMaster now sid (saveSession now store
            ({ sF with status := Status.ended }))).1.find?
              (fun t => t.sessionId = sF.sessionId) = some d := hd
        rw [hd1] at hf'
        have hsd : s' = d := (Option.some.inj hf').symm
        rw [hsd, hs]
        exact hv
      · have hne1 : jsTrim (jsToLower sid) ≠ id := by
          rw [show jsTrim (jsToLower sid) = sid from hc]
          intro hc2
          exact hid (hc2.symm.trans hsid'.symm)
        rw [rotate_find?_other hne1] at hf'
        have hne2 : id ≠ ({ sF with status := Status.ended } : GameSession).sessionId :=
          fun hc2 => hid hc2
        rw [find?_saveSession_ne hne2, hf] at hf'
        rw [Option.some.inj hf']
    · rw [if_neg hst] at hf'
      rw [hf] at hf'
      rw [Option.some.inj hf']

lemma disc_attempts {now : Nat} {c : String} {store : List GameSession}
    {T : List String}
    (hnd : (store.map GameSession.sessionId).Nodup)
    (hcs : ∀ s ∈ store, canonicalSid s.sessionId)
    {id : String} {s s' : GameSession}
    (hf : store.find? (fun t => t.sessionId = id) = some s)
    (hf' : (handleDisconnect now c store T).1.find?
      (fun t => t.sessionId = id) = some s') :
    attemptsView s' = attemptsView s := by
  obtain ⟨_, _, hfind, _⟩ := @handleDisconnect_spec now c store T hnd hcs
  obtain ⟨s2, hs2, hchar⟩ := hfind id s' hf'
  rw [hf] at hs2
  have hs : s2 = s := (Option.some.inj hs2).symm
  subst hs
  rcases hchar with rfl | ⟨hpl, _⟩
  · rfl
  · show s'.players.map (fun p => p.attempts) = _
    rw [hpl]
    show (updateFirst (fun p => p.socketId = c)
      (fun p => { p with isConnected := false, lastActivity := now })
      s2.players).map (fun p => p.attempts) = _
    refine map_updateFirst_eq ?_ s2.players
    intro x _
    rfl

lemma guess_attempts {now : Nat} {cid sid guess : String} {store : List GameSession}
    {T : List String}
    (hnd : (store.map GameSession.sessionId).Nodup) (hc : canonicalSid sid)
    {id : String} {s s' : GameSession}
    (hf : store.find? (fun t => t.sessionId = id) = some s)
    (hf' : (handleSubmitGuess now cid sid guess store T).1.find?
      (fun t => t.sessionId = id) = some s') :
    attemptsView s' = attemptsView s ∨
    (id = sid ∧ s.status = Status.in_progress ∧ s.gameMasterId ≠ some cid ∧
      (∃ pl, s.players.find? (fun p => p.socketId = cid) = some pl ∧
        pl.attempts < 3) ∧
      attemptsView s' = (updateFirst (fun p => p.socketId = cid)
        (fun p => { p with attempts := p.attempts + 1 }) s.players).map
          (fun p => p.attempts)) := by
  cases hfb : findBySessionId store sid with
  | none =>
    simp only [handleSubmitGuess, hfb] at hf'
    by_cases hg : jsTrim guess = ""
    · rw [if_pos hg, hf] at hf'
      rw [Option.some.inj hf']
      exact Or.inl rfl
    · rw [if_neg hg, hf] at hf'
      rw [Option.some.inj hf']
      exact Or.inl rfl
  | some sF =>
    obtain ⟨hsm, hsid⟩ := find?_id_mem hfb
    have hsid' : sF.sessionId = sid := by rw [hsid]; exact hc
    simp only [handleSubmitGuess, hfb] at hf'
    by_cases hg : jsTrim guess = ""
    · rw [if_pos hg, hf] at hf'
      rw [Option.some.inj hf']
      exact Or.inl rfl
    · rw [if_neg hg] at hf'
      by_cases hst : sF.status ≠ Status.in_progress
      · rw [if_pos hst, hf] at hf'
        rw [Option.some.inj hf']
        exact Or.inl rfl
      · rw [if_neg hst] at hf'
        have hstp : sF.status = Status.in_progress := not_not.mp hst
        cases hfp : sF.players.find? (fun p => p.socketId = cid) with
        | none =>
          simp only [hfp] at hf'
          rw [hf] at hf'
          rw [Option.some.inj hf']
          exact Or.inl rfl
        | some player =>
          simp only [hfp] at hf'
          by_cases hgm : sF.gameMasterId = some cid
          · rw [if_pos hgm, hf] at hf'
            rw [Option.some.inj hf']
            exact Or.inl rfl
          · rw [if_neg hgm] at hf'
            by_cases hat : player.attempts ≥ 3
            · rw [if_pos hat, hf] at hf'
              rw [Option.some.inj hf']
              exact Or.inl rfl
            · rw [if_neg hat] at hf'
              by_cases hcor : some (jsToLower (jsTrim guess)) = sF.currentAnswer
              · rw [if_pos hcor] at hf'
                by_cases hid : id = sF.sessionId
                · subst hid
                  have hsF : store.find? (fun t => t.sessionId = sF.sessionId) =
                      some sF := find?_of_nodup hnd hsm
                  rw [hsF] at hf
                  have hs : s = sF := (Option.some.inj hf).symm
                  subst hs
                  obtain ⟨d, hd, hv, _⟩ := @rotate_save_find_view now sid store
                    ({ s with
                      players := updateFirst (fun p => p.socketId = cid)
                        (fun p =>
                          { p with attempts := p.attempts + 1, score := p.score + 10 })
                        s.players
                      status := Status.ended
                      winner := some player.username }) (hsid.trans rfl)
                  have hd1 : (rotateGameMaster now sid (saveSession now store
                      ({ s with
                        players := updateFirst (fun p => p.socketId = cid)
                          (fun p =>
                            { p with attempts := p.attempts + 1, score := p.score + 10 })
                          s.players
                        status := Status.ended
                        winner := some player.username }))).1.find?
                        (fun t => t.sessionId = s.sessionId) = some d := hd
                  rw [hd1] at hf'
                  have hsd : s' = d := (Option.some.inj hf').symm
                  right
                  refine ⟨hsid', hstp, hgm, ⟨player, hfp, by omega⟩, ?_⟩
                  rw [hsd, hv]
                  show (updateFirst (fun p => p.socketId = cid)
                      (fun p =>
                        { p with attempts := p.attempts + 1, score := p.score + 10 })
                      s.players).map (fun p => p.attempts) = _
                  refine map_updateFirst_congr ?_ s.players
                  intro x _
                  rfl
                · have hne1 : jsTrim (jsToLower sid) ≠ id := by
                    rw [show jsTrim (jsToLower sid) = sid from hc]
                    intro hc2
                    exact hid (hc2.symm.trans hsid'.symm)
                  rw [rotate_find?_other hne1] at hf'
                  have hne2 : id ≠ ({ sF with
                      players := updateFirst (fun p => p.socketId = cid)
                        (fun p =>
                          { p with attempts := p.attempts + 1, score := p.score + 10 })
                        sF.players
                      status := Status.ended
                      winner := some player.username } : GameSession).sessionId :=
                    fun hc2 => hid hc2
                  rw [find?_saveSession_ne hne2, hf] at hf'
                  rw [Option.some.inj hf']
                  exact Or.inl rfl
              · rw [if_neg hcor] at hf'
                by_cases hex : allPlayersExhausted ({ sF with
                    players := updateFirst (fun p => p.socketId = cid)
                      (fun p => { p with attempts := p.attempts + 1 })
                      sF.players }) = true
                · rw [if_pos hex] at hf'
                  by_cases hid : id = sF.sessionId
                  · subst hid
                    have hsF : store.find? (fun t => t.sessionId = sF.sessionId) =
                        some sF := find?_of_nodup hnd hsm
                    rw [hsF] at hf
                    have hs : s = sF := (Option.some.inj hf).symm
                    subst hs
                    obtain ⟨d, hd, hv, _⟩ := @rotate_save_find_view now sid
                      (saveSession now store ({ s with
                        players := updateFirst (fun p => p.socketId = cid)
                          (fun p => { p with attempts := p.attempts + 1 })
                          s.players }))
                      ({ s with
                        players := updateFirst (fun p => p.socketId = cid)
                          (fun p => { p with attempts := p.attempts + 1 })
                          s.players
                        status := Status.ended }) (hsid.trans rfl)
                    have hd1 : (rotateGameMaster now sid (saveSession now
                        (saveSession now store ({ s with
                          players := updateFirst (fun p => p.socketId = cid)
                            (fun p => { p with attempts := p.attempts + 1 })
                            s.players }))
                        ({ s with
                          players := updateFirst (fun p => p.socketId = cid)
                            (fun p => { p with attempts := p.attempts + 1 })
                            s.players
                          status := Status.ended }))).1.find?
                          (fun t => t.sessionId = s.sessionId) = some d := hd
                    rw [hd1] at hf'
                    have hsd : s' = d := (Option.some.inj hf').symm
                    right
                    refine ⟨hsid', hstp, hgm, ⟨player, hfp, by omega⟩, ?_⟩
                    rw [hsd, hv]
                    rfl
                  · have hne1 : jsTrim (jsToLower sid) ≠ id := by
                      rw [show jsTrim (jsToLower sid) = sid from hc]
                      intro hc2
                      exact hid (hc2.symm.trans hsid'.symm)
                    rw [rotate_find?_other hne1] at hf'
                    have hne2 : id ≠ ({ sF with
                        players := updateFirst (fun p => p.socketId = cid)
                          (fun p => { p with attempts := p.attempts + 1 })
                          sF.players
                        status := Status.ended } : GameSession).sessionId :=
                      fun hc2 => hid hc2
                    rw [find?_saveSession_ne hne2] at hf'
                    have hne3 : id ≠ ({ sF with
                        players := updateFirst (fun p => p.socketId = cid)
                          (fun p => { p with attempts := p.attempts + 1 })
                          sF.players } : GameSession).sessionId :=
                      fun hc2 => hid hc2
                    rw [find?_saveSession_ne hne3, hf] at hf'
                    rw [Option.some.inj hf']
                    exact Or.inl rfl
                · rw [if_neg hex] at hf'
                  by_cases hid : id = sF.sessionId
                  · subst hid
                    have hsF : store.find? (fun t => t.sessionId = sF.sessionId) =
                        some sF := find?_of_nodup hnd hsm
                    rw [hsF] at hf
                    have hs : s = sF := (Option.some.inj hf).symm
                    subst hs
                    have hs' := find?_save_target hf' (by rfl)
                    right
                    refine ⟨hsid', hstp, hgm, ⟨player, hfp, by omega⟩, ?_⟩
                    rw [hs']
                    rfl
                  · have hne2 : id ≠ ({ sF with
                        players := updateFirst (fun p => p.socketId = cid)
                          (fun p => { p with attempts := p.attempts + 1 })
                          sF.players } : GameSession).sessionId :=
                      fun hc2 => hid hc2
                    rw [find?_saveSession_ne hne2, hf] at hf'
                    rw [Option.some.inj hf']
                    exact Or.inl rfl

lemma step_attempts {now : Nat} {c : Cmd} {w : World} {dead : List String}
    (hinv : InvS dead w.store w.timers) (hcanon : canonicalCmdB c = true)
    (hlive : ∀ cid, cmdCaller c = some cid → cid ∉ dead)
    {id : String} {s s' : GameSession}
    (hf : w.store.find? (fun t => t.sessionId = id) = some s)
    (hf' : (step now c w).1.store.find? (fun t => t.sessionId = id) = some s')
    {i : Nat} {p p' : Player}
    (hp : s.players.get? i = some p) (hp' : s'.players.get? i = some p') :
    p'.attempts = p.attempts ∨
    (∃ g, c = Cmd.guessC p.socketId id g ∧ s.status = Status.in_progress ∧
      s.gameMasterId ≠ some p.socketId ∧ p.isConnected = true ∧ p.attempts < 3 ∧
      p'.attempts = p.attempts + 1) ∨
    ((∃ cid, c = Cmd.startG cid id ∨ c = Cmd.nextRound cid id) ∧
      p'.attempts = 0) := by
  cases c with
  | create cid un sid =>
    have hss := create_attempts hf hf'
    subst hss
    rw [hp] at hp'
    left
    rw [Option.some.inj hp']
  | join cid un sid =>
    left
    exact join_attempts hinv.1 hf hf' i p p' hp hp'
  | setQ cid sid q a =>
    have hpl := setQ_attempts hinv.1 hf hf'
    left
    rw [hpl, hp] at hp'
    rw [Option.some.inj hp']
  | startG cid sid =>
    have hcsid : canonicalSid sid := by
      simpa [canonicalCmdB, cmdSid, canonicalSid] using hcanon
    rcases startG_attempts hinv.1 hcsid hf hf' with hpl | ⟨hid, hpl⟩
    · left
      rw [hpl, hp] at hp'
      rw [Option.some.inj hp']
    · right
      right
      refine ⟨⟨cid, Or.inl (by rw [hid])⟩, ?_⟩
      rw [hpl, List.get?_map, hp] at hp'
      have hpp : ({ p with attempts := 0 } : Player) = p' := Option.some.inj hp'
      rw [← hpp]
  | guessC cid sid g =>
    have hcsid : canonicalSid sid := by
      simpa [canonicalCmdB, cmdSid, canonicalSid] using hcanon
    rcases guess_attempts hinv.1 hcsid hf hf' with
      hview | ⟨hid, hstp, hgm, ⟨pl, hfp, hlt⟩, hview⟩
    · left
      exact view_get_attempts hview hp' hp
    · rcases get?_updateFirst (fun q2 => q2.socketId = cid)
        (fun q2 => { q2 with attempts := q2.attempts + 1 }) s.players i with
        hcase | ⟨x, hx1, hx2, hx3⟩
      · left
        have h1 : (updateFirst (fun q2 => q2.socketId = cid)
            (fun q2 => { q2 with attempts := q2.attempts + 1 })
            s.players).get? i = some p := by
          rw [hcase]
          exact hp
        exact view_get_attempts hview hp' h1
      · have hxp : x = p := by
          rw [hx1] at hp
          exact Option.some.inj hp
        subst hxp
        have hplx : pl = x := by
          rw [hfp] at hx2
          exact Option.some.inj hx2
        have hsock : x.socketId = cid := by
          have h2 := List.find?_some hfp
          rw [hplx] at h2
          simpa using h2
        have hlt2 : x.attempts < 3 := by
          rw [← hplx]
          exact hlt
        have hb : p'.attempts = x.attempts + 1 :=
          view_get_attempts hview hp' hx3
        have hconn : x.isConnected = true := by
          cases hcn : x.isConnected with
          | false =>
            exfalso
            have hmemx : x ∈ s.players := List.get?_mem hx1
            have hsmem : s ∈ w.store := (find?_id_mem hf).1
            have hdead := (hinv.2.1 s hsmem).2.2 x hmemx hcn
            rw [hsock] at hdead
            exact hlive cid rfl hdead
          | true => rfl
        right
        left
        exact ⟨g, by rw [hsock, hid], hstp, by rw [hsock]; exact hgm,
          hconn, hlt2, hb⟩
  | nextRound cid sid =>
    have hcsid : canonicalSid sid := by
      simpa [canonicalCmdB, cmdSid, canonicalSid] using hcanon
    rcases nextRound_attempts hinv.1 hcsid hf hf' with hpl | ⟨hid, hpl⟩
    · left
      rw [hpl, hp] at hp'
      rw [Option.some.inj hp']
    · right
      right
      refine ⟨⟨cid, Or.inr (by rw [hid])⟩, ?_⟩
      rw [hpl, List.get?_map, hp] at hp'
      have hpp : ({ p with attempts := 0 } : Player) = p' := Option.some.inj hp'
      rw [← hpp]
  | disc cid =>
    have hview := disc_attempts hinv.1 (fun s2 hs2 => (hinv.2.1 s2 hs2).1) hf hf'
    left
    exact view_get_attempts hview hp' hp
  | tick sid =>
    by_cases hmem : sid ∈ w.timers
    · have hcsid : canonicalSid sid := by
        simpa [canonicalCmdB, cmdSid, canonicalSid] using hcanon
      simp only [step, if_pos hmem] at hf'
      have hview := timerCb_attempts hinv.1 hcsid hf hf'
      left
      exact view_get_attempts hview hp' hp
    · simp only [step, if_neg hmem] at hf'
      rw [hf] at hf'
      have hss : s' = s := (Option.some.inj hf').symm
      subst hss
      rw [hp] at hp'
      left
      rw [Option.some.inj hp']

/-- C6: `attempts` stays within 0..3 (it is a `Nat`, the schema minimum 0 is
inherent; the bound 3 holds in every session reachable by a well-formed
trace); a guess from a player who already used 3 attempts is rejected with an
error to the caller and no state change; at the step level a stored player's
`attempts` counter changes only by +1 — and only for a guess command from
that very (connected, non-game-master) player's socket while the session is
`in_progress` and the counter is below 3 — or by a reset to 0, and only under
`start_game` or `start_next_round` addressed to that session; conversely a
game-master `start_next_round`, and a `start_game` meeting its guards, do
reset every `attempts` to 0. -/
theorem C6_attempts_invariant :
    (∀ tr, WFtraceB [] tr = true → AttemptsBound (runFrom initWorld tr)) ∧
    (∀ now cid sid g store T s pl,
      jsTrim g ≠ "" →
      findBySessionId store sid = some s →
      s.status = Status.in_progress →
      s.players.find? (fun p => p.socketId = cid) = some pl →
      s.gameMasterId ≠ some cid →
      3 ≤ pl.attempts →
      handleSubmitGuess now cid sid g store T =
        (store, T, [Emit.errorMsg cid "You have used all your attempts"])) ∧
    (∀ now c w dead id s s' i p p', InvD dead w → canonicalCmdB c = true →
      (∀ cid, cmdCaller c = some cid → cid ∉ dead) →
      w.store.find? (fun t => t.sessionId = id) = some s →
      (step now c w).1.store.find? (fun t => t.sessionId = id) = some s' →
      s.players.get? i = some p → s'.players.get? i = some p' →
      p'.attempts = p.attempts ∨
      (∃ g, c = Cmd.guessC p.socketId id g ∧ s.status = Status.in_progress ∧
        s.gameMasterId ≠ some p.socketId ∧ p.isConnected = true ∧
        p.attempts < 3 ∧ p'.attempts = p.attempts + 1) ∨
      ((∃ cid, c = Cmd.startG cid id ∨ c = Cmd.nextRound cid id) ∧
        p'.attempts = 0)) ∧
    (∀ now cid sid store s,
      findBySessionId store sid = some s →
      s.gameMasterId = some cid →
      ∃ d, (handleStartNextRound now cid sid store).1.find?
          (fun t => t.sessionId = s.sessionId) = some d ∧
        attemptsView d = s.players.map (fun _ => 0)) ∧
    (∀ now cid sid store T s,
      findBySessionId store sid = some s →
      s.gameMasterId = some cid →
      ¬(s.players.filter (fun p => p.isConnected)).length < 2 →
      ¬(strOptFalsy s.currentQuestion || strOptFalsy s.currentAnswer) = true →
      s.status ≠ Status.in_progress →
      ∃ d, (handleStartGame now cid sid store T).1.find?
          (fun t => t.sessionId = s.sessionId) = some d ∧
        attemptsView d = s.players.map (fun _ => 0)) := by
  refine ⟨?_, ?_, ?_, ?_, ?_⟩
  · intro tr hwf
    have h0 : InvS [] initWorld.store initWorld.timers := by
      refine ⟨?_, ?_, ?_⟩ <;> simp [initWorld]
    intro s hs p hp
    exact (((inv_runFrom tr [] initWorld hwf h0).2.1) s hs).2.1 p hp
  · intro now cid sid g store T s pl hg hfb hst hfp hgm hle
    simp only [handleSubmitGuess, hfb]
    rw [if_neg hg, if_neg (fun hcon => hcon hst)]
    simp only [hfp]
    rw [if_neg hgm, if_pos hle]
  · intro now c w dead id s s' i p p' hinv hcanon hlive hf hf' hp hp'
    exact step_attempts hinv hcanon hlive hf hf' hp hp'
  · intro now cid sid store s hfb hgm
    simp only [handleStartNextRound, hfb]
    rw [if_neg (fun hcon => hcon hgm)]
    refine ⟨_, find?_saveSession_self now store
      ({ s with
        status := Status.waiting
        currentQuestion := none
        currentAnswer := none
        winner := none
        gameStartTime := none
        players := s.players.map (fun p => { p with attempts := 0 }) }), ?_⟩
    simp only [attemptsView, List.map_map]
    rfl
  · intro now cid sid store T s hfb hgm h2 h3 h4
    simp only [handleStartGame, hfb]
    rw [if_neg (fun hcon => hcon hgm), if_neg h2, if_neg h3, if_neg h4]
    refine ⟨_, find?_saveSession_self now store
      ({ s with
        players := s.players.map (fun p => { p with attempts := 0 })
        status := Status.in_progress
        gameStartTime := some now
        winner := none }), ?_⟩
    simp only [attemptsView, List.map_map]
    rfl

/-- C6 (witness): the one-command create trace keeps the bound; the maxed-out
guesser is rejected without change; cara's wrong mid-round guess instantiates
the step-level characterization at her player row; and the game master's
`start_next_round` and `start_game` reset every attempts counter on the
concrete ended session. -/
theorem C6_witness :
    AttemptsBound (runFrom initWorld [(3, Cmd.create "c1" "al" "abc12")]) ∧
    handleSubmitGuess 9 "sb" "abc12" "nope" [sMaxed] ["k"] =
      ([sMaxed], ["k"], [Emit.errorMsg "sb" "You have used all your attempts"]) ∧
    (({ pCara with attempts := 1 } : Player).attempts = pCara.attempts ∨
     (∃ g, Cmd.guessC "sc" "abc12" "londn" = Cmd.guessC pCara.socketId "abc12" g ∧
        sThree.status = Status.in_progress ∧
        sThree.gameMasterId ≠ some pCara.socketId ∧ pCara.isConnected = true ∧
        pCara.attempts < 3 ∧
        ({ pCara with attempts := 1 } : Player).attempts = pCara.attempts + 1) ∨
     ((∃ cid, Cmd.guessC "sc" "abc12" "londn" = Cmd.startG cid "abc12" ∨
        Cmd.guessC "sc" "abc12" "londn" = Cmd.nextRound cid "abc12") ∧
        ({ pCara with attempts := 1 } : Player).attempts = 0)) ∧
    (∃ d, (handleStartNextRound 8 "sa" "abc12" [sEnded]).1.find?
        (fun t => t.sessionId = sEnded.sessionId) = some d ∧
      attemptsView d = sEnded.players.map (fun _ => 0)) ∧
    (∃ d, (handleStartGame 8 "sa" "abc12" [sEnded] []).1.find?
        (fun t => t.sessionId = sEnded.sessionId) = some d ∧
      attemptsView d = sEnded.players.map (fun _ => 0)) :=
  ⟨C6_attempts_invariant.1 [(3, Cmd.create "c1" "al" "abc12")] (by decide),
   C6_attempts_invariant.2.1 9 "sb" "abc12" "nope" [sMaxed] ["k"] sMaxed
     ({ pBob with attempts := 3 }) (by decide) (by decide) (by decide) (by decide)
     (by decide) (by decide),
   C6_attempts_invariant.2.2.1 7 (Cmd.guessC "sc" "abc12" "londn")
     { store := [sThree], timers := ["abc12"] } [] "abc12" sThree
     ({ sThree with
        players := [pAlice, pBob, { pCara with attempts := 1 }]
        updatedAt := 7 })
     2 pCara ({ pCara with attempts := 1 })
     (by
       refine ⟨by decide, ?_, ?_⟩
       · intro s hs
         simp only [List.mem_singleton] at hs
         subst hs
         refine ⟨?_, by decide, by decide⟩
         show jsTrim (jsToLower sThree.sessionId) = sThree.sessionId
         decide
       · intro s hs
         simp only [List.mem_singleton] at hs
         subst hs
         intro hse
         exact absurd hse (by decide))
     (by decide) (fun cid h => by cases h; exact List.not_mem_nil _)
     (by decide) (by decide) (by decide) (by decide),
   C6_attempts_invariant.2.2.2.1 8 "sa" "abc12" [sEnded] sEnded
     (by decide) (by decide),
   C6_attempts_invariant.2.2.2.2 8 "sa" "abc12" [sEnded] [] sEnded
     (by decide) (by decide) (by decide) (by decide) (by decide)⟩

end GuessWhat
